import Mathlib

/-!
Shallow embedding of the `decimal-rs` library (a 38-digit precision decimal
number type) and verification of claims about it.

Conventions of the embedding:
* Rust `u128` / `U256` values are modelled as `Nat`; where the source takes
  the low 128 bits of a `U256` (`.low()`) we apply `% 2^128`.  The `U256`
  checked operations (`checked_add` / `checked_sub` / `checked_mul`) are
  modelled by their exact mathematical characterisation: the result when it
  fits in 256 bits (resp. is non-negative), `none` otherwise.
* Rust `i16`/`i32` scale arithmetic is modelled on `Int` (in the source the
  intermediate quantities are range-limited so the fixed-width arithmetic is
  exact; explicit `as u8` / `as i16` truncating casts are modelled by
  explicit `% 256` / `castI16`).
* Loops are modelled by structural recursion on an explicit fuel argument.
  For the normalisation / remainder loops the fuel given at the call site is
  an exact bound on the number of iterations, so the embedded function is
  extensionally equal to the source loop.  For the convergence loops
  (`sqrt`, `ln`, `exp`) exhausted fuel yields `none`.
* Rust panics (assertion failures) are modelled by `none`.
-/

namespace DecimalRs

def MAX_PRECISION : Nat := 38
def MAX_BINARY_SIZE : Nat := 18
def MAX_SCALE : Int := 130
def MIN_SCALE : Int := -126

/-- `convert.rs`: `MAX_I128_REPR = 99_9999_..._9999_i128` (38 nines). -/
def MAX_I128_REPR : Nat := 99999999999999999999999999999999999999

/-- High precision decimal: `(int_val, scale, negative)`, value
`(-1)^negative * int_val * 10^(-scale)`. -/
structure Decimal where
  int_val : Nat
  scale : Int
  negative : Bool
deriving DecidableEq, Repr

/-! ## U256 model (`u256.rs`)

`U256` is modelled as `Nat`.  The tables `POWERS_10` and `ROUNDINGS` are
transcribed literally from the source as `(low, high)` pairs of `u128`
limbs; the numeric value of an entry is `low + high * 2^128`. -/

def U128_LIMIT : Nat := 2 ^ 128
def U256_LIMIT : Nat := 2 ^ 256

/-- The low 128 bits of a `U256` (`U256::low`). -/
def u256low (v : Nat) : Nat := v % U128_LIMIT

def POWERS_10_TBL : List (Nat × Nat) := [
  (1, 0),
  (10, 0),
  (100, 0),
  (1000, 0),
  (10000, 0),
  (100000, 0),
  (1000000, 0),
  (10000000, 0),
  (100000000, 0),
  (1000000000, 0),
  (10000000000, 0),
  (100000000000, 0),
  (1000000000000, 0),
  (10000000000000, 0),
  (100000000000000, 0),
  (1000000000000000, 0),
  (10000000000000000, 0),
  (100000000000000000, 0),
  (1000000000000000000, 0),
  (10000000000000000000, 0),
  (100000000000000000000, 0),
  (1000000000000000000000, 0),
  (10000000000000000000000, 0),
  (100000000000000000000000, 0),
  (1000000000000000000000000, 0),
  (10000000000000000000000000, 0),
  (100000000000000000000000000, 0),
  (1000000000000000000000000000, 0),
  (10000000000000000000000000000, 0),
  (100000000000000000000000000000, 0),
  (1000000000000000000000000000000, 0),
  (10000000000000000000000000000000, 0),
  (100000000000000000000000000000000, 0),
  (1000000000000000000000000000000000, 0),
  (10000000000000000000000000000000000, 0),
  (100000000000000000000000000000000000, 0),
  (1000000000000000000000000000000000000, 0),
  (10000000000000000000000000000000000000, 0),
  (100000000000000000000000000000000000000, 0),
  (319435266158123073073250785136463577088, 2),
  (131811359292784559562136384478721867776, 29),
  (297266492165030205231240022491914043392, 293),
  (250405986282794344605403365464994742272, 2938),
  (122083294381374201810411402627569942528, 29387),
  (199985843050926627713990203980394790912, 293873),
  (298446595904573959823029002645106851840, 2938735),
  (262207023678231890523293166996922826752, 29387358),
  (240093668335749660989309417946850787328, 293873587),
  (18960114910927365649471927446130393088, 2938735877),
  (189601149109273656494719274461303930880, 29387358770),
  (194599656488044247630319707454198251520, 293873587705),
  (244584730275750158986324037383141457920, 2938735877055),
  (63870734310932345619618121809037099008, 29387358770557),
  (298424976188384992732806610658602778624, 293873587705571),
  (261990826516342219621069247131882094592, 2938735877055718),
  (237931696716852951967070219296443465728, 29387358770557187),
  (337622765642898738890454548373825388544, 293873587705571876),
  (313686354140541217734174016852339982336, 2938735877055718769),
  (74322239116966006171368701637485920256, 29387358770557187699),
  (62657657327783134786937801511322779648, 293873587705571876992),
  (286294206356892884406003407681459585024, 2938735877055718769921),
  (140683128201421136353037217360450158592, 29387358770557187699218),
  (45701814330457509676873743877428740096, 293873587705571876992184),
  (116735776383636633305362831342519189504, 2938735877055718769921841),
  (146510663073550942663504491129887260672, 29387358770557187699218413),
  (103977163051755572781546481571799760896, 293873587705571876992184134),
  (18924529754740337425340993422692974592, 2938735877055718769921841343),
  (189245297547403374253409934226929745920, 29387358770557187699218413430),
  (191041140869341425217226305110456401920, 293873587705571876992184134305),
  (208999574088721934855390013945722961920, 2938735877055718769921841343055),
  (48301539361588567773652494866620350464, 29387358770557187699218413430556),
  (142733026694947214273150341234435293184, 293873587705571876992184134305561),
  (66200799265718288878004982617280086016, 2938735877055718769921841343055614),
  (321725625736244425316675218741032648704, 29387358770557187699218413430556141),
  (154714955073998081996380720524412583936, 293873587705571876992184134305561419),
  (186020083056226966110308775517052993536, 2938735877055718769921841343055614194),
  (158788995957577343786214718011688878080, 29387358770557187699218413430556141945)]

def ROUNDINGS_TBL : List (Nat × Nat) := [
  (0, 0),
  (5, 0),
  (50, 0),
  (500, 0),
  (5000, 0),
  (50000, 0),
  (500000, 0),
  (5000000, 0),
  (50000000, 0),
  (500000000, 0),
  (5000000000, 0),
  (50000000000, 0),
  (500000000000, 0),
  (5000000000000, 0),
  (50000000000000, 0),
  (500000000000000, 0),
  (5000000000000000, 0),
  (50000000000000000, 0),
  (500000000000000000, 0),
  (5000000000000000000, 0),
  (50000000000000000000, 0),
  (500000000000000000000, 0),
  (5000000000000000000000, 0),
  (50000000000000000000000, 0),
  (500000000000000000000000, 0),
  (5000000000000000000000000, 0),
  (50000000000000000000000000, 0),
  (500000000000000000000000000, 0),
  (5000000000000000000000000000, 0),
  (50000000000000000000000000000, 0),
  (500000000000000000000000000000, 0),
  (5000000000000000000000000000000, 0),
  (50000000000000000000000000000000, 0),
  (500000000000000000000000000000000, 0),
  (5000000000000000000000000000000000, 0),
  (50000000000000000000000000000000000, 0),
  (500000000000000000000000000000000000, 0),
  (5000000000000000000000000000000000000, 0),
  (50000000000000000000000000000000000000, 0),
  (159717633079061536536625392568231788544, 1),
  (236046863106861511512755495955245039616, 14),
  (318774429542984334347307314961841127424, 146),
  (125202993141397172302701682732497371136, 1469),
  (231182830651156332636893005029669076992, 14693),
  (270134104985932545588682405706081501184, 146936),
  (319364481412756211643201805038437531648, 1469367),
  (131103511839115945261646583498461413376, 14693679),
  (290188017628344062226342012689309499392, 146936793),
  (179621240915932914556423267438949302272, 1469367938),
  (94800574554636828247359637230651965440, 14693679385),
  (267441011704491355546847157442983231488, 146936793852),
  (292433548598344311224849322407454834688, 1469367938527),
  (202076550615935404541496364620402655232, 14693679385278),
  (319353671554661728098090609045185495040, 146936793852785),
  (130995413258171109810534623565941047296, 1469367938527859),
  (289107031818895707715222413364105838592, 14693679385278593),
  (168811382821449369445227274186912694272, 146936793852785938),
  (326984360530739840598774312142054096896, 1469367938527859384),
  (207302303018952234817371654534627065856, 14693679385278593849),
  (31328828663891567393468900755661389824, 146936793852785938496),
  (313288286638915673934689007556613898240, 1469367938527859384960),
  (70341564100710568176518608680225079296, 14693679385278593849609),
  (22850907165228754838436871938714370048, 146936793852785938496092),
  (228509071652287548384368719387143700480, 1469367938527859384960920),
  (243396514997244703063439549280827736064, 14693679385278593849609206),
  (51988581525877786390773240785899880448, 146936793852785938496092067),
  (179603448337839400444357800427230593024, 1469367938527859384960920671),
  (94622648773701687126704967113464872960, 14693679385278593849609206715),
  (265661753895139944340300456271112306688, 146936793852785938496092067152),
  (274640970504830199159382310688745586688, 1469367938527859384960920671527),
  (24150769680794283886826247433310175232, 14693679385278593849609206715278),
  (241507696807942838868262474333101752320, 146936793852785938496092067152780),
  (33100399632859144439002491308640043008, 1469367938527859384960920671527807),
  (331003996328591444390024913086400430080, 14693679385278593849609206715278070),
  (247498660997468272729877663978090397696, 146936793852785938496092067152780709),
  (93010041528113483055154387758526496768, 1469367938527859384960920671527807097),
  (249535681439257903624794662721728544768, 14693679385278593849609206715278070972)]

/-- Value of `POWERS_10[k]`. -/
def POWERS_10 (k : Nat) : Nat :=
  let p := POWERS_10_TBL.getD k (0, 0)
  p.1 + p.2 * U128_LIMIT

/-- `POWERS_10[k].low()`. -/
def POWERS_10_low (k : Nat) : Nat := (POWERS_10_TBL.getD k (0, 0)).1

/-- Value of `ROUNDINGS[k]`. -/
def ROUNDINGS (k : Nat) : Nat :=
  let p := ROUNDINGS_TBL.getD k (0, 0)
  p.1 + p.2 * U128_LIMIT

/-- `ROUNDINGS[k].low()`. -/
def ROUNDINGS_low (k : Nat) : Nat := (ROUNDINGS_TBL.getD k (0, 0)).1

/-- `U256::count_digits`: a binary search over the sorted slice `POWERS_10`
(77 entries).  `binary_search` yields `Ok(pos)` when the value is present
(result `pos + 1`) and otherwise `Err(pos)` with `pos` the insertion point,
i.e. the number of entries strictly below the value (result `pos`, clamped
to 1 at the bottom).  The derived `Ord` on `U256 { high, low }` orders
lexicographically by `(high, low)`, which agrees with the numeric order used
here. -/
def count_digits (v : Nat) : Nat :=
  match (List.range 77).find? (fun k => v ≤ POWERS_10 k) with
  | some k => if v = POWERS_10 k then k + 1 else if k = 0 then 1 else k
  | none => 77

/-- `U256::is_decimal_overflowed`: true iff `high > 0` or `low >= 10^38`. -/
def is_decimal_overflowed (v : Nat) : Bool :=
  if v / U128_LIMIT > 0 then true else POWERS_10_low 38 ≤ v % U128_LIMIT

/-- `U256::checked_add` (exact characterisation of `overflowing_add`). -/
def u256checked_add (a b : Nat) : Option Nat :=
  if a + b < U256_LIMIT then some (a + b) else none

/-- `U256::checked_sub` (exact characterisation of `overflowing_sub`). -/
def u256checked_sub (a b : Nat) : Option Nat :=
  if b ≤ a then some (a - b) else none

/-- `U256::checked_mul` (exact characterisation of `overflowing_mul`). -/
def u256checked_mul (a b : Nat) : Option Nat :=
  if a * b < U256_LIMIT then some (a * b) else none

/-- `U256::div128_round`: divide with half-up rounding on the remainder
(`other - rem <= rem` iff `2 * rem >= other`). -/
def div128_round (n d : Nat) : Nat :=
  let result := n / d
  let rem := n % d
  if rem = 0 then result
  else if d - rem ≤ rem then result + 1 else result

/-! ## Decimal constructors, accessors (`decimal.rs`) -/

def ZERO : Decimal := ⟨0, 0, false⟩
def ONE : Decimal := ⟨1, 0, false⟩
def MINUS_ONE : Decimal := ⟨1, 0, true⟩
def TWO : Decimal := ⟨2, 0, false⟩
def ZERO_POINT_FIVE : Decimal := ⟨5, 1, false⟩

/-- `Decimal::from_parts_unchecked`: canonicalises zero. -/
def from_parts_unchecked (int_val : Nat) (scale : Int) (negative : Bool) : Decimal :=
  if int_val ≠ 0 then ⟨int_val, scale, negative⟩ else ZERO

/-- `Decimal::from_parts`. -/
def from_parts (int_val : Nat) (scale : Int) (negative : Bool) : Option Decimal :=
  if int_val > MAX_I128_REPR then none
  else if MAX_SCALE + (MAX_PRECISION : Int) ≤ scale ∨ scale < MIN_SCALE then none
  else some (from_parts_unchecked int_val scale negative)

/-- `Decimal::precision`. -/
def precision (d : Decimal) : Nat := count_digits d.int_val

/-- `Neg` for `Decimal` (`ops.rs`): flips the sign unless zero. -/
def neg (d : Decimal) : Decimal :=
  if d.int_val ≠ 0 then ⟨d.int_val, d.scale, !d.negative⟩ else d

/-- `Decimal::abs`. -/
def abs (d : Decimal) : Decimal := ⟨d.int_val, d.scale, false⟩

/-- `From<iN>` for `Decimal` (`convert.rs`, small signed integers). -/
def decimal_from_int (v : Int) : Decimal := ⟨v.natAbs, 0, decide (v < 0)⟩

/-! ## Comparison (`Ord for Decimal`) -/

/-- `Decimal::rescale_cmp` (precondition `self.scale < other.scale`). -/
def rescale_cmp (self other : Decimal) : Ordering :=
  let e := other.scale - self.scale
  if e > (MAX_PRECISION : Int) then .gt
  else compare (self.int_val * POWERS_10_low e.toNat) other.int_val

/-- `Ord::cmp for Decimal`. -/
def cmp (self other : Decimal) : Ordering :=
  if self.negative ≠ other.negative then
    if self.negative then .lt else .gt
  else
    let lr := if self.negative then (other, self) else (self, other)
    let left := lr.1
    let right := lr.2
    if left.int_val = 0 then
      if right.int_val = 0 then .eq else .lt
    else if right.int_val = 0 then .gt
    else if left.scale = right.scale then compare left.int_val right.int_val
    else if left.scale < right.scale then rescale_cmp left right
    else (rescale_cmp right left).swap

/-! ## Normalisation -/

/-- First loop of `normalize_to_scale`: while `current_scale > target` and
the significand is divisible by 10, divide it by 10.  The fuel given at the
call site, `(scale₀ - target).toNat`, is an exact iteration bound. -/
def norm_down : Nat → Nat → Int → Int → Nat × Int
  | 0, m, e, _ => (m, e)
  | fuel + 1, m, e, target =>
    if e > target then
      if m % 10 > 0 then (m, e)
      else norm_down fuel (m / 10) (e - 1) target
    else (m, e)

/-- Second loop of `normalize_to_scale`: while `current_scale < target` and
the significand stays below `10^37`, multiply it by 10. -/
def norm_up : Nat → Nat → Int → Int → Nat × Int
  | 0, m, e, _ => (m, e)
  | fuel + 1, m, e, target =>
    if e < target then
      if m ≥ 10000000000000000000000000000000000000 then (m, e)
      else norm_up fuel (m * 10) (e + 1) target
    else (m, e)

/-- `Decimal::normalize_to_scale`. -/
def normalize_to_scale (d : Decimal) (scale : Int) : Decimal :=
  if d.int_val = 0 then ZERO
  else if d.scale = scale then d
  else
    let p1 := norm_down (d.scale - scale).toNat d.int_val d.scale scale
    let p2 := norm_up (scale - p1.2).toNat p1.1 p1.2 scale
    from_parts_unchecked p2.1 p2.2 d.negative

/-- `Decimal::normalize`. -/
def normalize (d : Decimal) : Decimal := normalize_to_scale d 0

/-! ## Scale adjustment and addition / subtraction -/

/-- `Decimal::adjust_scale`. -/
def adjust_scale (int_val : Nat) (scale : Int) (negative : Bool) : Option Decimal :=
  let digits := count_digits int_val
  let s : Int := scale - (digits : Int)
  if s ≥ MAX_SCALE then some ZERO
  else if s < MIN_SCALE then none
  else if digits > MAX_PRECISION then
    let shift_scale := digits - MAX_PRECISION
    if shift_scale ≤ MAX_PRECISION then
      let dividend := int_val + ROUNDINGS_low shift_scale
      let result := dividend / POWERS_10_low shift_scale
      some (from_parts_unchecked (u256low result) (scale - (shift_scale : Int)) negative)
    else
      let dividend := int_val + ROUNDINGS shift_scale
      let result := dividend / POWERS_10 shift_scale
      some (from_parts_unchecked (u256low result) (scale - (shift_scale : Int)) negative)
  else some (from_parts_unchecked (u256low int_val) scale negative)

/-- `Decimal::rescale_add` (precondition `self.scale < other.scale`). -/
def rescale_add (self other : Decimal) (negative : Bool) : Option Decimal :=
  let e := other.scale - self.scale
  if e > (MAX_PRECISION : Int) then
    if self.int_val = 0 then
      some (from_parts_unchecked other.int_val other.scale negative)
    else if other.int_val = 0 then
      some (from_parts_unchecked self.int_val self.scale negative)
    else
      match
        (if e < 77 then
          match u256checked_mul (POWERS_10 e.toNat) self.int_val with
          | some self_int_val =>
            match u256checked_add self_int_val other.int_val with
            | some int_val => some (adjust_scale int_val other.scale negative)
            | none => none
          | none => none
        else none) with
      | some r => r
      | none => some (from_parts_unchecked self.int_val self.scale negative)
  else
    let self_int_val := self.int_val * POWERS_10_low e.toNat
    adjust_scale (self_int_val + other.int_val) other.scale negative

/-- `Decimal::add_internal`. -/
def add_internal (self other : Decimal) (negative : Bool) : Option Decimal :=
  if self.scale ≠ other.scale then
    if self.scale < other.scale then rescale_add self other negative
    else rescale_add other self negative
  else
    let int_val := self.int_val + other.int_val
    if ¬is_decimal_overflowed int_val ∧ self.scale ≥ 0 then
      some (from_parts_unchecked (u256low int_val) self.scale negative)
    else
      adjust_scale int_val self.scale negative

/-- `Decimal::rescale_sub` (precondition `self.scale < other.scale`). -/
def rescale_sub (self other : Decimal) (negative : Bool) : Option Decimal :=
  let e := other.scale - self.scale
  if e > (MAX_PRECISION : Int) then
    match
      (if e < 77 then
        match u256checked_mul (POWERS_10 e.toNat) self.int_val with
        | some self_int_val =>
          match u256checked_sub self_int_val other.int_val with
          | some int_val => some (adjust_scale int_val other.scale negative)
          | none => none
        | none => none
      else none) with
    | some r => r
    | none => some (from_parts_unchecked self.int_val self.scale negative)
  else
    let self_int_val := self.int_val * POWERS_10_low e.toNat
    if self_int_val ≥ other.int_val then
      adjust_scale (self_int_val - other.int_val) other.scale negative
    else
      adjust_scale (other.int_val - self_int_val) other.scale (!negative)

/-- `Decimal::sub_internal`. -/
def sub_internal (self other : Decimal) (negative : Bool) : Option Decimal :=
  if other.int_val = 0 then some self
  else if self.int_val = 0 then
    some (from_parts_unchecked other.int_val other.scale (!negative))
  else if self.scale ≠ other.scale then
    if self.scale < other.scale then rescale_sub self other negative
    else rescale_sub other self (!negative)
  else if self.int_val ≥ other.int_val then
    some (from_parts_unchecked (self.int_val - other.int_val) self.scale negative)
  else
    some (from_parts_unchecked (other.int_val - self.int_val) self.scale (!negative))

/-- `Decimal::checked_add`. -/
def checked_add (self other : Decimal) : Option Decimal :=
  if self.negative ≠ other.negative then
    if other.negative then sub_internal self other self.negative
    else sub_internal other self other.negative
  else add_internal self other self.negative

/-- `Decimal::checked_sub`. -/
def checked_sub (self other : Decimal) : Option Decimal :=
  if self.negative ≠ other.negative then add_internal self other self.negative
  else if self.negative then sub_internal other self (!self.negative)
  else sub_internal self other self.negative

/-! ## Multiplication, division, remainder, truncation, rounding -/

/-- `Decimal::checked_mul`. -/
def checked_mul (self other : Decimal) : Option Decimal :=
  if self.int_val = 0 ∨ other.int_val = 0 then some ZERO
  else
    let scale := self.scale + other.scale
    let negative := self.negative ≠ other.negative
    let int_val := self.int_val * other.int_val
    if ¬is_decimal_overflowed int_val ∧ scale = 0 then
      some (from_parts_unchecked (u256low int_val) 0 negative)
    else
      adjust_scale int_val scale negative

/-- `Decimal::checked_div`. -/
def checked_div (self other : Decimal) : Option Decimal :=
  if other.int_val = 0 then none
  else if self.int_val = 0 then some ZERO
  else
    let other_precision := count_digits other.int_val
    let self_precision := count_digits self.int_val
    let sp :=
      if other_precision > self_precision then
        (POWERS_10 (MAX_PRECISION + (other_precision - self_precision)) * self.int_val,
          other_precision - self_precision)
      else
        (self.int_val * POWERS_10_low MAX_PRECISION, 0)
    let negative := self.negative ≠ other.negative
    let int_val := div128_round sp.1 other.int_val
    let scale := self.scale - other.scale + (MAX_PRECISION : Int) + (sp.2 : Int)
    adjust_scale int_val scale negative

/-- The loop in `checked_rem`'s `self.scale < other.scale` branch.  Each
iteration moves `res.scale` up by `min(38, other.scale - res.scale) ≥ 1`,
so the fuel given at the call site, `(other.scale - self.scale).toNat`,
is an exact iteration bound. -/
def rem_loop : Nat → Decimal → Decimal → Decimal
  | 0, res, _ => res
  | fuel + 1, res, other =>
    let scale : Int := min (MAX_PRECISION : Int) (other.scale - res.scale)
    let res_val := res.int_val * POWERS_10_low scale.toNat
    let rem := res_val % other.int_val
    let res' := from_parts_unchecked (u256low rem) (res.scale + scale) res.negative
    if res'.scale = other.scale ∨ res'.int_val = 0 then res'
    else rem_loop fuel res' other

/-- `Decimal::checked_rem`. -/
def checked_rem (self other : Decimal) : Option Decimal :=
  if other.int_val = 0 then none
  else if self.int_val = 0 then some ZERO
  else if self.scale = other.scale then
    some (from_parts_unchecked (self.int_val % other.int_val) self.scale self.negative)
  else if self.scale < other.scale then
    some (rem_loop (other.scale - self.scale).toNat self other)
  else
    let e := self.scale - other.scale
    if e > (MAX_PRECISION : Int) then some self
    else
      let other_int_val := other.int_val * POWERS_10_low e.toNat
      some (from_parts_unchecked (u256low (self.int_val % other_int_val)) self.scale self.negative)

/-- `Decimal::trunc`. -/
def trunc (self : Decimal) (scale : Int) : Decimal :=
  if self.int_val = 0 then ZERO
  else
    let real_scale := min (max scale MIN_SCALE) (MAX_SCALE + (MAX_PRECISION : Int) - 1)
    if self.scale ≤ real_scale then self
    else
      let e := self.scale - real_scale
      if e > (MAX_PRECISION : Int) then ZERO
      else
        from_parts_unchecked (self.int_val / POWERS_10_low e.toNat) real_scale self.negative

/-- `Decimal::round`. -/
def round (self : Decimal) (scale : Int) : Decimal :=
  if self.int_val = 0 then ZERO
  else
    let real_scale := min (max scale MIN_SCALE) (MAX_SCALE + (MAX_PRECISION : Int) - 1)
    if self.scale ≤ real_scale then self
    else
      let e := self.scale - real_scale
      if e > (MAX_PRECISION : Int) then ZERO
      else
        from_parts_unchecked ((self.int_val + ROUNDINGS_low e.toNat) / POWERS_10_low e.toNat)
          real_scale self.negative

/-! ## Square root, logarithm, exponential, power -/

/-- Generic convergence fuel for the `sqrt` / `ln` / `exp` Taylor loops.
Far larger than any iteration count these loops can reach before their
break conditions fire (terms shrink by large factors each step). -/
def FUEL : Nat := 1000

/-- The Newton iteration loop of `Decimal::sqrt`.  At the top of each source
iteration `last == result`; the body computes the next iterate and breaks
when it equals `last`. -/
def sqrt_loop : Nat → Decimal → Decimal → Option Decimal
  | 0, _, _ => none
  | fuel + 1, self, last =>
    match checked_div self last with
    | none => none
    | some v =>
      let val := normalize v
      match checked_add last val with
      | none => none
      | some r1 =>
        match checked_mul r1 ZERO_POINT_FIVE with
        | none => none
        | some result =>
          if cmp result last = .eq then some result
          else sqrt_loop fuel self result

/-- `Decimal::sqrt`. -/
def sqrt (self : Decimal) : Option Decimal :=
  if self.negative then none
  else if self.int_val = 0 then some ZERO
  else sqrt_loop FUEL self ONE

def ZERO_POINT_ONE : Decimal := ⟨1, 1, false⟩
def ONE_POINT_ONE : Decimal := ⟨11, 1, false⟩
def TEN : Decimal := ⟨10, 0, false⟩
def LN_LOWER_BOUND : Decimal := ⟨9047, 4, false⟩
def R : Decimal := ⟨12217, 4, false⟩
def LN_10 : Decimal := ⟨23025850929940456840179914546843642076, 37, false⟩
def LN_R : Decimal := ⟨2002433314278771112016301166984297937, 37, false⟩

/-- `ln` range reduction: while `x > 1.1` multiply by `0.1`. -/
def ln_loop1 : Nat → Decimal → Int → Option (Decimal × Int)
  | 0, _, _ => none
  | fuel + 1, x, n1 =>
    if cmp x ONE_POINT_ONE = .gt then
      match checked_mul x ZERO_POINT_ONE with
      | none => none
      | some x' => ln_loop1 fuel x' (n1 + 1)
    else some (x, n1)

/-- `ln` range reduction: while `x ≤ 0.1` multiply by `10`. -/
def ln_loop2 : Nat → Decimal → Int → Option (Decimal × Int)
  | 0, _, _ => none
  | fuel + 1, x, n1 =>
    if cmp x ZERO_POINT_ONE ≠ .gt then
      match checked_mul x TEN with
      | none => none
      | some x' => ln_loop2 fuel x' (n1 - 1)
    else some (x, n1)

/-- `ln` range reduction: while `x < 0.9047` multiply by `R = 1.2217`. -/
def ln_loop3 : Nat → Decimal → Int → Option (Decimal × Int)
  | 0, _, _ => none
  | fuel + 1, x, n2 =>
    if cmp x LN_LOWER_BOUND = .lt then
      match checked_mul x R with
      | none => none
      | some x' => ln_loop3 fuel x' (n2 - 1)
    else some (x, n2)

/-- The Taylor loop of `Decimal::ln`. -/
def ln_taylor : Nat → Decimal → Decimal → Decimal → Int → Option Decimal
  | 0, _, _, _, _ => none
  | fuel + 1, y_square, sum, power_y, iter =>
    let iter' := iter + 2
    match checked_mul power_y y_square with
    | none => none
    | some power_y' =>
      match checked_div power_y' (decimal_from_int iter') with
      | none => none
      | some term =>
        if term.int_val = 0 then some sum
        else
          match checked_add sum term with
          | none => none
          | some sum' =>
            if cmp sum sum' = .eq then some sum'
            else ln_taylor fuel y_square sum' power_y' iter'

/-- `Decimal::ln`. -/
def ln (self : Decimal) : Option Decimal :=
  if self.negative ∨ self.int_val = 0 then none
  else if cmp self ONE = .eq then some ZERO
  else do
    let p1 ← ln_loop1 FUEL self 0
    let p2 ← ln_loop2 FUEL p1.1 p1.2
    let p3 ← ln_loop3 FUEL p2.1 0
    let z := p3.1
    let num ← checked_sub z ONE
    let den ← checked_add z ONE
    let y ← checked_div num den
    let y_square ← checked_mul y y
    let sum ← ln_taylor FUEL y_square y y 1
    let ln_z ← checked_mul sum TWO
    let t1 ← checked_mul LN_10 (decimal_from_int p2.2)
    let r1 ← checked_add ln_z t1
    let t2 ← checked_mul LN_R (decimal_from_int p3.2)
    checked_add r1 t2

/-- The Taylor loop of `Decimal::exp_decimal`. -/
def exp_taylor : Nat → Decimal → Decimal → Decimal → Int → Option Decimal
  | 0, _, _, _, _ => none
  | fuel + 1, x, term, sum, iter =>
    let iter' := iter + 1
    match checked_div term (decimal_from_int iter') with
    | none => none
    | some t1 =>
      match checked_mul t1 x with
      | none => none
      | some term' =>
        if term'.int_val = 0 then some sum
        else
          match checked_add sum term' with
          | none => none
          | some sum' =>
            if cmp sum sum' = .eq then some sum'
            else exp_taylor fuel x term' sum' iter'

/-- `Decimal::exp_decimal`. -/
def exp_decimal (self : Decimal) : Option Decimal :=
  match checked_add ONE self with
  | none => none
  | some sum => exp_taylor FUEL self self sum 1

def EXP_UPPER_BOUND : Decimal := ⟨291, 0, false⟩
def EXP_LOWER_BOUND : Decimal := ⟨300, 0, true⟩

/-- The `(int_val, scale)` pairs of the `NATURAL_EXP` table (all entries are
positive): `NATURAL_EXP[k] = e^k` to 38 digits. -/
def NATURAL_EXP_TBL : List (Nat × Int) := [
  (1, 0),
  (27182818284590452353602874713526624975, 37),
  (73890560989306502272304274605750078133, 37),
  (20085536923187667740928529654581717900, 36),
  (54598150033144239078110261202860878404, 36),
  (14841315910257660342111558004055227960, 35),
  (40342879349273512260838718054338827962, 35),
  (10966331584284585992637202382881214326, 34),
  (29809579870417282747435920994528886736, 34),
  (81030839275753840077099966894327599646, 34),
  (22026465794806716516957900645284244366, 33),
  (59874141715197818455326485792257781616, 33),
  (16275479141900392080800520489848678316, 32),
  (44241339200892050332610277594908828183, 32),
  (12026042841647767777492367707678594496, 31),
  (32690173724721106393018550460917213156, 31),
  (88861105205078726367630237407814503509, 31),
  (24154952753575298214775435180385823883, 30),
  (65659969137330511138786503259060033570, 30),
  (17848230096318726084491003378872270387, 29),
  (48516519540979027796910683054154055870, 29),
  (13188157344832146972099988837453027850, 28),
  (35849128461315915616811599459784206894, 28),
  (97448034462489026000346326848229752775, 28),
  (26489122129843472294139162152811882340, 27),
  (72004899337385872524161351466126157931, 27),
  (19572960942883876426977639787609534281, 26),
  (53204824060179861668374730434117744164, 26),
  (14462570642914751736770474229969288564, 25),
  (39313342971440420743886205808435276867, 25),
  (10686474581524462146990468650741401654, 24),
  (29048849665247425231085682111679825660, 24),
  (78962960182680695160978022635108224222, 24),
  (21464357978591606462429776153126088037, 23),
  (58346174252745488140290273461039101919, 23),
  (15860134523134307281296446257746601247, 22),
  (43112315471151952271134222928569253911, 22),
  (11719142372802611308772939791190194524, 21),
  (31855931757113756220328671701298645997, 21),
  (86593400423993746953606932719264934249, 21),
  (23538526683701998540789991074903480449, 20),
  (63984349353005494922266340351557081880, 20),
  (17392749415205010473946813036112352260, 19),
  (47278394682293465614744575627442803712, 19),
  (12851600114359308275809299632143099259, 18),
  (34934271057485095348034797233406099546, 18),
  (94961194206024488745133649117118323116, 18),
  (25813128861900673962328580021527338043, 17),
  (70167359120976317386547159988611740555, 17),
  (19073465724950996905250998409538484479, 16),
  (51847055285870724640874533229334853872, 16),
  (14093490824269387964492143312370168789, 15),
  (38310080007165768493035695487861993900, 15),
  (10413759433029087797183472933493796442, 14),
  (28307533032746939004420635480140745403, 14),
  (76947852651420171381827455901293939935, 14),
  (20916594960129961539070711572146737783, 13),
  (56857199993359322226403488206332533049, 13),
  (15455389355901039303530766911174620071, 12),
  (42012104037905142549565934307191617692, 12),
  (11420073898156842836629571831447656295, 11),
  (31042979357019199087073421411071003730, 11),
  (84383566687414544890733294803731179603, 11),
  (22937831594696098790993528402686136005, 10),
  (62351490808116168829092387089284697469, 10),
  (16948892444103337141417836114371974954, 9),
  (46071866343312915426773184428060086892, 9),
  (12523631708422137805135219607443657677, 8),
  (34042760499317405213769071870043505954, 8),
  (92537817255877876002423979166873458740, 8),
  (25154386709191670062657811742521129623, 7),
  (68376712297627438667558928266777109561, 7),
  (18586717452841279803403701812545411949, 6),
  (50523936302761041945570383321857646506, 6),
  (13733829795401761877841885298085389320, 5),
  (37332419967990016402549083172647001445, 5),
  (10148003881138887278324617841317169760, 4),
  (27585134545231702062864698199026619434, 4),
  (74984169969901204346756305912240604567, 4),
  (20382810665126687668323137537172632374, 3),
  (55406223843935100525711733958316612937, 3),
  (15060973145850305483525941301676749817, 2),
  (40939969621274546966609142293278290448, 2),
  (11128637547917594120870714781839408062, 1),
  (30250773222011423382665663964434287432, 1),
  (82230127146229135103043280164077746957, 1),
  (22352466037347150474430657323327147399, 0),
  (60760302250568721495223289381302760758, 0),
  (16516362549940018555283297962648587672, -1),
  (44896128191743452462842455796453162784, -1),
  (12204032943178408020027100351363697548, -2),
  (33174000983357426257555161078525919101, -2),
  (90176284050342989314009959821709052567, -2),
  (24512455429200857855527729431109153420, -3),
  (66631762164108958342448140502408732643, -3),
  (18112390828890232821937987580988159254, -4),
  (49234582860120583997548620591133044956, -4),
  (13383347192042695004617364087061150290, -5),
  (36379709476088045792877438267601857313, -5),
  (98890303193469467705600309671380371021, -5),
  (26881171418161354484126255515800135886, -6),
  (73070599793680672726476826340615135883, -6),
  (19862648361376543258740468906137709930, -7),
  (53992276105801688697616842371936818967, -7),
  (14676622301554423285107021120870470922, -8),
  (39895195705472158507637572787300953989, -8),
  (10844638552900230813361001028568739551, -9),
  (29478783914555093773878202487079276618, -9),
  (80131642640005911410561058362935555141, -9),
  (21782038807290206355539393313936824934, -10),
  (59209720276646702989552288155880397734, -10),
  (16094870669615180549262332993373505801, -11),
  (43750394472613410734625746750879389186, -11),
  (11892590228282008819681954096389267312, -12),
  (32327411910848593114262354205829189194, -12),
  (87875016358370231131069738030496383831, -12),
  (23886906014249914254626392949441611667, -13),
  (64931342556644621362249507087712085619, -13),
  (17650168856917655832911782056447182390, -14),
  (47978133272993021860034882895011331584, -14),
  (13041808783936322797338790280986488115, -15),
  (35451311827611664751894074212478186941, -15),
  (96366656736032012717638730141942241231, -15),
  (26195173187490626761889810253746390880, -16),
  (71205863268893377088330680682701942197, -16),
  (19355760420357225687206244905274872200, -17),
  (52614411826663857451767767041616346183, -17),
  (14302079958348104463583671072905261088, -18),
  (38877084059945950922226736883574780745, -18),
  (10567887114362588125648834960427354587, -19),
  (28726495508178319332673332249621538192, -19),
  (78086710735191511717214963161789844250, -19),
  (21226168683560893890870118295564590878, -20),
  (57698708620330031794130831485493325609, -20),
  (15684135116819639406725212333317378882, -21),
  (42633899483147210448936866880765989362, -21),
  (11589095424138854283480495676005460415, -22),
  (31502427499714519184111642911336978953, -22),
  (85632476224822491931954909086237584537, -22),
  (23277320404788620254741750385140984218, -23),
  (63274317071555853643430245123511451556, -23),
  (17199742630376622641833783925547830056, -24),
  (46753747846325154027207734100637066905, -24),
  (12708986318302188795555166499146091281, -25),
  (34546606567175463231258517866889865270, -25),
  (93907412866476978131540504016909901172, -25),
  (25526681395254551047668755808654353440, -26),
  (69388714177584033016228037440452491187, -26),
  (18861808084906520052196148181812219044, -27),
  (51271710169083297668258887684658163998, -27),
  (13937095806663796973183419371414574787, -28),
  (37884954272746958042494750441949388081, -28),
  (10298198277160991943993878773913738166, -29),
  (27993405242674970683739228910895090969, -29),
  (76093964787853542218200718174787272690, -29),
  (20684484173822473091270347966282423297, -30),
  (56226257460750335807897650819666306371, -30),
  (15283881393781745666100414040841103028, -31),
  (41545897061040224373905771068319348361, -31),
  (11293345702805569478727022021871312858, -32),
  (30698496406442424667364570301654957343, -32),
  (83447164942647743609658358092023252638, -32),
  (22683291210002404713058390312611402982, -33),
  (61659578305794325320049670543781654770, -33),
  (16760811125908827725861073497722332472, -34),
  (45560608313792156880112864411796691453, -34),
  (12384657367292132198269856467846840036, -35),
  (33664989073201642477955778901752989037, -35),
  (91510928052956339360089438336198973142, -35),
  (24875249283177429446603994479964329509, -36),
  (67617938104850097226297739817614724043, -36),
  (18380461242828247026619661332259011810, -37),
  (49963273795075782374799992291440821058, -37),
  (13581425924747849789093255011954118328, -38),
  (36918143295804664423920014322334714971, -38),
  (10035391806143294571946733464755740501, -39),
  (27279023188106115192557593199527116730, -39),
  (74152073030341784283386937576609008214, -39),
  (20156623266094612066329318409141309108, -40),
  (54791382747319794379865564450966140139, -40),
  (14893842007818383595644410230322886973, -41),
  (40485660085792693262271426689569678698, -41),
  (11005143412437994843280976031210742493, -42),
  (29915081357615969207184701601447122427, -42),
  (81317622051281434061126712044925707902, -42),
  (22104421435549887327561037093210488312, -43),
  (60086047116855861250341632178539649714, -43),
  (16333081002168329377271943881088378495, -44),
  (44397917290943821356155881988414973276, -44),
  (12068605179340023095364473314473432497, -45),
  (32805870153846701518250084137059135841, -45),
  (89175600705988431420770803324912086042, -45),
  (24240441494100795852378097352461489720, -46),
  (65892351627238821736753930934534639373, -46),
  (17911398206275708900431827624144225532, -47),
  (48688228266413197067093362018659672146, -47),
  (13234832615645703553069383005626040404, -48),
  (35976005001806811307586628488491091980, -48),
  (97792920656963176027414937748815917871, -48),
  (26582871917376019734003283472389741150, -49),
  (72259737681257492581774770421893056951, -49),
  (19642233186817958656484864137420231201, -50),
  (53393125542082459716222599802082679919, -50),
  (14513756292567525940523654914390132839, -51),
  (39452479992769427900327573211143818566, -51),
  (10724295945198918021924451209369968217, -52),
  (29151658790851239660496155224556382547, -52),
  (79242424360609307491188688802264059684, -52),
  (21540324218248465690209815988756000148, -53),
  (58552671901581093475081587475320346051, -53),
  (15916266403779241591571863407774423364, -54),
  (43264897742306309199371472477969207063, -54),
  (11760618534305001227335647241278102208, -55),
  (31968675653239935348846785115930182070, -55),
  (86899870108103213822063274684049309002, -55),
  (23621833781030833300746567469515129092, -56),
  (64210801521856135516771541362226454717, -56),
  (17454305496765194050281862479081601620, -57),
  (47445721460229655544587842889161196570, -57),
  (12897084248347162974810234147016917437, -58),
  (35057909752387477224025060891275483360, -58),
  (95297279023672025386355634986304892255, -58),
  (25904486187163901031830171287130712546, -59),
  (70415694078135969991088372949671264959, -59),
  (19140970165092820820108477320064452781, -60),
  (52030551378848545923020205358078977737, -60),
  (14143370233782872265039837168370554989, -61),
  (38445666299660540093457531706674996418, -61),
  (10450615608536754863982177507098957249, -62),
  (28407718504895927718534013347769901830, -62),
  (77220184999838357175621252140277020406, -62),
  (20990622567530634724568039312619468559, -63),
  (57058427893360872481970148326895352874, -63),
  (15510088770296358097556054518881247548, -64),
  (42160792462083288741186917596094351517, -64),
  (11460491602311409370637865042895610414, -65),
  (31152846067770590954201464312400440172, -65),
  (84682215370802619418949577677244718361, -65),
  (23019012723610800962705119766260408375, -66),
  (62572163995658794914917604846876973579, -66),
  (17008877635675862685398902860714557440, -67),
  (46234922999541146273426274861568776275, -67),
  (12567955102985587136353369613287969585, -68),
  (34163243977334849966907467619116852824, -68),
  (92865325304802240908397570249090596499, -68),
  (25243412626998187770632793234418799940, -69),
  (68618709832262784296500189663439273040, -69),
  (18652499202934394647893057141276968924, -70),
  (50702749638683390134216749367456409844, -70),
  (13782436299574148088857901819149382333, -71),
  (37464546145026732603499548122029201501, -71),
  (10183919499749154121311809801154593781, -72),
  (27682763318657855929985771603963318292, -72),
  (75249552490640263726958791405721841505, -72),
  (20454949113498251750794190253329225813, -73),
  (55602316477276754174041540473381702051, -73),
  (15114276650041035425200896657072865078, -74),
  (41084863568109398732746435014199662608, -74),
  (11168023806191082975759894188368741636, -75),
  (30357836172167242865270564060096681892, -75),
  (82521154418138915708209187078469436590, -75),
  (22431575451828987090132598854038981998, -76),
  (60975343934414732803540925731945597709, -76),
  (16574816940096003310288868055969816163, -77),
  (45055023698298121117106125112845233389, -77),
  (12247225219987543111692123050999620531, -78),
  (33291409764537471210498902650647395181, -78),
  (90495434206726229847410205869155592671, -78),
  (24599209436265500385962442739613565585, -79),
  (66867584005058783767836195501715462777, -79),
  (18176493851390999782546650445313340672, -80),
  (49408832941333720129685111047602318635, -80),
  (13430713274979613085859250297613421779, -81),
  (36508463838620754258131757683218532187, -81),
  (99240293837476957258975386473680449662, -81),
  (26976308738934978232765417912571366677, -82),
  (73329209843947893397917976493127739665, -82),
  (19932945861406369879404057817936726125, -83),
  (54183364522718865591003756988762312406, -83),
  (14728565518687920080874372478970627032, -84),
  (40036392008717845384002607853055449617, -84),
  (10883019687436065167926658665346876179, -85),
  (29583114655119494191648535413124937628, -85),
  (80415242996231796059259460914427322527, -85),
  (21859129376777539785144693723458114365, -86),
  (59419274170829680786039665041625326132, -86),
  (16151833323879222366041833857187834774, -87),
  (43905235020600150754042953190395882915, -87),
  (11934680253072108439235558933754921818, -88),
  (32441824460394911649740723321265334285, -88),
  (88186021912749658986094822427733469383, -88)]

def NATURAL_EXP : List Decimal := NATURAL_EXP_TBL.map (fun p => ⟨p.1, p.2, false⟩)

/-- The `(int_val, scale)` pairs of `NATURAL_EXP_NEG`: `e^(-291-k)`. -/
def NATURAL_EXP_NEG_TBL : List (Nat × Int) := [
  (41716298478166806118243377939293045745, 164),
  (15346568571889094399003486191226211569, 164),
  (56456870701257797059912015304055553681, 165),
  (20769322043867093362333818538068856442, 165),
  (76406065870075445735958388880036815267, 166),
  (28108220814391766921916452972683068317, 166),
  (10340436565521946602575863724595250916, 166),
  (38040340251929620404917847776950070293, 167),
  (13994259113851392172977837187029463838, 167)]

def NATURAL_EXP_NEG : List Decimal := NATURAL_EXP_NEG_TBL.map (fun p => ⟨p.1, p.2, false⟩)

/-- `Decimal::exp`.  The table indices are in range by the bound checks
(`a ∈ [0, 290]` resp. `|a| - 291 ∈ [0, 8]`), so the total `getD` lookup
agrees with the panicking Rust indexing on all reachable inputs. -/
def exp (self : Decimal) : Option Decimal :=
  if self.int_val = 0 then some ONE
  else if cmp self EXP_UPPER_BOUND ≠ .lt then none
  else if cmp self EXP_LOWER_BOUND ≠ .gt then some ZERO
  else
    let a := trunc self 0
    match checked_sub self a with
    | none => none
    | some b =>
      let exp_a? : Option Decimal :=
        if ¬a.negative then some (List.getD NATURAL_EXP a.int_val ZERO)
        else if a.int_val < EXP_UPPER_BOUND.int_val then
          checked_div ONE (List.getD NATURAL_EXP a.int_val ZERO)
        else some (List.getD NATURAL_EXP_NEG (a.int_val - EXP_UPPER_BOUND.int_val) ZERO)
      match exp_a? with
      | none => none
      | some exp_a =>
        if b.int_val = 0 then some exp_a
        else
          match exp_decimal b with
          | none => none
          | some exp_b => checked_mul exp_a exp_b

/-- The squaring loop of `Decimal::pow_u64` (`n` halves each iteration, so
fuel 70 covers any `u64` exponent). -/
def pow_u64_loop : Nat → Decimal → Decimal → Nat → Option Decimal
  | 0, _, sum, n => if n = 0 then some sum else none
  | fuel + 1, power_x, sum, n =>
    if n = 0 then some sum
    else
      match checked_mul power_x power_x with
      | none => none
      | some power_x' =>
        match (if n % 2 = 1 then checked_mul sum power_x' else some sum) with
        | none => none
        | some sum' => pow_u64_loop fuel power_x' sum' (n / 2)

/-- `Decimal::pow_u64` (exponentiation by squaring). -/
def pow_u64 (self : Decimal) (exponent : Nat) : Option Decimal :=
  if exponent = 0 then some ONE
  else if exponent = 1 then some self
  else if exponent = 2 then checked_mul self self
  else
    match (if exponent % 2 = 1 then checked_mul ONE self else some ONE) with
    | none => none
    | some sum => pow_u64_loop 70 self sum (exponent / 2)

/-- `Decimal::pow_quick_range`. -/
def pow_quick_range (self : Decimal) (exponent : Nat) : Bool :=
  (exponent < 42 ∧ cmp self ⟨1163, 0, false⟩ = .lt) ∨
  (exponent < 61 ∧ cmp self ⟨125, 0, false⟩ = .lt) ∨
  (exponent < 126 ∧ cmp self ⟨1, -1, false⟩ = .lt)

/-- `Decimal::pow_i64`. -/
def pow_i64 (self : Decimal) (exponent : Int) : Option Decimal :=
  if exponent ≥ 0 then pow_u64 self exponent.toNat
  else if self.int_val = 0 then none
  else
    let y := exponent.natAbs
    if pow_quick_range self y then
      match pow_u64 self y with
      | none => none
      | some p => checked_div ONE p
    else
      match pow_u64 self (y / 2) with
      | some p => do
        let q ← checked_div ONE p
        let power ← checked_div q p
        if y % 2 = 1 then checked_div power self else some power
      | none => some ZERO

/-- `Decimal::pow_decimal`: `x^b = e^(b · ln |x|)` with a final sign fixup.
NOTE: the source's fixup condition is literally `!self.negative && b % 2 == 1`
(contradicting the comment above it, which says the sign must be flipped when
`self` is negative and `b` odd); `&&` short-circuits, so `checked_rem` is
evaluated only when `self` is non-negative. -/
def pow_decimal (self exponent : Decimal) : Option Decimal := do
  let x := abs self
  let b := exponent
  let ln_x ← ln x
  let e ← checked_mul ln_x b
  let result ← exp e
  if ¬self.negative then
    match checked_rem b TWO with
    | none => none
    | some r =>
      if cmp r ONE = .eq then some (neg result) else some result
  else some result

/-- `Decimal::pow_decimal_integral`. -/
def pow_decimal_integral (self exponent : Decimal) : Option Decimal :=
  if exponent.negative then
    if cmp exponent (decimal_from_int (-32768)) = .lt then pow_decimal self exponent
    else pow_i64 self (-(exponent.int_val : Int))
  else
    if cmp exponent ⟨65535, 0, false⟩ = .gt then pow_decimal self exponent
    else pow_u64 self exponent.int_val

/-- `Decimal::checked_pow`. -/
def checked_pow (self exponent : Decimal) : Option Decimal :=
  if exponent.int_val = 0 then some ONE
  else if self.int_val = 0 then
    if exponent.negative then none else some ZERO
  else if cmp self ONE = .eq then some ONE
  else if cmp exponent ONE = .eq then some self
  else
    let exponent := normalize exponent
    if exponent.scale ≤ 0 then pow_decimal_integral self exponent
    else if self.negative then none
    else do
      let a := trunc exponent 0
      let b ← checked_sub exponent a
      let power_a ← pow_decimal_integral self a
      let power_b ← pow_decimal self b
      checked_mul power_a power_b

/-! ## Binary codec (`encode` / `decode`) -/

/-- `u128::to_le_bytes`: the 16 little-endian bytes of a `u128`. -/
def to_le_bytes16 (v : Nat) : List Nat :=
  (List.range 16).map (fun i => v / 256 ^ i % 256)

/-- `u128::from_le_bytes` on a 16-byte little-endian list. -/
def from_le_bytes16 (bs : List Nat) : Nat :=
  bs.foldr (fun b acc => b + 256 * acc) 0

/-- The index loop of `internal_encode`: `id = 15; while id > 0 &&
int_bytes[id] == 0 { id -= 1 }`. -/
def top_idx : Nat → Nat → Nat
  | 0, _ => 0
  | id + 1, v => if v / 256 ^ (id + 1) % 256 = 0 then top_idx id v else id + 1

/-- `Decimal::encode_header` (the `as u8` cast is modelled by `% 256`). -/
def encode_header (d : Decimal) : List Nat :=
  let sign := if d.negative then 1 else 0
  let ss := if d.scale < 0 then (0, (-d.scale).toNat % 256) else (1, d.scale.toNat % 256)
  [ss.1 * 2 + sign, ss.2]

/-- `Decimal::internal_encode`, producing the written byte list. -/
def internal_encode (d : Decimal) (compact : Bool) : List Nat :=
  let int_bytes := to_le_bytes16 d.int_val
  let id := top_idx 15 d.int_val
  if compact ∧ id < 2 ∧ d.scale = 0 ∧ ¬d.negative then
    if id = 0 then int_bytes.take 1 else int_bytes.take 2
  else
    encode_header d ++ int_bytes.take (id + 1)

/-- `Decimal::encode`. -/
def encode (d : Decimal) : List Nat := internal_encode d false

/-- `Decimal::compact_encode`. -/
def compact_encode (d : Decimal) : List Nat := internal_encode d true

/-- `Decimal::decode`.  The failed assertion `assert!(len > 0)` on the empty
slice (a panic) is modelled as `none`. -/
def decode (bytes : List Nat) : Option Decimal :=
  let len := bytes.length
  if len = 0 then none
  else if len ≤ 2 then
    let int_val :=
      if len = 1 then bytes.getD 0 0
      else bytes.getD 1 0 * 256 + bytes.getD 0 0
    some (from_parts_unchecked int_val 0 false)
  else
    let flags := bytes.getD 0 0
    let abs_scale := bytes.getD 1 0
    let negative := flags % 2 = 1
    let scale : Int := if flags / 2 % 2 ≠ 0 then (abs_scale : Int) else -(abs_scale : Int)
    let data := if len < MAX_BINARY_SIZE then bytes.drop 2 else (bytes.drop 2).take 16
    let int := from_le_bytes16 (data ++ List.replicate (16 - data.length) 0)
    some (from_parts_unchecked int scale negative)

/-! ## Parser (`parse.rs`)

Byte strings are modelled as `List Nat`. -/

def isDigitByte (c : Nat) : Bool := 48 ≤ c ∧ c ≤ 57

/-- `extract_sign`; the first component is `true` for a leading `'-'`. -/
def extract_sign (s : List Nat) : Bool × List Nat :=
  match s with
  | c :: rest =>
    if c = 43 then (false, rest)
    else if c = 45 then (true, rest)
    else (false, s)
  | [] => (false, s)

/-- `eat_digits`. -/
def eat_digits (s : List Nat) : List Nat × List Nat :=
  (s.takeWhile isDigitByte, s.dropWhile isDigitByte)

/-- The errors of `DecimalParseError`. -/
inductive ParseErr where
  | empty | invalid | overflow | underflow
deriving DecidableEq, Repr

/-- `extract_exponent`. -/
def extract_exponent (s : List Nat) : Except ParseErr (Int × List Nat) :=
  let sr := extract_sign s
  let ns := eat_digits sr.2
  if ns.1 = [] then .error .invalid
  else
    let number := ns.1.dropWhile (· = 48)
    if number.length > 3 then
      if sr.1 then .error .underflow else .error .overflow
    else
      let exp : Int := number.foldl (fun r n => r * 10 + ((n : Int) - 48)) 0
      .ok (if sr.1 then -exp else exp, ns.2)

/-- The interesting parts of a decimal string (`Parts`); `sign` is `true`
when negative. -/
structure Parts where
  sign : Bool
  integral : List Nat
  fractional : List Nat
  exp : Int
deriving DecidableEq, Repr

/-- Strip leading `'0'`s from the integral part, keeping at least one byte
(`while integral.first() == Some(&b'0') && integral.len() > 1`). -/
def strip_integral_zeros : List Nat → List Nat
  | c :: c2 :: rest =>
    if c = 48 then strip_integral_zeros (c2 :: rest) else c :: c2 :: rest
  | l => l

/-- Strip trailing `'0'`s (`while fractional.last() == Some(&b'0')`). -/
def strip_trailing_zeros (l : List Nat) : List Nat :=
  (l.reverse.dropWhile (· = 48)).reverse

/-- `parse_decimal`. -/
def parse_decimal (s : List Nat) : Except ParseErr (Parts × List Nat) :=
  let sr := extract_sign s
  let sign := sr.1
  let s1 := sr.2
  if s1 = [] then .error .invalid
  else
    let ei := eat_digits s1
    let integral := strip_integral_zeros ei.1
    match ei.2 with
    | c :: rest =>
      if c = 101 ∨ c = 69 then  -- 'e' | 'E'
        if integral = [] then .error .invalid
        else
          match extract_exponent rest with
          | .error e => .error e
          | .ok (exp, s3) => .ok (⟨sign, integral, [], exp⟩, s3)
      else if c = 46 then  -- '.'
        let ef := eat_digits rest
        if integral = [] ∧ ef.1 = [] then .error .invalid
        else
          let fractional := strip_trailing_zeros ef.1
          match ef.2 with
          | c2 :: rest2 =>
            if c2 = 101 ∨ c2 = 69 then
              match extract_exponent rest2 with
              | .error e => .error e
              | .ok (exp, s3) => .ok (⟨sign, integral, fractional, exp⟩, s3)
            else .ok (⟨sign, integral, fractional, 0⟩, c2 :: rest2)
          | [] => .ok (⟨sign, integral, fractional, 0⟩, [])
      else
        if integral = [] then .error .invalid
        else .ok (⟨sign, integral, [], 0⟩, c :: rest)
    | [] =>
      if integral = [] then .error .invalid
      else .ok (⟨sign, integral, [], 0⟩, [])

/-- Truncating `usize as i16` cast. -/
def castI16 (n : Nat) : Int :=
  let m := n % 65536
  if m < 32768 then (m : Int) else (m : Int) - 65536

/-- Two's-complement wrapping of `i16` arithmetic (the release-mode
overflow semantics of the parser's `normalized_exp` and `scale`
computations). -/
def wrapI16 (x : Int) : Int := (x + 32768) % 65536 - 32768

/-- Digit-byte accumulation (`int = int * 10 + (i - b'0')` on `u128`,
wrapping modulo `2^128` in release mode). -/
def digits_to_nat (l : List Nat) : Nat :=
  l.foldl (fun int i => (int * 10 + (i - 48)) % U128_LIMIT) 0

/-- The mutable local state of `parse_str` after the precision-limiting
`if`/`else`: `(carry, integral, fractional, scale, normalized_exp)`. -/
structure PState where
  carry : Bool
  integral : List Nat
  fractional : List Nat
  scale : Int
  normalized_exp : Int

/-- `parse_str`. -/
def parse_str (s : List Nat) : Except ParseErr (Decimal × List Nat) :=
  match parse_decimal s with
  | .error e => .error e
  | .ok (parts, rest) =>
    let st : PState :=
      if parts.integral = [48] then
        -- fractional only
        let zero_count := (parts.fractional.takeWhile (· = 48)).length
        let normalized_exp := wrapI16 (parts.exp - castI16 zero_count)
        let max_fractional_precision := MAX_PRECISION + zero_count
        if parts.fractional.length > max_fractional_precision then
          ⟨parts.fractional.getD max_fractional_precision 0 > 52,
            parts.integral, parts.fractional.take max_fractional_precision,
            wrapI16 (-parts.exp), normalized_exp⟩
        else
          ⟨false, parts.integral, parts.fractional, wrapI16 (-parts.exp), normalized_exp⟩
      else
        let int_len := castI16 parts.integral.length
        let normalized_exp := wrapI16 (parts.exp + int_len)
        if int_len > (MAX_PRECISION : Int) then
          ⟨parts.integral.getD MAX_PRECISION 0 > 52,
            parts.integral.take MAX_PRECISION, [],
            wrapI16 (wrapI16 (-parts.exp) - wrapI16 (int_len - (MAX_PRECISION : Int))),
            normalized_exp⟩
        else
          let max_fractional_precision := ((MAX_PRECISION : Int) - int_len).toNat
          if parts.fractional.length > max_fractional_precision then
            ⟨parts.fractional.getD max_fractional_precision 0 > 52,
              parts.integral, parts.fractional.take max_fractional_precision,
              wrapI16 (-parts.exp), normalized_exp⟩
          else
            ⟨false, parts.integral, parts.fractional, wrapI16 (-parts.exp), normalized_exp⟩
    let int0 := digits_to_nat (st.integral ++ st.fractional)
    let int1 := (int0 + (if st.carry then 1 else 0)) % U128_LIMIT
    let adj :=
      if int1 > MAX_I128_REPR then
        (wrapI16 (st.normalized_exp + 1), int1 / 10, wrapI16 (st.scale - 1))
      else (st.normalized_exp, int1, st.scale)
    if adj.1 ≤ -MAX_SCALE then .error .underflow
    else if adj.1 > -MIN_SCALE then .error .overflow
    else
      let negative := if adj.2.1 ≠ 0 then parts.sign else false
      let scale := wrapI16 (adj.2.2 + castI16 st.fractional.length)
      .ok (from_parts_unchecked adj.2.1 scale negative, rest)


/-- The `PState` computed by `parse_str` from the extracted `Parts`
(the precision-limiting `if`/`else` at the head of the function). -/
def pstate_of (parts : Parts) : PState :=
  if parts.integral = [48] then
    let zero_count := (parts.fractional.takeWhile (· = 48)).length
    let normalized_exp := wrapI16 (parts.exp - castI16 zero_count)
    let max_fractional_precision := MAX_PRECISION + zero_count
    if parts.fractional.length > max_fractional_precision then
      ⟨parts.fractional.getD max_fractional_precision 0 > 52,
        parts.integral, parts.fractional.take max_fractional_precision,
        wrapI16 (-parts.exp), normalized_exp⟩
    else
      ⟨false, parts.integral, parts.fractional, wrapI16 (-parts.exp), normalized_exp⟩
  else
    let int_len := castI16 parts.integral.length
    let normalized_exp := wrapI16 (parts.exp + int_len)
    if int_len > (MAX_PRECISION : Int) then
      ⟨parts.integral.getD MAX_PRECISION 0 > 52,
        parts.integral.take MAX_PRECISION, [],
        wrapI16 (wrapI16 (-parts.exp) - wrapI16 (int_len - (MAX_PRECISION : Int))),
        normalized_exp⟩
    else
      let max_fractional_precision := ((MAX_PRECISION : Int) - int_len).toNat
      if parts.fractional.length > max_fractional_precision then
        ⟨parts.fractional.getD max_fractional_precision 0 > 52,
          parts.integral, parts.fractional.take max_fractional_precision,
          wrapI16 (-parts.exp), normalized_exp⟩
      else
        ⟨false, parts.integral, parts.fractional, wrapI16 (-parts.exp), normalized_exp⟩

/-- The normalized exponent after `parse_str`'s rounding step: the stored
`normalized_exp`, plus one when the rounded significand overflows
`MAX_I128_REPR` and is divided by ten. -/
def adjusted_exp (st : PState) : Int :=
  if (digits_to_nat (st.integral ++ st.fractional) + (if st.carry then 1 else 0))
      % U128_LIMIT > MAX_I128_REPR then
    wrapI16 (st.normalized_exp + 1)
  else st.normalized_exp


/-! ## Value semantics and well-formedness -/

/-- The rational value denoted by a `Decimal`:
`(-1)^negative * int_val * 10^(-scale)`. -/
def val (d : Decimal) : ℚ :=
  (if d.negative then -1 else 1) * (d.int_val : ℚ) * (10 : ℚ) ^ (-d.scale)

/-- The invariants of a user-visible `Decimal` (the bounds checked by
`from_parts`, plus the canonical representation of zero guaranteed by
`from_parts_unchecked`). -/
def WellFormed (d : Decimal) : Prop :=
  d.int_val ≤ MAX_I128_REPR ∧ MIN_SCALE ≤ d.scale ∧
    d.scale < MAX_SCALE + (MAX_PRECISION : Int) ∧
    (d.int_val = 0 → d.scale = 0 ∧ d.negative = false)

instance (d : Decimal) : Decidable (WellFormed d) := by
  unfold WellFormed; infer_instance

/-! ## Specification-side definitions -/

/-- The division algorithm as described by the specification: pre-multiply
the dividend's significand so the quotient has a full 38 digits of room,
divide by the divisor's significand, and round half-up on the remainder
(add one to the quotient exactly when `2·r ≥ m₂`); then `adjust_scale` at
`e₁ − e₂ + 38 + shift` with the XOR sign. -/
def div_spec (a b : Decimal) : Option Decimal :=
  let p1 := count_digits a.int_val
  let p2 := count_digits b.int_val
  let shift := if p2 > p1 then p2 - p1 else 0
  let numerator := a.int_val * 10 ^ (MAX_PRECISION + shift)
  let q := numerator / b.int_val
  let r := numerator % b.int_val
  let q' := if b.int_val ≤ 2 * r then q + 1 else q
  adjust_scale q' (a.scale - b.scale + (MAX_PRECISION : Int) + (shift : Int))
    (a.negative ≠ b.negative)


/-- Decidable equality for `Except` results (both components decidable). -/
instance {e a : Type} [DecidableEq e] [DecidableEq a] : DecidableEq (Except e a) := fun x y =>
  match x, y with
  | .error u, .error v =>
    if h : u = v then .isTrue (by rw [h])
    else .isFalse (by intro hx; injection hx; exact h (by assumption))
  | .ok u, .ok v =>
    if h : u = v then .isTrue (by rw [h])
    else .isFalse (by intro hx; injection hx; exact h (by assumption))
  | .error _, .ok _ => .isFalse (by intro hx; exact Except.noConfusion hx)
  | .ok _, .error _ => .isFalse (by intro hx; exact Except.noConfusion hx)

/-- Spec §4.6 grammar: the tail after `e`/`E` — an optional sign, then at
least one digit, then the end of the string. -/
def expTail (r : List Nat) : Bool :=
  let sr := extract_sign r
  let ns := eat_digits sr.2
  !ns.1.isEmpty && ns.2.isEmpty

/-- Modelled from the spec (§4.6): recognizer for a syntactically valid
numeric string `[sign]digits[.digits][(e|E)[sign]digits]` with at least
one mantissa digit, consuming the whole string (no surrounding
whitespace, no trailing garbage). -/
def validNumericSpec (s : List Nat) : Bool :=
  let s1 := (extract_sign s).2
  let ei := eat_digits s1
  match ei.2 with
  | [] => !ei.1.isEmpty
  | c :: rest =>
    if c = 46 then
      let ef := eat_digits rest
      (!ei.1.isEmpty || !ef.1.isEmpty) &&
      (match ef.2 with
       | [] => true
       | c2 :: r2 => (c2 = 101 || c2 = 69) && expTail r2)
    else if c = 101 ∨ c = 69 then !ei.1.isEmpty && expTail rest
    else false

/-- Modelled from the spec: the normalized exponent of a nonzero valid
numeric string — the exponent `X` when its value is written `0.d₁d₂…eX`
with `d₁ ≠ 0`.  For mantissa digits `I.F` with written exponent `E` this
is `E + |I| − z`, where `z` counts the leading zeros of `I ++ F`. -/
def normalizedExpSpec (s : List Nat) : Int :=
  let s1 := (extract_sign s).2
  let ei := eat_digits s1
  let fr :=
    match ei.2 with
    | 46 :: rest => eat_digits rest
    | other => ([], other)
  let expv : Int :=
    match fr.2 with
    | c :: r =>
      if c = 101 ∨ c = 69 then
        let sr := extract_sign r
        let ds := (eat_digits sr.2).1
        let v := ds.foldl (fun acc d => acc * 10 + ((d : Int) - 48)) 0
        if sr.1 then -v else v
      else 0
    | [] => 0
  expv + ei.1.length - ((ei.1 ++ fr.1).takeWhile (· = 48)).length

/-- The input of the C6 counterexample: the string
`"0." ++ 874 * "0" ++ "1e1000"`, which denotes `10^125` and has
normalized exponent `126 ∈ [−129, 126]`. -/
def c6_input : List Nat := [48, 46] ++ List.replicate 874 48 ++ [49, 101, 49, 48, 48, 48]

/-! ## Basic lemmas: tables, rounding division, digit counts -/
theorem POWERS_10_eq_pow : ∀ k < 77, POWERS_10 k = 10 ^ k := by decide

theorem range_find?_min {p : Nat → Bool} {n k : Nat} (hk : k < n) (hp : p k = true)
    (hmin : ∀ j < k, p j = false) : (List.range n).find? p = some k := by
  rw [List.find?_eq_some]
  refine ⟨hp, List.range k, List.range' (k + 1) (n - k - 1), ?_, ?_⟩
  · rw [List.range_eq_range', List.range_eq_range']
    have h1 : (k : Nat) :: List.range' (k + 1) (n - k - 1) = List.range' k (n - k) := by
      have h2 : n - k = (n - k - 1) + 1 := by omega
      rw [h2, List.range'_succ]
      simp
    rw [h1]
    have h3 := List.range'_append 0 k (n - k) 1
    simp only [Nat.zero_add, Nat.one_mul] at h3
    rw [h3]
    congr 1
    omega
  · intro a ha
    simp only [List.mem_range] at ha
    simp [hmin a ha]

/-- Characterisation of `count_digits` on positive values below `10^76`:
it returns the number of decimal digits. -/
theorem count_digits_spec (v : Nat) (hv : 0 < v) (hlt : v < 10 ^ 76) :
    1 ≤ count_digits v ∧ 10 ^ (count_digits v - 1) ≤ v ∧ v < 10 ^ count_digits v := by
  have hb : (1 : Nat) < 10 := by norm_num
  set k := Nat.clog 10 v with hkdef
  have hge : v ≤ 10 ^ k := Nat.le_pow_clog hb v
  have hk77 : k < 77 := by
    have h1 : v ≤ 10 ^ 76 := le_of_lt hlt
    have := (Nat.le_pow_iff_clog_le hb).mp h1
    omega
  have hmin : ∀ j < k, (decide (v ≤ POWERS_10 j)) = false := by
    intro j hj
    have hj77 : j < 77 := by omega
    rw [POWERS_10_eq_pow j hj77]
    simp only [decide_eq_false_iff_not, Nat.not_le]
    by_contra hcon
    push_neg at hcon
    have := (Nat.le_pow_iff_clog_le hb).mp hcon
    omega
  have hfind : (List.range 77).find? (fun j => decide (v ≤ POWERS_10 j)) = some k := by
    apply range_find?_min hk77
    · rw [POWERS_10_eq_pow k hk77]; simpa using hge
    · exact hmin
  unfold count_digits
  rw [hfind]
  dsimp only
  rw [POWERS_10_eq_pow k hk77]
  by_cases he : v = 10 ^ k
  · rw [if_pos he]
    refine ⟨by omega, ?_, ?_⟩
    · simp only [Nat.add_sub_cancel]
      rw [he]
    · rw [he]
      exact Nat.pow_lt_pow_right (by norm_num) (by omega)
  · rw [if_neg he]
    have hk0 : k ≠ 0 := by
      intro h0
      rw [h0] at hge
      norm_num at hge
      interval_cases v
      · exact he (by rw [h0]; norm_num)
    rw [if_neg hk0]
    have hlow : 10 ^ (k - 1) < v := by
      by_contra hcon
      push_neg at hcon
      have := hmin (k - 1) (by omega)
      rw [POWERS_10_eq_pow (k - 1) (by omega)] at this
      simp [hcon] at this
    exact ⟨by omega, by omega, lt_of_le_of_ne hge he⟩

theorem count_digits_zero : count_digits 0 = 1 := by decide

/-- Values below `10^38` have at most 38 digits. -/
theorem count_digits_le_38 {v : Nat} (h : v < 10 ^ 38) : count_digits v ≤ 38 := by
  rcases Nat.eq_zero_or_pos v with h0 | h0
  · subst h0; rw [count_digits_zero]; omega
  · rcases count_digits_spec v h0 (lt_trans h (by norm_num)) with ⟨h1, h2, h3⟩
    by_contra hcon
    push_neg at hcon
    have : 10 ^ 38 ≤ 10 ^ (count_digits v - 1) :=
      Nat.pow_le_pow_right (by norm_num) (by omega)
    omega
theorem POWERS_10_low_eq_pow : ∀ k ≤ 38, POWERS_10_low k = 10 ^ k := by decide
theorem ROUNDINGS_eq_half_pow : ∀ k < 77, 0 < k → ROUNDINGS k = 5 * 10 ^ (k - 1) := by decide
theorem ROUNDINGS_low_eq_half_pow : ∀ k ≤ 38, 0 < k → ROUNDINGS_low k = 5 * 10 ^ (k - 1) := by decide
theorem div128_round_eq (n d : Nat) (hd : 0 < d) :
    div128_round n d = n / d + (if d ≤ 2 * (n % d) then 1 else 0) := by
  have hlt : n % d < d := Nat.mod_lt n hd
  simp only [div128_round]
  generalize n / d = q
  generalize hr : n % d = r at hlt ⊢
  split
  · next h =>
    have hc : ¬ d ≤ 2 * r := by omega
    simp [hc]
  · next h =>
    split
    · next h2 =>
      have hc : d ≤ 2 * r := by omega
      simp [hc]
    · next h2 =>
      have hc : ¬ d ≤ 2 * r := by omega
      simp [hc]


theorem count_digits_le {v k : Nat} (h1 : 1 ≤ k) (h2 : k ≤ 76) (h : v < 10 ^ k) :
    count_digits v ≤ k := by
  rcases Nat.eq_zero_or_pos v with h0 | h0
  · subst h0; rw [count_digits_zero]; omega
  · rcases count_digits_spec v h0 (lt_of_lt_of_le h (Nat.pow_le_pow_right (by norm_num) h2))
      with ⟨ha, hb, hc⟩
    by_contra hcon
    push_neg at hcon
    have : 10 ^ k ≤ 10 ^ (count_digits v - 1) :=
      Nat.pow_le_pow_right (by norm_num) (by omega)
    omega

theorem count_digits_pos (v : Nat) : 1 ≤ count_digits v := by
  unfold count_digits
  rcases hf : (List.range 77).find? (fun k => decide (v ≤ POWERS_10 k)) with _ | k
  · simp
  · dsimp only
    split
    · omega
    · split <;> omega

/-! ## Claim theorems -/

/-- C1: the claim states that every `Decimal` returned by a public
operation has significand `m ≤ 10^38 − 1`, and in particular that when
the half-up rounding in `adjust_scale` carries into an extra digit the
shifted significand still fits in 38 digits.  The code violates this:
adding `0.5` to the 38-nine decimal makes `rescale_add` feed
`10^39 − 5` into `adjust_scale`, the rounding addend `5` carries to
`10^39`, and the shifted significand is `10^38` — 39 digits, above
`MAX_I128_REPR` — stored via `from_parts_unchecked` in violation of its
own safety contract. -/
theorem c1_precision_bound_violated :
    checked_add ⟨99999999999999999999999999999999999999, 0, false⟩ ⟨5, 1, false⟩ =
      some ⟨100000000000000000000000000000000000000, 0, false⟩ ∧
    MAX_I128_REPR < 100000000000000000000000000000000000000 ∧
    count_digits 100000000000000000000000000000000000000 = 39 :=
  ⟨by decide, by decide, by decide⟩

/-- C2: the claim states that for `checked_pow` with an odd integer
exponent and a negative base, a `Some` nonzero result is negative, and
that a positive base never yields a negative result.  The code violates
both: `pow_decimal`'s sign fixup reads `!self.negative && b % 2 == 1`
(the negation contradicts the comment right above it in the source), so
`(-1.001)^65537` comes out positive and `(1.001)^65537` comes out
negative. -/
theorem c2_checked_pow_sign_flip_reversed :
    65537 % 2 = 1 ∧
    checked_pow ⟨1001, 3, true⟩ ⟨65537, 0, false⟩ =
      some ⟨28063107642594803306586721554595850320, 9, false⟩ ∧
    checked_pow ⟨1001, 3, false⟩ ⟨65537, 0, false⟩ =
      some ⟨28063107642594803306586721554595850320, 9, true⟩ :=
  ⟨by decide, by decide, by decide⟩

/-- C3 counterexample: `(a + b) − b == a` fails when the addition rounds.
With `a = 5·10^-38` and `b = 1`, `a + b` rounds to
`1.0000000000000000000000000000000000001` and subtracting `b` gives
`10^-37 ≠ a`, although neither operation returned `None`. -/
theorem c3_counterexample_add_sub_not_inverse :
    checked_add ⟨5, 38, false⟩ ⟨1, 0, false⟩ =
      some ⟨10000000000000000000000000000000000001, 37, false⟩ ∧
    checked_sub ⟨10000000000000000000000000000000000001, 37, false⟩ ⟨1, 0, false⟩ =
      some ⟨1, 37, false⟩ ∧
    cmp ⟨1, 37, false⟩ ⟨5, 38, false⟩ ≠ .eq :=
  ⟨by decide, by decide, by decide⟩

/-- C5: `checked_div` returns `None` exactly on a zero divisor; for a
nonzero divisor (and nonzero dividend) the quotient is the spec's
pre-multiplied half-up-rounded division `div_spec` (add one to the
quotient exactly when `2·r ≥ m₂`); and `1 / 3` is the 38-three decimal
`0.33333333333333333333333333333333333333`. -/
theorem c5_div_half_up :
    (∀ a b : Decimal, b.int_val = 0 → checked_div a b = none) ∧
    (∀ a b : Decimal, a.int_val < U128_LIMIT → b.int_val < U128_LIMIT → b.int_val ≠ 0 →
      checked_div a b = if a.int_val = 0 then some ZERO else div_spec a b) ∧
    checked_div ONE ⟨3, 0, false⟩ =
      some ⟨33333333333333333333333333333333333333, 38, false⟩ := by
  refine ⟨?_, ?_, by decide⟩
  · intro a b hb
    unfold checked_div
    rw [if_pos hb]
  · intro a b ha hb hbz
    have hb0 : 0 < b.int_val := Nat.pos_of_ne_zero hbz
    unfold checked_div div_spec
    dsimp only
    rw [if_neg hbz]
    by_cases ha0 : a.int_val = 0
    · rw [if_pos ha0, if_pos ha0]
    · rw [if_neg ha0, if_neg ha0]
      have hU : U128_LIMIT < 10 ^ 39 := by norm_num [U128_LIMIT]
      have hpa : count_digits a.int_val ≤ 39 :=
        count_digits_le (by norm_num) (by norm_num) (lt_trans ha hU)
      have hpb : count_digits b.int_val ≤ 39 :=
        count_digits_le (by norm_num) (by norm_num) (lt_trans hb hU)
      have hpa1 : 1 ≤ count_digits a.int_val := count_digits_pos _
      have hpb1 : 1 ≤ count_digits b.int_val := count_digits_pos _
      by_cases hgt : count_digits b.int_val > count_digits a.int_val
      · rw [if_pos hgt, if_pos hgt]
        dsimp only
        have hle : MAX_PRECISION + (count_digits b.int_val - count_digits a.int_val) < 77 := by
          simp only [MAX_PRECISION]; omega
        rw [div128_round_eq _ _ hb0, POWERS_10_eq_pow _ hle, Nat.mul_comm]
        congr 1
        split <;> omega
      · rw [if_neg hgt, if_neg hgt]
        dsimp only
        rw [div128_round_eq _ _ hb0]
        rw [show POWERS_10_low MAX_PRECISION = 10 ^ MAX_PRECISION from
          POWERS_10_low_eq_pow _ (by decide)]
        simp only [Nat.add_zero, Int.ofNat_zero, Int.add_zero]
        congr 1
        split <;> omega

/-- Witness for C5 at concrete inputs. -/
theorem c5_div_half_up_witness :
    checked_div ⟨1, 0, false⟩ ZERO = none ∧
    checked_div ⟨2, 0, false⟩ ⟨7, 0, false⟩ = div_spec ⟨2, 0, false⟩ ⟨7, 0, false⟩ := by
  constructor
  · exact c5_div_half_up.1 ⟨1, 0, false⟩ ZERO rfl
  · have h := c5_div_half_up.2.1 ⟨2, 0, false⟩ ⟨7, 0, false⟩ (by decide) (by decide) (by decide)
    simpa using h

/-- C6 counterexample: the claim states that a syntactically valid
numeric string parses successfully whenever its normalized exponent lies
in `[-129, 126]`, and that `Overflow` occurs exactly when it exceeds
`126`.  The string `"0." ++ 874 * "0" ++ "1e1000"` is grammar-valid with
normalized exponent `126`, yet `extract_exponent` rejects the 4-digit
exponent field outright with `Overflow`; the same value written as
`"1e125"` parses fine. -/
theorem c6_counterexample_valid_string_rejected :
    validNumericSpec c6_input = true ∧
    normalizedExpSpec c6_input = 126 ∧
    parse_str c6_input = .error .overflow ∧
    parse_str [49, 101, 49, 50, 53] = .ok (⟨1, -125, false⟩, []) := by
  refine ⟨?_, ?_, ?_, by decide⟩
  · set_option maxRecDepth 40000 in decide
  · set_option maxRecDepth 40000 in decide
  · set_option maxRecDepth 40000 in decide

/-- C7: `exp` returns `None` for every input `≥ 291` and canonical zero
for every input `≤ −300` (the comparisons are the decimal ones used by
the source). -/
theorem c7_exp_bounds :
    (∀ x : Decimal, cmp x EXP_UPPER_BOUND ≠ .lt → exp x = none) ∧
    (∀ x : Decimal, cmp x EXP_LOWER_BOUND ≠ .gt → exp x = some ZERO) := by
  constructor
  · intro x hx
    have hnz : x.int_val ≠ 0 := by
      intro h0
      apply hx
      unfold cmp
      by_cases hn : x.negative
      · simp [hn, EXP_UPPER_BOUND]
      · simp [hn, EXP_UPPER_BOUND, h0]
    unfold exp
    rw [if_neg hnz, if_pos hx]
  · intro x hx
    have hneg : x.negative = true := by
      by_contra hn
      apply hx
      unfold cmp
      simp only [Bool.not_eq_true] at hn
      simp [hn, EXP_LOWER_BOUND]
    have hnz : x.int_val ≠ 0 := by
      intro h0
      apply hx
      unfold cmp
      simp [hneg, EXP_LOWER_BOUND, h0]
    have hup : ¬ cmp x EXP_UPPER_BOUND ≠ .lt := by
      simp only [ne_eq, not_not]
      unfold cmp
      simp [hneg, EXP_UPPER_BOUND]
    unfold exp
    rw [if_neg hnz, if_neg hup, if_pos hx]

/-- Witness for C7 at the boundary inputs `291` and `−300`. -/
theorem c7_exp_bounds_witness :
    exp ⟨291, 0, false⟩ = none ∧ exp ⟨300, 0, true⟩ = some ZERO :=
  ⟨c7_exp_bounds.1 ⟨291, 0, false⟩ (by decide), c7_exp_bounds.2 ⟨300, 0, true⟩ (by decide)⟩

/-- C9 counterexample: the claim states successive Newton iterates become
bit-identical within about 40 iterations.  For the representable input
`10^-130` the iteration does converge (`sqrt` with fuel 1000 returns
`Some 10^-65`, so no step fails), but 40 iterations are not enough: from
the seed `1` the iterates first shrink by about half per step, and
`sqrt_loop` with fuel 40 exhausts its fuel without two successive
iterates ever comparing equal. -/
theorem c9_counterexample_forty_iterations_insufficient :
    sqrt ⟨1, 130, false⟩ = some ⟨10000000000000000000000000000000000000, 102, false⟩ ∧
    sqrt_loop 40 ⟨1, 130, false⟩ ONE = none := by
  constructor
  · set_option maxRecDepth 10000 in decide
  · set_option maxRecDepth 10000 in decide

/-- C9 amended: `sqrt` returns `None` immediately for negative input; the
Newton iteration is not bounded by ~40 iterations in general — for the
input `10^-130` it takes 223 iterations (fuel 223 suffices where fuel 40
does not) before successive iterates coincide, converging to `10^-65`;
for the spec's example input `2` it converges to the 38-digit root. -/
theorem c9_sqrt_amended :
    (∀ x : Decimal, x.negative = true → sqrt x = none) ∧
    sqrt_loop 223 ⟨1, 130, false⟩ ONE =
      some ⟨10000000000000000000000000000000000000, 102, false⟩ ∧
    sqrt ⟨2, 0, false⟩ = some ⟨14142135623730950488016887242096980786, 37, false⟩ := by
  refine ⟨?_, ?_, ?_⟩
  · intro x hx
    unfold sqrt
    rw [if_pos hx]
  · set_option maxRecDepth 10000 in decide
  · set_option maxRecDepth 10000 in decide

/-- Witness for C9 (amended) at a concrete negative input. -/
theorem c9_sqrt_amended_witness : sqrt ⟨1, 0, true⟩ = none :=
  c9_sqrt_amended.1 ⟨1, 0, true⟩ rfl

/-- C10: `decode` panics (fails its assertion) on the empty slice, is
total on every non-empty byte slice, and ignores bytes beyond the 18th. -/
theorem c10_decode_total :
    decode ([] : List Nat) = none ∧
    (∀ bs : List Nat, bs ≠ [] → (decode bs).isSome = true) ∧
    (∀ bs : List Nat, MAX_BINARY_SIZE ≤ bs.length →
      decode bs = decode (bs.take MAX_BINARY_SIZE)) := by
  refine ⟨by decide, ?_, ?_⟩
  · intro bs h
    have hlen : bs.length ≠ 0 := fun h0 => h (List.length_eq_zero.mp h0)
    unfold decode
    dsimp only
    rw [if_neg hlen]
    split <;> simp
  · intro bs h
    simp only [MAX_BINARY_SIZE] at h
    have h18 : (bs.take MAX_BINARY_SIZE).length = 18 := by
      simp only [List.length_take, MAX_BINARY_SIZE]; omega
    have e0 : (bs.take MAX_BINARY_SIZE).getD 0 0 = bs.getD 0 0 := by
      simp [List.getD_eq_getElem?_getD, List.getElem?_take, MAX_BINARY_SIZE]
    have e1 : (bs.take MAX_BINARY_SIZE).getD 1 0 = bs.getD 1 0 := by
      simp [List.getD_eq_getElem?_getD, List.getElem?_take, MAX_BINARY_SIZE]
    have edata : ((bs.take MAX_BINARY_SIZE).drop 2).take 16 = (bs.drop 2).take 16 := by
      simp only [MAX_BINARY_SIZE]
      rw [List.drop_take, List.take_take]
      norm_num
    unfold decode
    dsimp only
    rw [h18]
    have hb0 : bs.length ≠ 0 := by omega
    have hb2 : ¬ bs.length ≤ 2 := by omega
    have hb18 : ¬ bs.length < MAX_BINARY_SIZE := by simp only [MAX_BINARY_SIZE]; omega
    rw [if_neg hb0, if_neg hb2,
        if_neg (show ¬(18 : Nat) = 0 by norm_num), if_neg (show ¬(18 : Nat) ≤ 2 by norm_num),
        if_neg hb18, if_neg (show ¬(18 : Nat) < MAX_BINARY_SIZE by simp [MAX_BINARY_SIZE]),
        e0, e1, edata]

/-- Witness for C10 at concrete inputs. -/
theorem c10_decode_total_witness :
    (decode [7] ).isSome = true ∧
    decode (List.replicate 20 9) = decode ((List.replicate 20 9).take MAX_BINARY_SIZE) :=
  ⟨c10_decode_total.2.1 [7] (by decide),
   c10_decode_total.2.2 (List.replicate 20 9) (by decide)⟩

/-! ## Binary codec lemmas and round trip (C4) -/


theorem foldr_le_digits : ∀ (k v : Nat),
    ((List.range k).map (fun i => v / 256 ^ i % 256)).foldr (fun b acc => b + 256 * acc) 0 =
      v % 256 ^ k
  | 0, v => by simp [Nat.mod_one]
  | k + 1, v => by
    rw [List.range_succ_eq_map]
    simp only [List.map_cons, List.map_map, List.foldr_cons]
    have hcomp :
        (List.range k).map ((fun i => v / 256 ^ i % 256) ∘ Nat.succ) =
        (List.range k).map (fun i => (v / 256) / 256 ^ i % 256) := by
      apply List.map_congr_left
      intro i _
      simp only [Function.comp_apply]
      congr 1
      rw [Nat.pow_succ, Nat.mul_comm (256 ^ i) 256, ← Nat.div_div_eq_div_mul]
    rw [hcomp, foldr_le_digits k (v / 256)]
    simp only [Nat.pow_zero, Nat.div_one]
    rw [Nat.pow_succ', Nat.mod_mul]

/-- Above `top_idx id v`, all base-256 digits (with index `≤ id`) vanish. -/
theorem top_idx_zero_above : ∀ (id v j : Nat), top_idx id v < j → j ≤ id →
    v / 256 ^ j % 256 = 0
  | 0, v, j => by intro h1 h2; omega
  | id + 1, v, j => by
    intro h1 h2
    unfold top_idx at h1
    split at h1
    · next hz =>
      rcases Nat.lt_or_ge j (id + 1) with hj | hj
      · exact top_idx_zero_above id v j h1 (by omega)
      · have : j = id + 1 := by omega
        rw [this]; exact hz
    · next hz => omega

theorem top_idx_le : ∀ (id v : Nat), top_idx id v ≤ id
  | 0, v => Nat.le_refl 0
  | id + 1, v => by
    unfold top_idx
    split
    · exact Nat.le_trans (top_idx_le id v) (by omega)
    · omega



theorem foldr_zeros : ∀ n : Nat,
    (List.replicate n 0).foldr (fun b acc => b + 256 * acc) 0 = 0 := by
  intro n
  induction n with
  | zero => simp
  | succ k ih => simp [List.replicate_succ, ih]

theorem eq_zero_of_digits_zero (w k : Nat) (hw : w < 256 ^ k)
    (hz : ∀ i < k, w / 256 ^ i % 256 = 0) : w = 0 := by
  have h1 := foldr_le_digits k w
  have h2 : (List.range k).map (fun i => w / 256 ^ i % 256) = List.replicate k 0 := by
    rw [List.eq_replicate_iff]
    constructor
    · simp
    · intro b hb
      simp only [List.mem_map, List.mem_range] at hb
      rcases hb with ⟨i, hi, rfl⟩
      exact hz i hi
  rw [h2, foldr_zeros] at h1
  have := Nat.mod_eq_of_lt hw
  omega

/-- Padding the first `m` little-endian bytes with zeros recovers the
full 16-byte representation when the dropped bytes vanish. -/
theorem take_pad_eq (v m : Nat) (hm : m ≤ 16)
    (hz : ∀ j, m ≤ j → j < 16 → v / 256 ^ j % 256 = 0) :
    (to_le_bytes16 v).take m ++ List.replicate (16 - m) 0 = to_le_bytes16 v := by
  have hlen : (to_le_bytes16 v).length = 16 := by simp [to_le_bytes16]
  apply List.ext_getElem
  · simp [to_le_bytes16]; omega
  · intro i h1 h2
    rcases Nat.lt_or_ge i m with hi | hi
    · rw [List.getElem_append_left (by simp [to_le_bytes16]; omega)]
      rw [List.getElem_take]
    · rw [List.getElem_append_right (by simp [to_le_bytes16]; omega)]
      simp only [List.getElem_replicate]
      simp only [to_le_bytes16, List.getElem_map, List.getElem_range] at h2 ⊢
      exact (hz i hi (by simpa [to_le_bytes16] using h2)).symm

theorem from_to_le_bytes16 (v : Nat) (hv : v < U128_LIMIT) :
    from_le_bytes16 (to_le_bytes16 v) = v := by
  unfold from_le_bytes16 to_le_bytes16
  rw [foldr_le_digits 16 v]
  exact Nat.mod_eq_of_lt (by norm_num [U128_LIMIT] at hv ⊢; omega)



/-- Shape of `decode` on a header followed by 1–16 significand bytes. -/
theorem decode_header_data (flags asc : Nat) (data : List Nat) (hne : data ≠ [])
    (hlen : data.length ≤ 16) :
    decode (flags :: asc :: data) =
      some (from_parts_unchecked
        (from_le_bytes16 (data ++ List.replicate (16 - data.length) 0))
        (if flags / 2 % 2 ≠ 0 then (asc : Int) else -(asc : Int))
        (decide (flags % 2 = 1))) := by
  have hd : 1 ≤ data.length := by
    rcases data with _ | ⟨x, t⟩
    · exact absurd rfl hne
    · simp
  unfold decode
  dsimp only
  have hL : (flags :: asc :: data).length = data.length + 2 := by simp
  rw [hL]
  rw [if_neg (by omega : ¬ data.length + 2 = 0), if_neg (by omega : ¬ data.length + 2 ≤ 2)]
  have hdrop : (flags :: asc :: data).drop 2 = data := rfl
  by_cases h16 : data.length + 2 < MAX_BINARY_SIZE
  · rw [if_pos h16, hdrop]
    simp only [List.getD_cons_zero, List.getD_cons_succ]
  · rw [if_neg h16, hdrop]
    have : data.length = 16 := by simp only [MAX_BINARY_SIZE] at h16; omega
    rw [List.take_of_length_le (by omega)]
    simp only [List.getD_cons_zero, List.getD_cons_succ, this]



/-- The 16 little-endian base-256 digits, expanded. -/
theorem to_le_bytes16_eq (v : Nat) :
    to_le_bytes16 v =
      [v % 256, v / 256 % 256, v / 256 ^ 2 % 256, v / 256 ^ 3 % 256,
       v / 256 ^ 4 % 256, v / 256 ^ 5 % 256, v / 256 ^ 6 % 256, v / 256 ^ 7 % 256,
       v / 256 ^ 8 % 256, v / 256 ^ 9 % 256, v / 256 ^ 10 % 256, v / 256 ^ 11 % 256,
       v / 256 ^ 12 % 256, v / 256 ^ 13 % 256, v / 256 ^ 14 % 256, v / 256 ^ 15 % 256] := by
  have hr : List.range 16 = [0,1,2,3,4,5,6,7,8,9,10,11,12,13,14,15] := by decide
  unfold to_le_bytes16
  rw [hr]
  norm_num

/-- `from_parts_unchecked` applied to a decimal's own fields returns the
decimal, given the canonical-zero property. -/
theorem from_parts_unchecked_self (d : Decimal)
    (h : d.int_val = 0 → d.scale = 0 ∧ d.negative = false) :
    from_parts_unchecked d.int_val d.scale d.negative = d := by
  unfold from_parts_unchecked
  by_cases h0 : d.int_val = 0
  · rcases h h0 with ⟨h1, h2⟩
    rw [if_neg (by simp [h0])]
    cases d
    simp_all [ZERO]
  · rw [if_pos h0]

/-- Round trip of `internal_encode` / `decode` for well-formed decimals,
together with the 18-byte size bound. -/
theorem internal_encode_roundtrip (d : Decimal) (hWF : WellFormed d) (compact : Bool) :
    decode (internal_encode d compact) = some d ∧
    (internal_encode d compact).length ≤ MAX_BINARY_SIZE := by
  obtain ⟨hm, hsl, hsu, hz0⟩ := hWF
  have hv : d.int_val < U128_LIMIT := by
    simp only [MAX_I128_REPR] at hm
    simp only [U128_LIMIT]
    omega
  set v := d.int_val with hvdef
  have hid15 : top_idx 15 v ≤ 15 := top_idx_le 15 v
  have hzero : ∀ j, top_idx 15 v < j → j ≤ 15 → v / 256 ^ j % 256 = 0 :=
    fun j h1 h2 => top_idx_zero_above 15 v j h1 h2
  have hv16 : v < 256 ^ 16 := by
    simp only [U128_LIMIT] at hv
    norm_num at hv ⊢
    omega
  have hvsmall : v < 256 ^ (top_idx 15 v + 1) := by
    set id := top_idx 15 v with hiddef
    have hw : v / 256 ^ (id + 1) = 0 := by
      apply eq_zero_of_digits_zero (v / 256 ^ (id + 1)) (15 - id)
      · have h1 : 256 ^ (id + 1) * 256 ^ (15 - id) = 256 ^ 16 := by
          rw [← pow_add]
          congr 1
          omega
        rw [Nat.div_lt_iff_lt_mul (Nat.pos_pow_of_pos _ (by norm_num))]
        rw [Nat.mul_comm, h1]
        exact hv16
      · intro i hi
        rw [Nat.div_div_eq_div_mul, ← pow_add]
        exact hzero (id + 1 + i) (by omega) (by omega)
    exact (Nat.div_eq_zero_iff (Nat.pos_pow_of_pos _ (by norm_num))).mp hw
  unfold internal_encode
  dsimp only
  by_cases hc : compact = true ∧ top_idx 15 v < 2 ∧ d.scale = 0 ∧ ¬ d.negative = true
  · rw [if_pos hc]
    obtain ⟨-, hidlt, hs0, hneg⟩ := hc
    simp only [Bool.not_eq_true] at hneg
    by_cases h0 : top_idx 15 v = 0
    · rw [if_pos h0]
      have hvlt : v < 256 := by
        have h1 := hvsmall
        rw [h0] at h1
        simpa using h1
      have htake : (to_le_bytes16 v).take 1 = [v % 256] := by
        rw [to_le_bytes16_eq]
        rfl
      rw [htake]
      constructor
      · unfold decode
        dsimp only
        norm_num
        rw [Nat.mod_eq_of_lt hvlt]
        rw [show (0 : Int) = d.scale from hs0.symm, show false = d.negative from hneg.symm,
          hvdef]
        rw [from_parts_unchecked_self d hz0]
      · simp [MAX_BINARY_SIZE]
    · rw [if_neg h0]
      have hid1 : top_idx 15 v = 1 := by omega
      have hvlt : v < 65536 := by
        have h1 := hvsmall
        rw [hid1] at h1
        norm_num at h1
        exact h1
      have htake : (to_le_bytes16 v).take 2 = [v % 256, v / 256 % 256] := by
        rw [to_le_bytes16_eq]
        rfl
      rw [htake]
      constructor
      · unfold decode
        dsimp only
        norm_num
        have hint : v / 256 % 256 * 256 + v % 256 = v := by omega
        rw [hint]
        rw [show (0 : Int) = d.scale from hs0.symm, show false = d.negative from hneg.symm,
          hvdef]
        rw [from_parts_unchecked_self d hz0]
      · simp [MAX_BINARY_SIZE]
  · rw [if_neg hc]
    set id := top_idx 15 v with hiddef
    set taken := (to_le_bytes16 v).take (id + 1) with htakendef
    have hlen16 : (to_le_bytes16 v).length = 16 := by rw [to_le_bytes16_eq]; rfl
    have htlen : taken.length = id + 1 := by
      rw [htakendef, List.length_take, hlen16]
      omega
    have hne : taken ≠ [] := by
      intro hx
      rw [hx] at htlen
      simp at htlen
    have hpad : taken ++ List.replicate (16 - taken.length) 0 = to_le_bytes16 v := by
      rw [htlen]
      exact take_pad_eq v (id + 1) (by omega)
        (fun j h1 h2 => hzero j (by omega) (by omega))
    have hfrom : from_le_bytes16 (taken ++ List.replicate (16 - taken.length) 0) = v := by
      rw [hpad]
      exact from_to_le_bytes16 v hv
    have hhdr : ∃ flags asc : Nat,
        encode_header d = [flags, asc] ∧
        (decide (flags % 2 = 1)) = d.negative ∧
        (if flags / 2 % 2 ≠ 0 then (asc : Int) else -(asc : Int)) = d.scale := by
      unfold encode_header
      dsimp only
      by_cases hs : d.scale < 0
      · rw [if_pos hs]
        refine ⟨(if d.negative = true then 1 else 0), (-d.scale).toNat % 256, by norm_num, ?_, ?_⟩
        · by_cases hn : d.negative = true
          · rw [if_pos hn]
            simp [hn]
          · rw [if_neg hn]
            simp only [Bool.not_eq_true] at hn
            simp [hn]
        · have habs : (-d.scale).toNat % 256 = (-d.scale).toNat := by
            apply Nat.mod_eq_of_lt
            simp only [MIN_SCALE] at hsl
            omega
          rw [habs]
          have hcond : ¬ ((if d.negative = true then 1 else 0) / 2 % 2 ≠ 0) := by
            by_cases hn : d.negative = true <;> simp [hn]
          rw [if_neg hcond]
          simp only [MIN_SCALE] at hsl
          omega
      · rw [if_neg hs]
        refine ⟨2 + (if d.negative = true then 1 else 0), d.scale.toNat % 256, by norm_num, ?_, ?_⟩
        · by_cases hn : d.negative = true
          · rw [if_pos hn]
            simp [hn]
          · rw [if_neg hn]
            simp only [Bool.not_eq_true] at hn
            simp [hn]
        · have habs : d.scale.toNat % 256 = d.scale.toNat := by
            apply Nat.mod_eq_of_lt
            simp only [MAX_SCALE, MAX_PRECISION] at hsu
            omega
          rw [habs]
          have hcond : (2 + (if d.negative = true then 1 else 0)) / 2 % 2 ≠ 0 := by
            by_cases hn : d.negative = true <;> simp [hn]
          rw [if_pos hcond]
          omega
    obtain ⟨flags, asc, hhd, hneg', hscale'⟩ := hhdr
    rw [hhd]
    have happ : ([flags, asc] : List Nat) ++ taken = flags :: asc :: taken := rfl
    rw [happ]
    constructor
    · rw [decode_header_data flags asc taken hne (by omega)]
      rw [hfrom, hneg', hscale', hvdef]
      rw [from_parts_unchecked_self d hz0]
    · simp only [List.length_cons, htlen, MAX_BINARY_SIZE]
      omega



/-- C4: for every representable decimal, decoding the bytes produced by
`encode` or `compact_encode` recovers the decimal exactly, and at most
18 bytes are written. -/
theorem c4_encode_decode_roundtrip :
    ∀ d : Decimal, WellFormed d →
      decode (encode d) = some d ∧ (encode d).length ≤ MAX_BINARY_SIZE ∧
      decode (compact_encode d) = some d ∧ (compact_encode d).length ≤ MAX_BINARY_SIZE := by
  intro d h
  obtain ⟨h1, h2⟩ := internal_encode_roundtrip d h false
  obtain ⟨h3, h4⟩ := internal_encode_roundtrip d h true
  exact ⟨h1, h2, h3, h4⟩

/-- Witness for C4 at the spec's binary-codec example input
`184467440.73709551615` (significand `2^64 − 1`, scale 11). -/
theorem c4_encode_decode_roundtrip_witness :
    decode (encode ⟨18446744073709551615, 11, false⟩) =
      some ⟨18446744073709551615, 11, false⟩ ∧
    (encode ⟨18446744073709551615, 11, false⟩).length ≤ MAX_BINARY_SIZE ∧
    decode (compact_encode ⟨18446744073709551615, 11, false⟩) =
      some ⟨18446744073709551615, 11, false⟩ ∧
    (compact_encode ⟨18446744073709551615, 11, false⟩).length ≤ MAX_BINARY_SIZE :=
  c4_encode_decode_roundtrip ⟨18446744073709551615, 11, false⟩ (by decide)

/-! ## Value semantics, comparison correctness, normalization (C8) -/


theorem ten_q_ne_zero : (10 : ℚ) ≠ 0 := by norm_num

/-- Cross-multiplied form of equality of scaled magnitudes. -/
theorem val_eq_iff_cross {m1 m2 : Nat} {e1 e2 : Int} (h : e1 ≤ e2) :
    (m1 : ℚ) * (10 : ℚ) ^ (-e1) = (m2 : ℚ) * (10 : ℚ) ^ (-e2) ↔
      m1 * 10 ^ (e2 - e1).toNat = m2 := by
  have key : (10 : ℚ) ^ (-e1) = (10 : ℚ) ^ ((e2 - e1).toNat : Nat) * (10 : ℚ) ^ (-e2) := by
    rw [← zpow_natCast (10 : ℚ) (e2 - e1).toNat, Int.toNat_of_nonneg (by omega),
      ← zpow_add₀ ten_q_ne_zero]
    congr 1
    omega
  rw [key, ← mul_assoc]
  constructor
  · intro hq
    have := mul_right_cancel₀ (zpow_ne_zero (-e2) ten_q_ne_zero) hq
    exact_mod_cast this
  · intro hn
    have : ((m1 * 10 ^ (e2 - e1).toNat : Nat) : ℚ) = (m2 : ℚ) := by exact_mod_cast hn
    push_cast at this
    rw [this]

theorem compare_nat_eq_iff (a b : Nat) : compare a b = .eq ↔ a = b :=
  Nat.compare_eq_eq

/-- Correctness of `rescale_cmp` on the `.eq` outcome. -/
theorem rescale_cmp_eq_iff (l r : Decimal) (hlr : l.scale < r.scale)
    (hl : l.int_val ≠ 0) (hr : r.int_val < 10 ^ 38) :
    (rescale_cmp l r = .eq ↔
      (l.int_val : ℚ) * (10 : ℚ) ^ (-l.scale) = (r.int_val : ℚ) * (10 : ℚ) ^ (-r.scale)) := by
  unfold rescale_cmp
  dsimp only
  rw [val_eq_iff_cross (le_of_lt hlr)]
  by_cases he : r.scale - l.scale > (MAX_PRECISION : Int)
  · rw [if_pos he]
    simp only [MAX_PRECISION] at he
    constructor
    · intro hx; exact absurd hx (by simp)
    · intro hx
      exfalso
      have h39 : 10 ^ 39 ≤ l.int_val * 10 ^ (r.scale - l.scale).toNat := by
        calc 10 ^ 39 = 1 * 10 ^ 39 := by ring
        _ ≤ l.int_val * 10 ^ (r.scale - l.scale).toNat := by
            apply Nat.mul_le_mul (by omega)
            apply Nat.pow_le_pow_right (by norm_num)
            omega
      have : r.int_val < 10 ^ 39 := lt_trans hr (by norm_num)
      omega
  · rw [if_neg he]
    simp only [MAX_PRECISION] at he
    rw [show POWERS_10_low (r.scale - l.scale).toNat = 10 ^ (r.scale - l.scale).toNat from
      POWERS_10_low_eq_pow _ (by omega)]
    exact compare_nat_eq_iff _ _


/-- The magnitude `m · 10^(-e)` of a decimal. -/
def mag (d : Decimal) : ℚ := (d.int_val : ℚ) * (10 : ℚ) ^ (-d.scale)

theorem val_eq_sign_mag (d : Decimal) :
    val d = (if d.negative then -1 else 1) * mag d := by
  unfold val mag
  ring

theorem mag_nonneg (d : Decimal) : 0 ≤ mag d := by
  unfold mag
  positivity

theorem mag_zero_iff (d : Decimal) : mag d = 0 ↔ d.int_val = 0 := by
  unfold mag
  rw [mul_eq_zero]
  constructor
  · intro h
    rcases h with h | h
    · exact_mod_cast h
    · exact absurd h (zpow_ne_zero _ ten_q_ne_zero)
  · intro h; left; exact_mod_cast h

theorem mag_pos_of_ne (d : Decimal) (h : d.int_val ≠ 0) : 0 < mag d :=
  lt_of_le_of_ne (mag_nonneg d) (fun hx => h ((mag_zero_iff d).mp hx.symm))

/-- With equal signs, equality of values is equality of magnitudes. -/
theorem val_eq_iff_mag_eq {a b : Decimal} (h : a.negative = b.negative) :
    val a = val b ↔ mag a = mag b := by
  rw [val_eq_sign_mag, val_eq_sign_mag, h]
  by_cases hn : b.negative <;> simp [hn]

theorem swap_eq_eq_iff (o : Ordering) : o.swap = .eq ↔ o = .eq := by
  cases o <;> simp [Ordering.swap]

theorem val_lt_of_sign_lt {x y : Decimal} (hx : x.negative = true) (hy : y.negative = false)
    (hx0 : x.int_val ≠ 0) : val x < val y := by
  rw [val_eq_sign_mag, val_eq_sign_mag, hx, hy]
  have h1 := mag_pos_of_ne x hx0
  have h2 := mag_nonneg y
  norm_num
  nlinarith

/-- Magnitude comparison with equal scales. -/
theorem mag_eq_iff_int_eq {l r : Decimal} (h : l.scale = r.scale) :
    mag l = mag r ↔ l.int_val = r.int_val := by
  unfold mag
  rw [h]
  constructor
  · intro hx
    have := mul_right_cancel₀ (zpow_ne_zero (-r.scale) ten_q_ne_zero) hx
    exact_mod_cast this
  · intro hx
    rw [hx]

/-- The sign-resolved core of `cmp` answers `.eq` iff the magnitudes agree. -/
theorem cmp_core_eq_iff (l r : Decimal) (hlM : l.int_val < 10 ^ 38) (hrM : r.int_val < 10 ^ 38) :
    ((if l.int_val = 0 then (if r.int_val = 0 then Ordering.eq else Ordering.lt)
      else if r.int_val = 0 then Ordering.gt
      else if l.scale = r.scale then compare l.int_val r.int_val
      else if l.scale < r.scale then rescale_cmp l r
      else (rescale_cmp r l).swap) = Ordering.eq) ↔ mag l = mag r := by
  by_cases hlz : l.int_val = 0
  · rw [if_pos hlz]
    by_cases hrz : r.int_val = 0
    · rw [if_pos hrz]
      simp [((mag_zero_iff l).mpr hlz), ((mag_zero_iff r).mpr hrz)]
    · rw [if_neg hrz]
      have h1 : mag l = 0 := (mag_zero_iff l).mpr hlz
      have h2 : 0 < mag r := mag_pos_of_ne r hrz
      constructor
      · intro hx; exact Ordering.noConfusion hx
      · intro hx; rw [h1] at hx; exact absurd hx.symm (ne_of_gt h2)
  · rw [if_neg hlz]
    by_cases hrz : r.int_val = 0
    · rw [if_pos hrz]
      have h1 : mag r = 0 := (mag_zero_iff r).mpr hrz
      have h2 : 0 < mag l := mag_pos_of_ne l hlz
      constructor
      · intro hx; exact Ordering.noConfusion hx
      · intro hx; rw [h1] at hx; exact absurd hx (ne_of_gt h2)
    · rw [if_neg hrz]
      by_cases hscl : l.scale = r.scale
      · rw [if_pos hscl, compare_nat_eq_iff, mag_eq_iff_int_eq hscl]
      · rw [if_neg hscl]
        by_cases hlt : l.scale < r.scale
        · rw [if_pos hlt]
          exact rescale_cmp_eq_iff l r hlt hlz hrM
        · rw [if_neg hlt, swap_eq_eq_iff]
          have hrl : r.scale < l.scale := by omega
          rw [rescale_cmp_eq_iff r l hrl hrz hlM]
          exact eq_comm

/-- `cmp` answers `.eq` exactly on equal values (for decimals with a
canonical zero and a below-`10^38` significand). -/
theorem cmp_eq_iff_val_eq (a b : Decimal)
    (ha0 : a.int_val = 0 → a.negative = false)
    (hb0 : b.int_val = 0 → b.negative = false)
    (haM : a.int_val < 10 ^ 38) (hbM : b.int_val < 10 ^ 38) :
    (cmp a b = .eq ↔ val a = val b) := by
  unfold cmp
  dsimp only
  by_cases hsd : a.negative ≠ b.negative
  · rw [if_pos hsd]
    have hval : val a ≠ val b := by
      cases ha : a.negative <;> cases hb : b.negative
      · exact absurd (ha.trans hb.symm) hsd
      · have hbn0 : b.int_val ≠ 0 := fun h0 => by rw [hb0 h0] at hb; exact Bool.noConfusion hb
        exact (ne_of_gt (val_lt_of_sign_lt hb ha hbn0))
      · have han0 : a.int_val ≠ 0 := fun h0 => by rw [ha0 h0] at ha; exact Bool.noConfusion ha
        exact ne_of_lt (val_lt_of_sign_lt ha hb han0)
      · exact absurd (ha.trans hb.symm) hsd
    constructor
    · intro hx
      split at hx <;> exact Ordering.noConfusion hx
    · intro hx
      exact absurd hx hval
  · rw [if_neg hsd]
    have hs : a.negative = b.negative := not_ne_iff.mp hsd
    by_cases hn : a.negative = true
    · rw [if_pos hn]
      dsimp only
      rw [cmp_core_eq_iff b a hbM haM, val_eq_iff_mag_eq hs]
      exact eq_comm
    · rw [if_neg hn]
      dsimp only
      rw [cmp_core_eq_iff a b haM hbM, val_eq_iff_mag_eq hs]

/-- `norm_down` preserves the magnitude `m · 10^(-e)`. -/
theorem norm_down_mag : ∀ (fuel m : Nat) (e target : Int),
    (((norm_down fuel m e target).1 : ℚ) * (10 : ℚ) ^ (-(norm_down fuel m e target).2)) =
      (m : ℚ) * (10 : ℚ) ^ (-e)
  | 0, m, e, t => rfl
  | fuel + 1, m, e, t => by
    unfold norm_down
    split
    · split
      · rfl
      · next h10 =>
        rw [norm_down_mag fuel (m / 10) (e - 1) t]
        have hdvd : 10 ∣ m := by omega
        obtain ⟨c, rfl⟩ := hdvd
        rw [Nat.mul_div_cancel_left c (by norm_num)]
        have hz : (10 : ℚ) ^ (-(e - 1)) = (10 : ℚ) * (10 : ℚ) ^ (-e) := by
          rw [show -(e - 1) = 1 + -e by ring, zpow_add₀ ten_q_ne_zero]
          norm_num
        rw [hz]
        push_cast
        ring
    · rfl

/-- `norm_down` stops at the target scale or at a non-divisible significand. -/
theorem norm_down_stop : ∀ (fuel m : Nat) (e target : Int), target ≤ e →
    e - target ≤ (fuel : Int) →
    (norm_down fuel m e target).2 = target ∨ (norm_down fuel m e target).1 % 10 > 0
  | 0, m, e, t, h1, h2 => by left; show e = t; omega
  | fuel + 1, m, e, t, h1, h2 => by
    unfold norm_down
    split
    · split
      · next h => right; exact h
      · next h =>
        exact norm_down_stop fuel (m / 10) (e - 1) t (by omega) (by omega)
    · next h => left; omega

/-- `norm_down` bounds: the scale stays in `[target, e]`, the significand
does not grow, and a nonzero significand stays nonzero. -/
theorem norm_down_bounds : ∀ (fuel m : Nat) (e target : Int), target ≤ e →
    target ≤ (norm_down fuel m e target).2 ∧ (norm_down fuel m e target).2 ≤ e ∧
    (norm_down fuel m e target).1 ≤ m ∧ (m ≠ 0 → (norm_down fuel m e target).1 ≠ 0)
  | 0, m, e, t, h1 => ⟨h1, le_refl e, le_refl m, fun h => h⟩
  | fuel + 1, m, e, t, h1 => by
    unfold norm_down
    split
    · split
      · exact ⟨by omega, by omega, le_refl m, fun h => h⟩
      · next h =>
        have hdvd : 10 ∣ m := by omega
        rcases norm_down_bounds fuel (m / 10) (e - 1) t (by omega) with ⟨a, b, c, dd⟩
        have hnz : m ≠ 0 → m / 10 ≠ 0 := by
          intro hm h10'
          obtain ⟨k, rfl⟩ := hdvd
          rw [Nat.mul_div_cancel_left k (by norm_num)] at h10'
          subst h10'
          simp at hm
        exact ⟨a, by omega, le_trans c (Nat.div_le_self m 10), fun hm => dd (hnz hm)⟩
    · exact ⟨by omega, le_refl e, le_refl m, fun h => h⟩

/-- `norm_up` preserves the magnitude. -/
theorem norm_up_mag : ∀ (fuel m : Nat) (e target : Int),
    (((norm_up fuel m e target).1 : ℚ) * (10 : ℚ) ^ (-(norm_up fuel m e target).2)) =
      (m : ℚ) * (10 : ℚ) ^ (-e)
  | 0, m, e, t => rfl
  | fuel + 1, m, e, t => by
    unfold norm_up
    split
    · split
      · rfl
      · rw [norm_up_mag fuel (m * 10) (e + 1) t]
        have hz : (10 : ℚ) ^ (-e) = (10 : ℚ) * (10 : ℚ) ^ (-(e + 1)) := by
          rw [show -e = 1 + -(e + 1) by ring, zpow_add₀ ten_q_ne_zero]
          norm_num
        rw [hz]
        push_cast
        ring
    · rfl

/-- `norm_up` stops at the target scale or with at least 38 digits. -/
theorem norm_up_stop : ∀ (fuel m : Nat) (e target : Int), e ≤ target →
    target - e ≤ (fuel : Int) →
    (norm_up fuel m e target).2 = target ∨
      10000000000000000000000000000000000000 ≤ (norm_up fuel m e target).1
  | 0, m, e, t, h1, h2 => by left; show e = t; omega
  | fuel + 1, m, e, t, h1, h2 => by
    unfold norm_up
    split
    · split
      · next h => right; exact h
      · next h =>
        exact norm_up_stop fuel (m * 10) (e + 1) t (by omega) (by omega)
    · next h => left; omega

/-- `norm_up` bounds: scale in `[e, target]`, significand below `10^38`
if it started there, nonzero preserved. -/
theorem norm_up_bounds : ∀ (fuel m : Nat) (e target : Int), e ≤ target →
    e ≤ (norm_up fuel m e target).2 ∧ (norm_up fuel m e target).2 ≤ target ∧
    (m < 10 ^ 38 → (norm_up fuel m e target).1 < 10 ^ 38) ∧
    (m ≠ 0 → (norm_up fuel m e target).1 ≠ 0)
  | 0, m, e, t, h1 => ⟨le_refl e, h1, fun h => h, fun h => h⟩
  | fuel + 1, m, e, t, h1 => by
    unfold norm_up
    split
    · split
      · exact ⟨le_refl e, by omega, fun h => h, fun h => h⟩
      · next h =>
        rcases norm_up_bounds fuel (m * 10) (e + 1) t (by omega) with ⟨a, b, c, dd⟩
        refine ⟨by omega, b, fun hm => c (by norm_num at h ⊢; omega), fun hm => dd (by omega)⟩
    · exact ⟨le_refl e, h1, fun h => h, fun h => h⟩

/-- Properties of `normalize`: value preserved, the result is in normal
form (trailing zeros moved out as far as the 38-digit envelope allows),
the sign is preserved. -/
theorem normalize_spec (d : Decimal) (hM : d.int_val < 10 ^ 38)
    (h0 : d.int_val = 0 → d.scale = 0 ∧ d.negative = false) :
    val (normalize d) = val d ∧
    (normalize d).int_val < 10 ^ 38 ∧
    ((normalize d).int_val = 0 → normalize d = ZERO ∧ d.int_val = 0) ∧
    (0 < (normalize d).scale → (normalize d).int_val % 10 > 0) ∧
    ((normalize d).scale < 0 → 10 ^ 37 ≤ (normalize d).int_val) := by
  unfold normalize normalize_to_scale
  by_cases hz : d.int_val = 0
  · rw [if_pos hz]
    rcases h0 hz with ⟨hs, hn⟩
    refine ⟨?_, by norm_num [ZERO], fun _ => ⟨rfl, hz⟩, by norm_num [ZERO], by norm_num [ZERO]⟩
    rw [val_eq_sign_mag, val_eq_sign_mag]
    rw [(mag_zero_iff ZERO).mpr rfl, (mag_zero_iff d).mpr hz]
    ring
  · rw [if_neg hz]
    by_cases hsc : d.scale = 0
    · rw [if_pos hsc]
      exact ⟨rfl, hM, fun h => absurd h hz, by omega, by omega⟩
    · rw [if_neg hsc]
      dsimp only
      rcases lt_or_gt_of_ne hsc with hneg | hpos
      · -- d.scale < 0 : the down-loop fuel is 0, the up-loop raises the scale
        have hfuel1 : (d.scale - 0).toNat = 0 := by omega
        rw [hfuel1]
        have hp1 : norm_down 0 d.int_val d.scale 0 = (d.int_val, d.scale) := rfl
        rw [hp1]
        dsimp only
        have hub := norm_up_bounds (0 - d.scale).toNat d.int_val d.scale 0 (by omega)
        have hus := norm_up_stop (0 - d.scale).toNat d.int_val d.scale 0 (by omega) (by omega)
        have hum := norm_up_mag (0 - d.scale).toNat d.int_val d.scale 0
        rcases hub with ⟨hb1, hb2, hb3, hb4⟩
        set r := norm_up (0 - d.scale).toNat d.int_val d.scale 0 with hrdef
        have hr0 : r.1 ≠ 0 := hb4 hz
        have hres : from_parts_unchecked r.1 r.2 d.negative = ⟨r.1, r.2, d.negative⟩ := by
          unfold from_parts_unchecked
          rw [if_pos (by simpa using hr0)]
        rw [hres]
        refine ⟨?_, hb3 hM, fun h => absurd h hr0, by dsimp only; omega, ?_⟩
        · rw [val_eq_sign_mag, val_eq_sign_mag]
          unfold mag
          dsimp only
          rw [hum]
        · dsimp only
          intro hrneg
          rcases hus with h | h
          · omega
          · exact h
      · -- d.scale > 0 : the down-loop lowers the scale, the up-loop is a no-op
        have hdb := norm_down_bounds (d.scale - 0).toNat d.int_val d.scale 0 (by omega)
        have hds := norm_down_stop (d.scale - 0).toNat d.int_val d.scale 0 (by omega) (by omega)
        have hdm := norm_down_mag (d.scale - 0).toNat d.int_val d.scale 0
        rcases hdb with ⟨hb1, hb2, hb3, hb4⟩
        set p := norm_down (d.scale - 0).toNat d.int_val d.scale 0 with hpdef
        have hfuel2 : (0 - p.2).toNat = 0 := by omega
        rw [hfuel2]
        have hp2 : norm_up 0 p.1 p.2 0 = (p.1, p.2) := rfl
        rw [hp2]
        dsimp only
        have hr0 : p.1 ≠ 0 := hb4 hz
        have hres : from_parts_unchecked p.1 p.2 d.negative = ⟨p.1, p.2, d.negative⟩ := by
          unfold from_parts_unchecked
          rw [if_pos (by simpa using hr0)]
        rw [hres]
        refine ⟨?_, by dsimp only; omega, fun h => absurd h hr0, ?_, by dsimp only; omega⟩
        · rw [val_eq_sign_mag, val_eq_sign_mag]
          unfold mag
          dsimp only
          rw [hdm]
        · dsimp only
          intro hppos
          rcases hds with h | h
          · omega
          · exact h

/-- Canonicity: two normal-form decimals with equal values coincide. -/
theorem normal_unique (x y : Decimal)
    (hxM : x.int_val < 10 ^ 38) (hyM : y.int_val < 10 ^ 38)
    (hx0 : x.int_val = 0 → x = ZERO) (hy0 : y.int_val = 0 → y = ZERO)
    (hx3 : 0 < x.scale → x.int_val % 10 > 0) (hy3 : 0 < y.scale → y.int_val % 10 > 0)
    (hx4 : x.scale < 0 → 10 ^ 37 ≤ x.int_val) (hy4 : y.scale < 0 → 10 ^ 37 ≤ y.int_val)
    (hv : val x = val y) : x = y := by
  by_cases hxz : x.int_val = 0
  · have : val x = 0 := by
      rw [val_eq_sign_mag, (mag_zero_iff x).mpr hxz]; ring
    rw [this] at hv
    have hyz : y.int_val = 0 := by
      by_contra hc
      have h1 := mag_pos_of_ne y hc
      rw [val_eq_sign_mag] at hv
      rcases Bool.eq_false_or_eq_true y.negative with h | h <;> rw [h] at hv <;> norm_num at hv
        <;> nlinarith
    rw [hx0 hxz, hy0 hyz]
  · have hyz : y.int_val ≠ 0 := by
      intro hc
      have : val y = 0 := by
        rw [val_eq_sign_mag, (mag_zero_iff y).mpr hc]; ring
      rw [this] at hv
      have h1 := mag_pos_of_ne x hxz
      rw [val_eq_sign_mag] at hv
      rcases Bool.eq_false_or_eq_true x.negative with h | h <;> rw [h] at hv <;> norm_num at hv
        <;> nlinarith
    -- signs agree
    have hsgn : x.negative = y.negative := by
      by_contra hc
      cases hxn : x.negative <;> cases hyn : y.negative
      · exact hc (hxn.trans hyn.symm)
      · exact absurd hv (ne_of_gt (val_lt_of_sign_lt hyn hxn hyz))
      · exact absurd hv (ne_of_lt (val_lt_of_sign_lt hxn hyn hxz))
      · exact hc (hxn.trans hyn.symm)
    have hmag : mag x = mag y := (val_eq_iff_mag_eq hsgn).mp hv
    -- cross-multiplied Nat equation, by symmetry on the scales
    have key : ∀ u w : Decimal, u.int_val ≠ 0 → w.int_val < 10 ^ 38 →
        (0 < w.scale → w.int_val % 10 > 0) → (u.scale < 0 → 10 ^ 37 ≤ u.int_val) →
        u.scale ≤ w.scale → mag u = mag w → u.int_val = w.int_val ∧ u.scale = w.scale := by
      intro u w hu hwM hw3 hu4 hle hm
      unfold mag at hm
      rw [val_eq_iff_cross hle] at hm
      set k := (w.scale - u.scale).toNat with hkdef
      rcases Nat.eq_zero_or_pos k with hk | hk
      · have : u.scale = w.scale := by omega
        rw [← hm, hk]
        simp [this]
      · exfalso
        have hdvd : 10 ∣ w.int_val := by
          rw [← hm]
          exact Dvd.dvd.mul_left (dvd_pow_self 10 (by omega)) _
        rcases lt_or_ge 0 w.scale with hws | hws
        · have := hw3 hws
          omega
        · have hus : u.scale < 0 := by omega
          have h37 := hu4 hus
          have : 10 ^ 37 * 10 ^ 1 ≤ u.int_val * 10 ^ k := by
            apply Nat.mul_le_mul h37
            apply Nat.pow_le_pow_right (by norm_num)
            omega
          rw [hm] at this
          norm_num at this
          omega
    rcases le_total x.scale y.scale with hle | hle
    · rcases key x y hxz hyM hy3 hx4 hle hmag with ⟨h1, h2⟩
      cases x; cases y
      simp_all
    · rcases key y x hyz hxM hx3 hy4 hle hmag.symm with ⟨h1, h2⟩
      cases x; cases y
      simp_all

/-- C8: two well-formed decimals compare equal under `cmp` exactly when
their normalizations have identical raw parts `(m, e, s)`. -/
theorem c8_eq_iff_normalize_eq :
    ∀ a b : Decimal, WellFormed a → WellFormed b →
      (cmp a b = .eq ↔ normalize a = normalize b) := by
  intro a b ha hb
  obtain ⟨haM, -, -, ha0⟩ := ha
  obtain ⟨hbM, -, -, hb0⟩ := hb
  have haM' : a.int_val < 10 ^ 38 := by simp only [MAX_I128_REPR] at haM; omega
  have hbM' : b.int_val < 10 ^ 38 := by simp only [MAX_I128_REPR] at hbM; omega
  have hA := normalize_spec a haM' ha0
  have hB := normalize_spec b hbM' hb0
  rcases hA with ⟨hA1, hA2, hA3, hA4, hA5⟩
  rcases hB with ⟨hB1, hB2, hB3, hB4, hB5⟩
  rw [cmp_eq_iff_val_eq a b (fun h => (ha0 h).2) (fun h => (hb0 h).2) haM' hbM']
  constructor
  · intro hv
    exact normal_unique (normalize a) (normalize b) hA2 hB2
      (fun h => (hA3 h).1) (fun h => (hB3 h).1) hA4 hB4 hA5 hB5
      (by rw [hA1, hB1, hv])
  · intro hn
    rw [← hA1, ← hB1, hn]

/-- Witness for C8: `(100, 0, +)` and `(1, −2, +)` denote the same number
and share the normalization `(100, 0, +)`. -/
theorem c8_eq_iff_normalize_eq_witness :
    cmp ⟨100, 0, false⟩ ⟨1, -2, false⟩ = .eq :=
  (c8_eq_iff_normalize_eq ⟨100, 0, false⟩ ⟨1, -2, false⟩ (by decide) (by decide)).mpr (by decide)




/-! ## C3 (amended): exact addition is inverted by subtraction -/

theorem u256low_eq_of_lt {v : Nat} (h : v < U128_LIMIT) : u256low v = v :=
  Nat.mod_eq_of_lt h

theorem is_decimal_overflowed_false {v : Nat} (h : v < 10 ^ 38) :
    is_decimal_overflowed v = false := by
  unfold is_decimal_overflowed
  have h128 : v < U128_LIMIT := by norm_num [U128_LIMIT] at h ⊢; omega
  rw [if_neg (by rw [Nat.div_eq_of_lt h128]; omega)]
  rw [Nat.mod_eq_of_lt h128]
  simp only [decide_eq_false_iff_not, Nat.not_le]
  rw [show POWERS_10_low 38 = 10 ^ 38 from POWERS_10_low_eq_pow 38 (le_refl 38)]
  exact h

theorem cmp_self (a : Decimal) : cmp a a = .eq := by
  unfold cmp
  rw [if_neg (fun h => h rfl)]
  by_cases hn : a.negative = true
  · rw [if_pos hn]
    dsimp only
    by_cases hz : a.int_val = 0
    · rw [if_pos hz, if_pos hz]
    · rw [if_neg hz, if_neg hz, if_pos rfl]
      exact Nat.compare_eq_eq.mpr rfl
  · rw [if_neg hn]
    dsimp only
    by_cases hz : a.int_val = 0
    · rw [if_pos hz, if_pos hz]
    · rw [if_neg hz, if_neg hz, if_pos rfl]
      exact Nat.compare_eq_eq.mpr rfl

theorem count_digits_le_77 (v : Nat) : count_digits v ≤ 77 := by
  unfold count_digits
  rcases hf : (List.range 77).find? (fun k => decide (v ≤ POWERS_10 k)) with _ | k
  · simp
  · have hk : k < 77 := List.mem_range.mp (List.mem_of_find?_eq_some hf)
    dsimp only
    split
    · omega
    · split <;> omega

theorem count_digits_sat {v : Nat} (h : 10 ^ 76 < v) : count_digits v = 77 := by
  unfold count_digits
  have hnone : (List.range 77).find? (fun k => decide (v ≤ POWERS_10 k)) = none := by
    rw [List.find?_eq_none]
    intro k hk
    have hk77 : k < 77 := List.mem_range.mp hk
    simp only [decide_eq_true_eq, Nat.not_le]
    calc POWERS_10 k = 10 ^ k := POWERS_10_eq_pow k hk77
    _ ≤ 10 ^ 76 := Nat.pow_le_pow_right (by norm_num) (by omega)
    _ < v := h
  rw [hnone]

theorem count_digits_pow76 : count_digits (10 ^ 76) = 77 := by
  unfold count_digits
  have hfind : (List.range 77).find? (fun k => decide ((10:Nat) ^ 76 ≤ POWERS_10 k))
      = some 76 := by
    apply range_find?_min (by norm_num)
    · simp only [decide_eq_true_eq]
      rw [POWERS_10_eq_pow 76 (by norm_num)]
    · intro j hj
      simp only [decide_eq_false_iff_not, Nat.not_le]
      rw [POWERS_10_eq_pow j (by omega)]
      exact Nat.pow_lt_pow_right (by norm_num) (by omega)
  rw [hfind]
  dsimp only
  rw [if_pos (POWERS_10_eq_pow 76 (by norm_num)).symm]

theorem count_digits_spec77 {v : Nat} (hv : 0 < v) (h : v < 10 ^ 77) :
    10 ^ (count_digits v - 1) ≤ v ∧ v < 10 ^ count_digits v ∧
      1 ≤ count_digits v ∧ count_digits v ≤ 77 := by
  rcases lt_trichotomy v (10 ^ 76) with hlt | heq | hgt
  · rcases count_digits_spec v hv hlt with ⟨h1, h2, h3⟩
    exact ⟨h2, h3, h1, count_digits_le_77 v⟩
  · subst heq
    rw [count_digits_pow76]
    refine ⟨by norm_num, h, by norm_num, le_refl _⟩
  · rw [count_digits_sat hgt]
    exact ⟨le_of_lt hgt, h, by norm_num, le_refl _⟩

theorem count_digits_unique {v d : Nat} (hd1 : 1 ≤ d) (hd2 : d ≤ 77)
    (h1 : 10 ^ (d - 1) ≤ v) (h2 : v < 10 ^ d) : count_digits v = d := by
  have hv : 0 < v := lt_of_lt_of_le (Nat.pos_pow_of_pos _ (by norm_num)) h1
  have h77 : v < 10 ^ 77 :=
    lt_of_lt_of_le h2 (Nat.pow_le_pow_right (by norm_num) hd2)
  rcases count_digits_spec77 hv h77 with ⟨c1, c2, c3, c4⟩
  by_contra hne
  rcases Nat.lt_or_ge (count_digits v) d with hlt | hge
  · have : v < 10 ^ (d - 1) :=
      lt_of_lt_of_le c2 (Nat.pow_le_pow_right (by norm_num) (by omega))
    omega
  · have hgt : d < count_digits v := by omega
    have : 10 ^ d ≤ 10 ^ (count_digits v - 1) :=
      Nat.pow_le_pow_right (by norm_num) (by omega)
    omega

theorem count_digits_mul_pow {t k : Nat} (ht : 0 < t) (h : t * 10 ^ k < 10 ^ 77) :
    count_digits (t * 10 ^ k) = count_digits t + k := by
  have hk1 : (1:Nat) ≤ 10 ^ k := Nat.one_le_pow _ _ (by norm_num)
  have ht77 : t < 10 ^ 77 := by
    have : t * 1 ≤ t * 10 ^ k := Nat.mul_le_mul_left t hk1
    omega
  rcases count_digits_spec77 ht ht77 with ⟨c1, c2, c3, c4⟩
  have hsplit : 10 ^ (count_digits t + k - 1) = 10 ^ (count_digits t - 1) * 10 ^ k := by
    rw [← Nat.pow_add]
    congr 1
    omega
  have hlow : 10 ^ (count_digits t + k - 1) ≤ t * 10 ^ k := by
    rw [hsplit]
    exact Nat.mul_le_mul_right _ c1
  have hhigh : t * 10 ^ k < 10 ^ (count_digits t + k) := by
    have h1 : t * 10 ^ k < 10 ^ count_digits t * 10 ^ k := by
      have := Nat.pos_pow_of_pos k (show 0 < 10 by norm_num)
      exact Nat.mul_lt_mul_of_lt_of_le c2 (le_refl _) this
    rw [← Nat.pow_add] at h1
    exact h1
  apply count_digits_unique (by omega) ?_ hlow hhigh
  by_contra hcon
  push_neg at hcon
  have h2 : 10 ^ 77 ≤ 10 ^ (count_digits t + k - 1) :=
    Nat.pow_le_pow_right (by norm_num) (by omega)
  omega

theorem lt_pow38_iff_digits {v : Nat} (h77 : v < 10 ^ 77) :
    v < 10 ^ 38 ↔ count_digits v ≤ 38 := by
  constructor
  · exact count_digits_le_38
  · intro hle
    rcases Nat.eq_zero_or_pos v with h0 | h0
    · subst h0; norm_num
    · rcases count_digits_spec77 h0 h77 with ⟨-, c2, -, -⟩
      exact lt_of_lt_of_le c2 (Nat.pow_le_pow_right (by norm_num) hle)

theorem dvd_residual_add {S O j k : Nat} (hjk : j ≤ k)
    (hd : 10 ^ j ∣ S * 10 ^ k + O) : 10 ^ j ∣ O := by
  have h1 : (10:Nat) ^ j ∣ S * 10 ^ k := Dvd.dvd.mul_left (pow_dvd_pow 10 hjk) S
  exact (Nat.dvd_add_right h1).mp hd

theorem dvd_residual_sub {S O j k : Nat} (hjk : j ≤ k) (hle : O ≤ S * 10 ^ k)
    (hd : 10 ^ j ∣ S * 10 ^ k - O) : 10 ^ j ∣ O := by
  have h1 : (10:Nat) ^ j ∣ S * 10 ^ k := Dvd.dvd.mul_left (pow_dvd_pow 10 hjk) S
  have h2 : O = S * 10 ^ k - (S * 10 ^ k - O) := by omega
  rw [h2]
  exact Nat.dvd_sub' h1 hd

theorem eq_zero_of_dvd_lt {O j : Nat} (hd : 10 ^ j ∣ O) (h : O < 10 ^ j) : O = 0 :=
  Nat.eq_zero_of_dvd_of_lt hd h

theorem mag_align {x : Decimal} {m : Int} (h : x.scale ≤ m) :
    mag x = ((x.int_val * 10 ^ (m - x.scale).toNat : Nat) : ℚ) * (10:ℚ) ^ (-m) := by
  unfold mag
  push_cast
  rw [mul_assoc, ← zpow_natCast (10:ℚ) (m - x.scale).toNat,
    Int.toNat_of_nonneg (by omega), ← zpow_add₀ ten_q_ne_zero]
  congr 2
  omega

theorem repr_cases {u t : Nat} {m z : Int}
    (h : (u:ℚ) * (10:ℚ) ^ (-m) = (t:ℚ) * (10:ℚ) ^ z) :
    (0 ≤ z + m ∧ u = t * 10 ^ (z + m).toNat) ∨
      (z + m < 0 ∧ t = u * 10 ^ (-(z + m)).toNat) := by
  rcases lt_or_le m (-z) with hlt | hle
  · right
    have h' : (u:ℚ) * (10:ℚ) ^ (-m) = (t:ℚ) * (10:ℚ) ^ (-(-z)) := by
      rw [neg_neg]; exact h
    have hcross := (val_eq_iff_cross (le_of_lt hlt)).mp h'
    refine ⟨by omega, ?_⟩
    rw [← hcross]
    congr 2
    omega
  · left
    have h' : (t:ℚ) * (10:ℚ) ^ (-(-z)) = (u:ℚ) * (10:ℚ) ^ (-m) := by
      rw [neg_neg]; exact h.symm
    have hcross := (val_eq_iff_cross hle).mp h'
    refine ⟨by omega, ?_⟩
    rw [← hcross]
    congr 2
    omega

theorem is_decimal_overflowed_iff {v : Nat} (h : v < U128_LIMIT) :
    is_decimal_overflowed v = true ↔ 10 ^ 38 ≤ v := by
  unfold is_decimal_overflowed
  rw [if_neg (by rw [Nat.div_eq_of_lt h]; omega), Nat.mod_eq_of_lt h]
  rw [show POWERS_10_low 38 = 10 ^ 38 from POWERS_10_low_eq_pow 38 (le_refl 38)]
  simp

theorem wf_zero : WellFormed ZERO := by
  unfold WellFormed ZERO
  norm_num [MIN_SCALE, MAX_SCALE, MAX_PRECISION]

/-- `adjust_scale` on an exactly representable value: the result is the
representative at the adjusted scale, and it is well-formed.  `t`, `z` is
any 38-digit representation of the value (significand and signed
exponent); the floor hypothesis excludes the flush-to-zero branch. -/
theorem adjust_scale_exact {v t : Nat} {e z : Int} {neg : Bool} {r : Decimal}
    (hv77 : v < 10 ^ 77) (ht : t ≤ MAX_I128_REPR)
    (hfloor : -z - (count_digits t : Int) < MAX_SCALE)
    (hval : (v : ℚ) * (10:ℚ) ^ (-e) = (t : ℚ) * (10:ℚ) ^ z)
    (hr : adjust_scale v e neg = some r) :
    val r = (if neg then (-1:ℚ) else 1) * ((t:ℚ) * (10:ℚ) ^ z) ∧ WellFormed r := by
  have hMAX : MAX_I128_REPR = 10 ^ 38 - 1 := by norm_num [MAX_I128_REPR]
  by_cases hv0 : v = 0
  · subst hv0
    have hT : (t:ℚ) * (10:ℚ) ^ z = 0 := by
      rw [← hval]; push_cast; ring
    have hrz : r = ZERO := by
      unfold adjust_scale at hr
      dsimp only at hr
      rw [count_digits_zero] at hr
      by_cases h1 : e - ((1:Nat):Int) ≥ MAX_SCALE
      · rw [if_pos h1] at hr
        exact (Option.some.injEq _ _).mp hr |>.symm
      · rw [if_neg h1] at hr
        by_cases h2 : e - ((1:Nat):Int) < MIN_SCALE
        · rw [if_pos h2] at hr; exact Option.noConfusion hr
        · rw [if_neg h2, if_neg (by norm_num [MAX_PRECISION])] at hr
          have : from_parts_unchecked (u256low 0) e neg = ZERO := by
            unfold from_parts_unchecked u256low
            norm_num
          rw [this] at hr
          exact (Option.some.injEq _ _).mp hr |>.symm
    subst hrz
    constructor
    · rw [hT]
      unfold val ZERO
      push_cast
      ring
    · exact wf_zero
  · have hvpos : 0 < v := Nat.pos_of_ne_zero hv0
    have ht0 : t ≠ 0 := by
      intro h0
      subst h0
      have : (v:ℚ) * (10:ℚ) ^ (-e) = 0 := by rw [hval]; push_cast; ring
      rcases mul_eq_zero.mp this with hx | hx
      · exact hv0 (by exact_mod_cast hx)
      · exact zpow_ne_zero _ ten_q_ne_zero hx
    have htpos : 0 < t := Nat.pos_of_ne_zero ht0
    have hdt38 : count_digits t ≤ 38 := count_digits_le_38 (by omega)
    have hdtpos : 1 ≤ count_digits t := count_digits_pos t
    -- key : the branch selector s = e - digits(v) equals -z - digits(t),
    -- plus in the w ≥ 0 case the factorization v = t * 10^w
    rcases repr_cases hval with ⟨hw, hveq⟩ | ⟨hw, hteq⟩
    · -- v = t * 10 ^ w
      set w := (z + e).toNat with hwdef
      have hd : count_digits v = count_digits t + w := by
        rw [hveq]; exact count_digits_mul_pow htpos (hveq ▸ hv77)
      have hkey : e - (count_digits v : Int) = -z - (count_digits t : Int) := by
        have : (w : Int) = z + e := Int.toNat_of_nonneg hw
        omega
      unfold adjust_scale at hr
      dsimp only at hr
      rw [if_neg (by rw [hkey]; omega : ¬ e - (count_digits v : Int) ≥ MAX_SCALE)] at hr
      by_cases hund : e - (count_digits v : Int) < MIN_SCALE
      · rw [if_pos hund] at hr; exact Option.noConfusion hr
      · rw [if_neg hund] at hr
        by_cases hd38 : count_digits v > MAX_PRECISION
        · -- divide branch
          rw [if_pos hd38] at hr
          set shift := count_digits v - MAX_PRECISION with hshdef
          have hsh1 : 1 ≤ shift := by simp only [hshdef, MAX_PRECISION] at *; omega
          have hsh39 : shift ≤ 39 := by
            have := count_digits_le_77 v
            simp only [hshdef, MAX_PRECISION] at *; omega
          have hshw : shift ≤ w := by
            simp only [hshdef, MAX_PRECISION] at *; omega
          set q := t * 10 ^ (w - shift) with hqdef
          have hqv : v = q * 10 ^ shift := by
            rw [hveq, hqdef, mul_assoc, ← Nat.pow_add]
            congr 2
            omega
          have hqpos : 0 < q := by
            apply Nat.mul_pos htpos
            exact Nat.pos_pow_of_pos _ (by norm_num)
          have hdq : count_digits q = 38 := by
            have h1 : count_digits v = count_digits q + shift :=
              hqv ▸ count_digits_mul_pow hqpos (hqv ▸ hv77)
            simp only [hshdef, MAX_PRECISION] at *
            omega
          have hq38 : q < 10 ^ 38 := by
            rw [← hdq]
            rcases count_digits_spec77 hqpos
              (lt_of_le_of_lt (hqv ▸ Nat.le_mul_of_pos_right q
                (Nat.pos_pow_of_pos _ (by norm_num))) hv77) with ⟨-, c2, -, -⟩
            exact c2
          -- the division is exact: (v + 5*10^(shift-1)) / 10^shift = q
          have hdivq : ∀ P H : Nat, P = 10 ^ shift → H = 5 * 10 ^ (shift - 1) →
              (v + H) / P = q := by
            intro P H hP hH
            subst hP hH
            rw [hqv, Nat.mul_comm q]
            rw [Nat.mul_add_div (Nat.pos_pow_of_pos _ (by norm_num))]
            have : 5 * 10 ^ (shift - 1) < 10 ^ shift := by
              have : 10 ^ shift = 10 * 10 ^ (shift - 1) := by
                rw [← Nat.pow_succ']
                congr 1
                omega
              rw [this]
              have := Nat.pos_pow_of_pos (shift - 1) (show 0 < 10 by norm_num)
              omega
            rw [Nat.div_eq_of_lt this]
            omega
          have hrq : r = ⟨q, e - (shift : Int), neg⟩ := by
            by_cases hsh38 : shift ≤ MAX_PRECISION
            · rw [if_pos hsh38] at hr
              rw [hdivq (POWERS_10_low shift) (ROUNDINGS_low shift)
                (POWERS_10_low_eq_pow shift (by simp only [MAX_PRECISION] at hsh38; omega))
                (ROUNDINGS_low_eq_half_pow shift
                  (by simp only [MAX_PRECISION] at hsh38; omega) (by omega))] at hr
              rw [show u256low q = q from Nat.mod_eq_of_lt
                (by norm_num [U128_LIMIT]; omega)] at hr
              unfold from_parts_unchecked at hr
              rw [if_pos (show q ≠ 0 by omega)] at hr
              exact ((Option.some.injEq _ _).mp hr).symm
            · rw [if_neg hsh38] at hr
              rw [hdivq (POWERS_10 shift) (ROUNDINGS shift)
                (POWERS_10_eq_pow shift (by omega))
                (ROUNDINGS_eq_half_pow shift (by omega) (by omega))] at hr
              rw [show u256low q = q from Nat.mod_eq_of_lt
                (by norm_num [U128_LIMIT]; omega)] at hr
              unfold from_parts_unchecked at hr
              rw [if_pos (show q ≠ 0 by omega)] at hr
              exact ((Option.some.injEq _ _).mp hr).symm
          subst hrq
          constructor
          · unfold val
            dsimp only
            have hcast : (q : ℚ) = (t : ℚ) * (10:ℚ) ^ ((w - shift : Nat) : ℤ) := by
              rw [hqdef]
              push_cast
              rw [← zpow_natCast (10:ℚ) (w - shift)]
            rw [hcast, mul_assoc, mul_assoc, ← zpow_add₀ ten_q_ne_zero]
            have hzeq : ((w - shift : Nat) : ℤ) + -(e - (shift : Int)) = z := by
              have h1 : (w : Int) = z + e := Int.toNat_of_nonneg hw
              have h2 : ((w - shift : Nat) : ℤ) = (w : Int) - (shift : Int) := by
                omega
              omega
            rw [hzeq]
          · have hshC : (shift : Int) = (count_digits v : Int) - 38 := by
              have h38 : MAX_PRECISION = 38 := rfl
              have hgt : 38 < count_digits v := by simpa [h38] using hd38
              simp only [hshdef, h38]
              omega
            refine ⟨?_, ?_, ?_, fun h0 => absurd (show q = 0 from h0) (by omega)⟩
            · show q ≤ MAX_I128_REPR
              omega
            · show MIN_SCALE ≤ e - (shift : Int)
              simp only [MIN_SCALE] at hund ⊢
              omega
            · show e - (shift : Int) < MAX_SCALE + (MAX_PRECISION : Int)
              have hMS : MAX_SCALE = (130 : Int) := rfl
              have hMP : (MAX_PRECISION : Int) = 38 := rfl
              simp only [hMS, hMP] at hkey hfloor ⊢
              omega
        · -- identity branch
          rw [if_neg hd38] at hr
          have hv38 : v < 10 ^ 38 := by
            rw [lt_pow38_iff_digits hv77]
            simp only [MAX_PRECISION] at hd38
            omega
          rw [show u256low v = v from Nat.mod_eq_of_lt
            (by norm_num [U128_LIMIT]; omega)] at hr
          unfold from_parts_unchecked at hr
          rw [if_pos (by simpa using hv0)] at hr
          have hrv : r = ⟨v, e, neg⟩ := ((Option.some.injEq _ _).mp hr).symm
          subst hrv
          constructor
          · unfold val
            dsimp only
            rw [mul_assoc, hval]
          · have hdvpos : 1 ≤ count_digits v := count_digits_pos v
            have hdv38 : count_digits v ≤ 38 := by
              have h38 : MAX_PRECISION = 38 := rfl
              simpa [h38] using hd38
            refine ⟨?_, ?_, ?_, fun h0 => absurd (show v = 0 from h0) hv0⟩
            · show v ≤ MAX_I128_REPR
              omega
            · show MIN_SCALE ≤ e
              simp only [MIN_SCALE] at hund ⊢
              omega
            · show e < MAX_SCALE + (MAX_PRECISION : Int)
              have hMS : MAX_SCALE = (130 : Int) := rfl
              have hMP : (MAX_PRECISION : Int) = 38 := rfl
              simp only [hMS, hMP] at hkey hfloor ⊢
              omega
    · -- t = v * 10 ^ n, n ≥ 1 : v itself is small, identity branch
      set n := (-(z + e)).toNat with hndef
      have hv38 : v < 10 ^ 38 := by
        have hle : v ≤ t := by
          rw [hteq]
          exact Nat.le_mul_of_pos_right v (Nat.pos_pow_of_pos _ (by norm_num))
        omega
      have hd : count_digits t = count_digits v + n := by
        rw [hteq]
        exact count_digits_mul_pow hvpos (by rw [← hteq]; omega)
      have hkey : e - (count_digits v : Int) = -z - (count_digits t : Int) := by
        have : (n : Int) = -(z + e) := Int.toNat_of_nonneg (by omega)
        omega
      have hdv38 : count_digits v ≤ 38 := count_digits_le_38 hv38
      unfold adjust_scale at hr
      dsimp only at hr
      rw [if_neg (by rw [hkey]; omega : ¬ e - (count_digits v : Int) ≥ MAX_SCALE)] at hr
      by_cases hund : e - (count_digits v : Int) < MIN_SCALE
      · rw [if_pos hund] at hr; exact Option.noConfusion hr
      · rw [if_neg hund] at hr
        rw [if_neg (by simp only [MAX_PRECISION]; omega)] at hr
        rw [show u256low v = v from Nat.mod_eq_of_lt
          (by norm_num [U128_LIMIT]; omega)] at hr
        unfold from_parts_unchecked at hr
        rw [if_pos (by simpa using hv0)] at hr
        have hrv : r = ⟨v, e, neg⟩ := ((Option.some.injEq _ _).mp hr).symm
        subst hrv
        constructor
        · unfold val
          dsimp only
          rw [mul_assoc, hval]
        · have hdvpos : 1 ≤ count_digits v := count_digits_pos v
          refine ⟨?_, ?_, ?_, fun h0 => absurd (show v = 0 from h0) hv0⟩
          · show v ≤ MAX_I128_REPR
            omega
          · show MIN_SCALE ≤ e
            simp only [MIN_SCALE] at hund ⊢
            omega
          · show e < MAX_SCALE + (MAX_PRECISION : Int)
            have hMS : MAX_SCALE = (130 : Int) := rfl
            have hMP : (MAX_PRECISION : Int) = 38 := rfl
            simp only [hMS, hMP] at hkey hfloor ⊢
            omega

theorem sign_ne_zero (neg : Bool) : (if neg then (-1:ℚ) else 1) ≠ 0 := by
  cases neg <;> norm_num

/-- `adjust_scale` preserves well-formedness whenever its result happens to
denote the exact input value (the rounding carry that can break the
38-digit bound, cf. C1, implies inexactness). -/
theorem adjust_scale_wf {v : Nat} {e : Int} {neg : Bool} {r : Decimal}
    (hbig : 10 ^ 77 ≤ v → ¬ (10 ^ 39 ∣ v))
    (hex : val r = (if neg then (-1:ℚ) else 1) * ((v:ℚ) * (10:ℚ) ^ (-e)))
    (hr : adjust_scale v e neg = some r) : WellFormed r := by
  have hMAX : MAX_I128_REPR = 10 ^ 38 - 1 := by norm_num [MAX_I128_REPR]
  unfold adjust_scale at hr
  dsimp only at hr
  by_cases hZ : e - (count_digits v : Int) ≥ MAX_SCALE
  · rw [if_pos hZ] at hr
    rw [← ((Option.some.injEq _ _).mp hr)]
    exact wf_zero
  · rw [if_neg hZ] at hr
    by_cases hU : e - (count_digits v : Int) < MIN_SCALE
    · rw [if_pos hU] at hr
      exact Option.noConfusion hr
    · rw [if_neg hU] at hr
      have hdpos : 1 ≤ count_digits v := count_digits_pos v
      have hd77 : count_digits v ≤ 77 := count_digits_le_77 v
      by_cases hd38 : count_digits v > MAX_PRECISION
      · rw [if_pos hd38] at hr
        have hgt : 38 < count_digits v := by
          simpa [show MAX_PRECISION = 38 from rfl] using hd38
        set shift := count_digits v - MAX_PRECISION with hshdef
        have hshC : (shift : Int) = (count_digits v : Int) - 38 := by
          simp only [hshdef, show MAX_PRECISION = 38 from rfl]
          omega
        have hsh1 : 1 ≤ shift := by
          simp only [hshdef, show MAX_PRECISION = 38 from rfl]; omega
        have hsh39 : shift ≤ 39 := by
          simp only [hshdef, show MAX_PRECISION = 38 from rfl]; omega
        have hshape : ∃ Q : Nat, r = from_parts_unchecked Q (e - (shift : Int)) neg := by
          by_cases hsh38 : shift ≤ MAX_PRECISION
          · rw [if_pos hsh38] at hr
            exact ⟨_, ((Option.some.injEq _ _).mp hr).symm⟩
          · rw [if_neg hsh38] at hr
            exact ⟨_, ((Option.some.injEq _ _).mp hr).symm⟩
        obtain ⟨Q, hrQ⟩ := hshape
        by_cases hQ0 : Q = 0
        · subst hQ0
          rw [show from_parts_unchecked 0 (e - (shift : Int)) neg = ZERO from by
            unfold from_parts_unchecked; norm_num] at hrQ
          rw [hrQ]
          exact wf_zero
        · rw [show from_parts_unchecked Q (e - (shift : Int)) neg
            = ⟨Q, e - (shift : Int), neg⟩ from by
            unfold from_parts_unchecked; rw [if_pos (by simpa using hQ0)]] at hrQ
          subst hrQ
          have hcancel : (Q:ℚ) * (10:ℚ) ^ (-(e - (shift : Int))) = (v:ℚ) * (10:ℚ) ^ (-e) := by
            unfold val at hex
            dsimp only at hex
            rw [mul_assoc] at hex
            exact mul_left_cancel₀ (sign_ne_zero neg) hex
          have hQv : Q * 10 ^ shift = v := by
            have := (val_eq_iff_cross (by omega : e - (shift : Int) ≤ e)).mp hcancel
            rw [← this]
            congr 2
            omega
          by_cases hv77 : 10 ^ 77 ≤ v
          · exfalso
            apply hbig hv77
            have hsat : count_digits v = 77 := count_digits_sat (by
              have : (10:Nat) ^ 76 < 10 ^ 77 := by norm_num
              omega)
            have hsh : shift = 39 := by
              simp only [hshdef, hsat, show MAX_PRECISION = 38 from rfl]
            rw [← hQv, hsh]
            exact Dvd.dvd.mul_left dvd_rfl Q
          · push_neg at hv77
            have hQpos : 0 < Q := Nat.pos_of_ne_zero hQ0
            have hdv : count_digits v = count_digits Q + shift := by
              rw [← hQv]
              exact count_digits_mul_pow hQpos (by omega)
            have hdQ : count_digits Q = 38 := by omega
            have hQ38 : Q < 10 ^ 38 := by
              rw [← hdQ]
              rcases count_digits_spec77 hQpos (by
                have : Q ≤ v := by
                  rw [← hQv]
                  exact Nat.le_mul_of_pos_right Q (Nat.pos_pow_of_pos _ (by norm_num))
                omega) with ⟨-, c2, -, -⟩
              exact c2
            refine ⟨?_, ?_, ?_, fun h0 => absurd (show Q = 0 from h0) hQ0⟩
            · show Q ≤ MAX_I128_REPR
              omega
            · show MIN_SCALE ≤ e - (shift : Int)
              simp only [MIN_SCALE] at hU ⊢
              omega
            · show e - (shift : Int) < MAX_SCALE + (MAX_PRECISION : Int)
              simp only [show MAX_SCALE = (130:Int) from rfl,
                show (MAX_PRECISION : Int) = 38 from rfl] at hZ ⊢
              omega
      · rw [if_neg hd38] at hr
        have hdv38 : count_digits v ≤ 38 := by
          simpa [show MAX_PRECISION = 38 from rfl] using hd38
        have hv38 : v < 10 ^ 38 := by
          by_cases hv77 : v < 10 ^ 77
          · exact (lt_pow38_iff_digits hv77).mpr hdv38
          · exfalso
            push_neg at hv77
            have : count_digits v = 77 := count_digits_sat (by
              have : (10:Nat) ^ 76 < 10 ^ 77 := by norm_num
              omega)
            omega
        rw [show u256low v = v from Nat.mod_eq_of_lt
          (by norm_num [U128_LIMIT]; omega)] at hr
        by_cases hv0 : v = 0
        · subst hv0
          rw [show from_parts_unchecked 0 e neg = ZERO from by
            unfold from_parts_unchecked; norm_num] at hr
          rw [← ((Option.some.injEq _ _).mp hr)]
          exact wf_zero
        · rw [show from_parts_unchecked v e neg = ⟨v, e, neg⟩ from by
            unfold from_parts_unchecked; rw [if_pos (by simpa using hv0)]] at hr
          rw [← ((Option.some.injEq _ _).mp hr)]
          refine ⟨?_, ?_, ?_, fun h0 => absurd (show v = 0 from h0) hv0⟩
          · show v ≤ MAX_I128_REPR
            omega
          · show MIN_SCALE ≤ e
            simp only [MIN_SCALE] at hU ⊢
            omega
          · show e < MAX_SCALE + (MAX_PRECISION : Int)
            simp only [show MAX_SCALE = (130:Int) from rfl,
              show (MAX_PRECISION : Int) = 38 from rfl] at hZ ⊢
            omega

/-- `from_parts_unchecked` applied to a well-formed decimal's parts with an
arbitrary sign is well-formed and denotes the signed magnitude. -/
theorem fpu_exact {d : Decimal} (neg : Bool) (hw : WellFormed d) :
    val (from_parts_unchecked d.int_val d.scale neg)
        = (if neg then (-1:ℚ) else 1) * mag d
      ∧ WellFormed (from_parts_unchecked d.int_val d.scale neg) := by
  obtain ⟨h1, h2, h3, h4⟩ := hw
  by_cases h0 : d.int_val = 0
  · rw [show from_parts_unchecked d.int_val d.scale neg = ZERO from by
      unfold from_parts_unchecked; rw [h0]; norm_num]
    constructor
    · rw [(mag_zero_iff d).mpr h0, mul_zero]
      unfold val ZERO
      push_cast
      ring
    · exact wf_zero
  · rw [show from_parts_unchecked d.int_val d.scale neg = ⟨d.int_val, d.scale, neg⟩ from by
      unfold from_parts_unchecked; rw [if_pos (by simpa using h0)]]
    refine ⟨?_, h1, h2, h3, fun hz => absurd (show d.int_val = 0 from hz) h0⟩
    unfold val mag
    dsimp only
    ring

/-- Alignment of a magnitude sum at the larger scale. -/
theorem mag_add_align {x y : Decimal} (h : x.scale ≤ y.scale) :
    mag x + mag y =
      ((x.int_val * 10 ^ (y.scale - x.scale).toNat + y.int_val : Nat) : ℚ)
        * (10:ℚ) ^ (-y.scale) := by
  rw [mag_align h]
  unfold mag
  push_cast
  ring

/-- Alignment of a magnitude difference at the larger scale (minuend with
the smaller scale and at least as large an aligned significand). -/
theorem mag_sub_align {x y : Decimal} (h : x.scale ≤ y.scale)
    (hge : y.int_val ≤ x.int_val * 10 ^ (y.scale - x.scale).toNat) :
    mag x - mag y =
      ((x.int_val * 10 ^ (y.scale - x.scale).toNat - y.int_val : Nat) : ℚ)
        * (10:ℚ) ^ (-y.scale) := by
  rw [mag_align h]
  unfold mag
  rw [Nat.cast_sub hge]
  push_cast
  ring

theorem rescale_add_exact {x y : Decimal} {neg : Bool} {t : Nat} {z : Int} {r : Decimal}
    (hwx : WellFormed x) (hwy : WellFormed y) (hxy : x.scale < y.scale)
    (ht : t ≤ MAX_I128_REPR) (hfloor : -z - (count_digits t : Int) < MAX_SCALE)
    (hval : mag x + mag y = (t:ℚ) * (10:ℚ) ^ z)
    (hr : rescale_add x y neg = some r) :
    val r = (if neg then (-1:ℚ) else 1) * ((t:ℚ) * (10:ℚ) ^ z) ∧ WellFormed r := by
  have hMAX : MAX_I128_REPR = 10 ^ 38 - 1 := by norm_num [MAX_I128_REPR]
  have hxM := hwx.1
  have hyM := hwy.1
  have h389 : (10:Nat) ^ 38 < 10 ^ 39 := by norm_num
  have h7677 : (10:Nat) ^ 76 < 10 ^ 77 := by norm_num
  have hUlit : (10:Nat) ^ 76 < U256_LIMIT := by norm_num [U256_LIMIT]
  set k := (y.scale - x.scale).toNat with hkdef
  have hk1 : 1 ≤ k := by simp only [hkdef]; omega
  have hsum : ((x.int_val * 10 ^ k + y.int_val : Nat) : ℚ) * (10:ℚ) ^ (-y.scale)
      = (t:ℚ) * (10:ℚ) ^ z := by
    rw [← mag_add_align (le_of_lt hxy)]
    exact hval
  unfold rescale_add at hr
  dsimp only at hr
  by_cases he38 : y.scale - x.scale > (MAX_PRECISION : Int)
  · rw [if_pos he38] at hr
    have hk39 : 39 ≤ k := by
      simp only [hkdef]
      simp only [show (MAX_PRECISION : Int) = 38 from rfl] at he38
      omega
    by_cases hx0 : x.int_val = 0
    · rw [if_pos hx0] at hr
      have hr' : r = from_parts_unchecked y.int_val y.scale neg :=
        ((Option.some.injEq _ _).mp hr).symm
      subst hr'
      have hmy : mag y = (t:ℚ) * (10:ℚ) ^ z := by
        rw [← hval, (mag_zero_iff x).mpr hx0, zero_add]
      rcases fpu_exact neg hwy with ⟨hv, hw⟩
      exact ⟨by rw [hv, hmy], hw⟩
    · rw [if_neg hx0] at hr
      by_cases hy0 : y.int_val = 0
      · rw [if_pos hy0] at hr
        have hr' : r = from_parts_unchecked x.int_val x.scale neg :=
          ((Option.some.injEq _ _).mp hr).symm
        subst hr'
        have hmx : mag x = (t:ℚ) * (10:ℚ) ^ z := by
          rw [← hval, (mag_zero_iff y).mpr hy0, add_zero]
        rcases fpu_exact neg hwx with ⟨hv, hw⟩
        exact ⟨by rw [hv, hmx], hw⟩
      · rw [if_neg hy0] at hr
        -- both nonzero: representability forces the computed path
        rcases repr_cases hsum with ⟨hw0, hsumeq⟩ | ⟨hw0, hteq⟩
        · set w := (z + y.scale).toNat with hwdef
          by_cases hw39 : 39 ≤ w
          · exfalso
            have hdvd : (10:Nat) ^ 39 ∣ x.int_val * 10 ^ k + y.int_val := by
              rw [hsumeq]
              exact Dvd.dvd.mul_left (pow_dvd_pow 10 hw39) t
            have hdy : (10:Nat) ^ 39 ∣ y.int_val := dvd_residual_add hk39 hdvd
            have : y.int_val = 0 := eq_zero_of_dvd_lt hdy (by omega)
            exact hy0 this
          · push_neg at hw39
            have hsumle : x.int_val * 10 ^ k + y.int_val ≤ MAX_I128_REPR * 10 ^ 38 := by
              rw [hsumeq]
              exact Nat.mul_le_mul ht (Nat.pow_le_pow_right (by norm_num) (by omega))
            have hbound : MAX_I128_REPR * 10 ^ 38 < 10 ^ 76 := by
              norm_num [MAX_I128_REPR]
            have hxk : 10 ^ k ≤ x.int_val * 10 ^ k :=
              Nat.le_mul_of_pos_left _ (Nat.pos_of_ne_zero hx0)
            have hk75 : k ≤ 75 := by
              by_contra hcon
              push_neg at hcon
              have h1 : (10:Nat) ^ 76 ≤ 10 ^ k :=
                Nat.pow_le_pow_right (by norm_num) (by omega)
              omega
            have he77 : y.scale - x.scale < 77 := by
              simp only [hkdef] at hk75
              omega
            rw [if_pos he77] at hr
            have hPk : POWERS_10 (y.scale - x.scale).toNat = 10 ^ k :=
              POWERS_10_eq_pow _ (by omega)
            have hmul : u256checked_mul (POWERS_10 (y.scale - x.scale).toNat) x.int_val
                = some (x.int_val * 10 ^ k) := by
              unfold u256checked_mul
              rw [hPk, Nat.mul_comm]
              rw [if_pos (by omega)]
            rw [hmul] at hr
            dsimp only at hr
            have hadd : u256checked_add (x.int_val * 10 ^ k) y.int_val
                = some (x.int_val * 10 ^ k + y.int_val) := by
              unfold u256checked_add
              rw [if_pos (by omega)]
            rw [hadd] at hr
            dsimp only at hr
            exact adjust_scale_exact (by omega) ht hfloor hsum hr
        · exfalso
          have hle : x.int_val * 10 ^ k + y.int_val ≤ t := by
            rw [hteq]
            exact Nat.le_mul_of_pos_right _ (Nat.pos_pow_of_pos _ (by norm_num))
          have hxk : 10 ^ k ≤ x.int_val * 10 ^ k :=
            Nat.le_mul_of_pos_left _ (Nat.pos_of_ne_zero hx0)
          have h39 : (10:Nat) ^ 39 ≤ 10 ^ k := Nat.pow_le_pow_right (by norm_num) hk39
          have : (10:Nat) ^ 39 ≤ MAX_I128_REPR := by omega
          norm_num [MAX_I128_REPR] at this
  · rw [if_neg he38] at hr
    have hk38 : k ≤ 38 := by
      simp only [hkdef]
      simp only [show (MAX_PRECISION : Int) = 38 from rfl] at he38
      omega
    rw [show POWERS_10_low (y.scale - x.scale).toNat = 10 ^ k from
      POWERS_10_low_eq_pow _ hk38] at hr
    have hsumle : x.int_val * 10 ^ k + y.int_val
        ≤ MAX_I128_REPR * 10 ^ 38 + MAX_I128_REPR := by
      have h1 : x.int_val * 10 ^ k ≤ MAX_I128_REPR * 10 ^ 38 :=
        Nat.mul_le_mul hwx.1 (Nat.pow_le_pow_right (by norm_num) hk38)
      have h2 := hwy.1
      omega
    have hbound : MAX_I128_REPR * 10 ^ 38 + MAX_I128_REPR < 10 ^ 77 := by
      norm_num [MAX_I128_REPR]
    exact adjust_scale_exact (by omega) ht hfloor hsum hr

theorem rescale_sub_exact {x y : Decimal} {neg : Bool} {t : Nat} {z : Int} {r : Decimal}
    (hwx : WellFormed x) (hwy : WellFormed y) (hxy : x.scale < y.scale)
    (hx0 : x.int_val ≠ 0) (hy0 : y.int_val ≠ 0)
    (ht : t ≤ MAX_I128_REPR) (hfloor : -z - (count_digits t : Int) < MAX_SCALE)
    (hval : mag x - mag y = (t:ℚ) * (10:ℚ) ^ z ∨ mag y - mag x = (t:ℚ) * (10:ℚ) ^ z)
    (hr : rescale_sub x y neg = some r) :
    val r = (if neg then (-1:ℚ) else 1) * (mag x - mag y) ∧ WellFormed r := by
  have hMAX : MAX_I128_REPR = 10 ^ 38 - 1 := by norm_num [MAX_I128_REPR]
  have hxM := hwx.1
  have hyM := hwy.1
  have h389 : (10:Nat) ^ 38 < 10 ^ 39 := by norm_num
  have h7677 : (10:Nat) ^ 76 < 10 ^ 77 := by norm_num
  have hUlit : (10:Nat) ^ 76 < U256_LIMIT := by norm_num [U256_LIMIT]
  have htnn : (0:ℚ) ≤ (t:ℚ) * (10:ℚ) ^ z := by positivity
  set k := (y.scale - x.scale).toNat with hkdef
  have hk1 : 1 ≤ k := by simp only [hkdef]; omega
  unfold rescale_sub at hr
  dsimp only at hr
  by_cases he38 : y.scale - x.scale > (MAX_PRECISION : Int)
  · rw [if_pos he38] at hr
    have hk39 : 39 ≤ k := by
      simp only [hkdef]
      simp only [show (MAX_PRECISION : Int) = 38 from rfl] at he38
      omega
    have h39k : (10:Nat) ^ 39 ≤ 10 ^ k := Nat.pow_le_pow_right (by norm_num) hk39
    have hxk : 10 ^ k ≤ x.int_val * 10 ^ k :=
      Nat.le_mul_of_pos_left _ (Nat.pos_of_ne_zero hx0)
    have hge : y.int_val ≤ x.int_val * 10 ^ k := by omega
    have hmagD : mag x - mag y
        = ((x.int_val * 10 ^ k - y.int_val : Nat) : ℚ) * (10:ℚ) ^ (-y.scale) :=
      mag_sub_align (le_of_lt hxy) hge
    have hDpos : 0 < x.int_val * 10 ^ k - y.int_val := by omega
    have hmagpos : (0:ℚ) < mag x - mag y := by
      rw [hmagD]
      have h1 : (0:ℚ) < ((x.int_val * 10 ^ k - y.int_val : Nat) : ℚ) := by
        exact_mod_cast hDpos
      positivity
    have htD : ((x.int_val * 10 ^ k - y.int_val : Nat) : ℚ) * (10:ℚ) ^ (-y.scale)
        = (t:ℚ) * (10:ℚ) ^ z := by
      rcases hval with h | h
      · rw [← hmagD]; exact h
      · exfalso
        have : mag y - mag x < 0 := by linarith
        rw [h] at this
        linarith
    rcases repr_cases htD with ⟨hw0, hDeq⟩ | ⟨hw0, hteq⟩
    · set w := (z + y.scale).toNat with hwdef
      by_cases hw39 : 39 ≤ w
      · exfalso
        have hdvd : (10:Nat) ^ 39 ∣ x.int_val * 10 ^ k - y.int_val := by
          rw [hDeq]
          exact Dvd.dvd.mul_left (pow_dvd_pow 10 hw39) t
        have hdy : (10:Nat) ^ 39 ∣ y.int_val := dvd_residual_sub hk39 hge hdvd
        exact hy0 (eq_zero_of_dvd_lt hdy (by omega))
      · push_neg at hw39
        have hDle : x.int_val * 10 ^ k - y.int_val ≤ MAX_I128_REPR * 10 ^ 38 := by
          rw [hDeq]
          exact Nat.mul_le_mul ht (Nat.pow_le_pow_right (by norm_num) (by omega))
        have hbound : MAX_I128_REPR * 10 ^ 38 < 10 ^ 76 := by
          norm_num [MAX_I128_REPR]
        have hk76 : k ≤ 76 := by
          by_contra hcon
          push_neg at hcon
          have h1 : (10:Nat) ^ 77 ≤ 10 ^ k :=
            Nat.pow_le_pow_right (by norm_num) (by omega)
          have h2 : (10:Nat) ^ 76 < 10 ^ 77 := by norm_num
          omega
        have he77 : y.scale - x.scale < 77 := by
          simp only [hkdef] at hk76
          omega
        rw [if_pos he77] at hr
        have hPk : POWERS_10 (y.scale - x.scale).toNat = 10 ^ k :=
          POWERS_10_eq_pow _ (by omega)
        have hmul : u256checked_mul (POWERS_10 (y.scale - x.scale).toNat) x.int_val
            = some (x.int_val * 10 ^ k) := by
          unfold u256checked_mul
          rw [hPk, Nat.mul_comm]
          rw [if_pos (by omega)]
        rw [hmul] at hr
        dsimp only at hr
        have hsub : u256checked_sub (x.int_val * 10 ^ k) y.int_val
            = some (x.int_val * 10 ^ k - y.int_val) := by
          unfold u256checked_sub
          rw [if_pos hge]
        rw [hsub] at hr
        dsimp only at hr
        rcases adjust_scale_exact (by omega) ht hfloor htD hr with ⟨hv, hw⟩
        refine ⟨?_, hw⟩
        rw [hv, ← htD, ← hmagD]
    · exfalso
      have hle : x.int_val * 10 ^ k - y.int_val ≤ t := by
        rw [hteq]
        exact Nat.le_mul_of_pos_right _ (Nat.pos_pow_of_pos _ (by norm_num))
      omega
  · rw [if_neg he38] at hr
    have hk38 : k ≤ 38 := by
      simp only [hkdef]
      simp only [show (MAX_PRECISION : Int) = 38 from rfl] at he38
      omega
    rw [show POWERS_10_low (y.scale - x.scale).toNat = 10 ^ k from
      POWERS_10_low_eq_pow _ hk38] at hr
    have hAle : x.int_val * 10 ^ k ≤ MAX_I128_REPR * 10 ^ 38 :=
      Nat.mul_le_mul hxM (Nat.pow_le_pow_right (by norm_num) hk38)
    have hbound : MAX_I128_REPR * 10 ^ 38 < 10 ^ 77 := by
      norm_num [MAX_I128_REPR]
    by_cases hge : x.int_val * 10 ^ k ≥ y.int_val
    · rw [if_pos hge] at hr
      have hmagD : mag x - mag y
          = ((x.int_val * 10 ^ k - y.int_val : Nat) : ℚ) * (10:ℚ) ^ (-y.scale) :=
        mag_sub_align (le_of_lt hxy) hge
      have hmagnn : (0:ℚ) ≤ mag x - mag y := by
        rw [hmagD]
        positivity
      have htD : ((x.int_val * 10 ^ k - y.int_val : Nat) : ℚ) * (10:ℚ) ^ (-y.scale)
          = (t:ℚ) * (10:ℚ) ^ z := by
        rcases hval with h | h
        · rw [← hmagD]; exact h
        · have h1 : mag x - mag y = 0 := by linarith
          have h2 : (t:ℚ) * (10:ℚ) ^ z = 0 := by linarith
          rw [← hmagD, h1, h2]
      rcases adjust_scale_exact (by omega) ht hfloor htD hr with ⟨hv, hw⟩
      refine ⟨?_, hw⟩
      rw [hv, ← htD, ← hmagD]
    · rw [if_neg hge] at hr
      push_neg at hge
      have hmagD : mag y - mag x
          = ((y.int_val - x.int_val * 10 ^ k : Nat) : ℚ) * (10:ℚ) ^ (-y.scale) := by
        rw [mag_align (le_of_lt hxy)]
        unfold mag
        rw [Nat.cast_sub (le_of_lt hge)]
        push_cast
        ring
      have hmagnn : (0:ℚ) ≤ mag y - mag x := by
        rw [hmagD]
        positivity
      have htD : ((y.int_val - x.int_val * 10 ^ k : Nat) : ℚ) * (10:ℚ) ^ (-y.scale)
          = (t:ℚ) * (10:ℚ) ^ z := by
        rcases hval with h | h
        · have h1 : mag y - mag x = 0 := by linarith
          have h2 : (t:ℚ) * (10:ℚ) ^ z = 0 := by linarith
          rw [← hmagD, h1, h2]
        · rw [← hmagD]; exact h
      rcases adjust_scale_exact (show y.int_val - x.int_val * 10 ^ k < 10 ^ 77
          by omega) ht hfloor htD hr with ⟨hv, hw⟩
      refine ⟨?_, hw⟩
      rw [hv, ← htD, ← hmagD]
      cases neg <;> norm_num

theorem sign_not (neg : Bool) :
    (if !neg then (-1:ℚ) else 1) = -(if neg then (-1:ℚ) else 1) := by
  cases neg <;> norm_num

theorem add_internal_exact {x y : Decimal} {neg : Bool} {t : Nat} {z : Int} {r : Decimal}
    (hwx : WellFormed x) (hwy : WellFormed y)
    (ht : t ≤ MAX_I128_REPR) (hfloor : -z - (count_digits t : Int) < MAX_SCALE)
    (hval : mag x + mag y = (t:ℚ) * (10:ℚ) ^ z)
    (hr : add_internal x y neg = some r) :
    val r = (if neg then (-1:ℚ) else 1) * ((t:ℚ) * (10:ℚ) ^ z) ∧ WellFormed r := by
  have hMAX : MAX_I128_REPR = 10 ^ 38 - 1 := by norm_num [MAX_I128_REPR]
  have hxM := hwx.1
  have hyM := hwy.1
  unfold add_internal at hr
  dsimp only at hr
  by_cases hsc : x.scale ≠ y.scale
  · rw [if_pos hsc] at hr
    by_cases hlt : x.scale < y.scale
    · rw [if_pos hlt] at hr
      exact rescale_add_exact hwx hwy hlt ht hfloor hval hr
    · rw [if_neg hlt] at hr
      exact rescale_add_exact hwy hwx (by omega) ht hfloor (by rw [← hval]; ring) hr
  · rw [if_neg hsc] at hr
    push_neg at hsc
    have hsum : ((x.int_val + y.int_val : Nat) : ℚ) * (10:ℚ) ^ (-x.scale)
        = (t:ℚ) * (10:ℚ) ^ z := by
      rw [← hval]
      unfold mag
      rw [hsc]
      push_cast
      ring
    have h128 : x.int_val + y.int_val < U128_LIMIT := by
      norm_num [U128_LIMIT]
      omega
    by_cases hfast : ¬is_decimal_overflowed (x.int_val + y.int_val) = true ∧ x.scale ≥ 0
    · rw [if_pos hfast] at hr
      have hlt38 : x.int_val + y.int_val < 10 ^ 38 := by
        rcases Nat.lt_or_ge (x.int_val + y.int_val) (10 ^ 38) with h | h
        · exact h
        · exact absurd ((is_decimal_overflowed_iff h128).mpr h) hfast.1
      rw [show u256low (x.int_val + y.int_val) = x.int_val + y.int_val from
        Nat.mod_eq_of_lt h128] at hr
      by_cases h0 : x.int_val + y.int_val = 0
      · rw [show from_parts_unchecked (x.int_val + y.int_val) x.scale neg = ZERO from by
          unfold from_parts_unchecked; rw [h0]; norm_num] at hr
        have hrz : r = ZERO := ((Option.some.injEq _ _).mp hr).symm
        subst hrz
        have ht0 : (t:ℚ) * (10:ℚ) ^ z = 0 := by
          rw [← hsum, h0]
          push_cast
          ring
        refine ⟨?_, wf_zero⟩
        rw [ht0, mul_zero]
        unfold val ZERO
        push_cast
        ring
      · rw [show from_parts_unchecked (x.int_val + y.int_val) x.scale neg
          = ⟨x.int_val + y.int_val, x.scale, neg⟩ from by
          unfold from_parts_unchecked; rw [if_pos (by simpa using h0)]] at hr
        have hrv : r = ⟨x.int_val + y.int_val, x.scale, neg⟩ :=
          ((Option.some.injEq _ _).mp hr).symm
        subst hrv
        constructor
        · unfold val
          dsimp only
          rw [mul_assoc, hsum]
        · exact ⟨show x.int_val + y.int_val ≤ MAX_I128_REPR by omega, hwx.2.1, hwx.2.2.1,
            fun hz => absurd (show x.int_val + y.int_val = 0 from hz) h0⟩
    · rw [if_neg hfast] at hr
      have h77 : x.int_val + y.int_val < 10 ^ 77 := by
        have : (10:Nat) ^ 38 < 10 ^ 77 := by norm_num
        omega
      exact adjust_scale_exact h77 ht hfloor hsum hr

theorem sub_internal_exact {x y : Decimal} {neg : Bool} {t : Nat} {z : Int} {r : Decimal}
    (hwx : WellFormed x) (hwy : WellFormed y)
    (hoz : y.int_val = 0 → x.negative = neg ∨ x.int_val = 0)
    (ht : t ≤ MAX_I128_REPR) (hfloor : -z - (count_digits t : Int) < MAX_SCALE)
    (hval : mag x - mag y = (t:ℚ) * (10:ℚ) ^ z ∨ mag y - mag x = (t:ℚ) * (10:ℚ) ^ z)
    (hr : sub_internal x y neg = some r) :
    val r = (if neg then (-1:ℚ) else 1) * (mag x - mag y) ∧ WellFormed r := by
  have hMAX : MAX_I128_REPR = 10 ^ 38 - 1 := by norm_num [MAX_I128_REPR]
  have hxM := hwx.1
  have hyM := hwy.1
  unfold sub_internal at hr
  by_cases hy0 : y.int_val = 0
  · rw [if_pos hy0] at hr
    have hrx : r = x := ((Option.some.injEq _ _).mp hr).symm
    refine ⟨?_, hrx ▸ hwx⟩
    rw [hrx, (mag_zero_iff y).mpr hy0, sub_zero, val_eq_sign_mag]
    rcases hoz hy0 with h | h
    · rw [h]
    · rw [(mag_zero_iff x).mpr h, mul_zero, mul_zero]
  · rw [if_neg hy0] at hr
    by_cases hx0 : x.int_val = 0
    · rw [if_pos hx0] at hr
      rw [show from_parts_unchecked y.int_val y.scale (!neg)
          = ⟨y.int_val, y.scale, !neg⟩ from by
        unfold from_parts_unchecked; rw [if_pos (by simpa using hy0)]] at hr
      have hrv : r = ⟨y.int_val, y.scale, !neg⟩ := ((Option.some.injEq _ _).mp hr).symm
      subst hrv
      constructor
      · rw [(mag_zero_iff x).mpr hx0, zero_sub]
        unfold val
        dsimp only
        rw [show ((if (!neg) = true then (-1:ℚ) else 1)) = -(if neg = true then (-1:ℚ) else 1)
          from sign_not neg]
        unfold mag
        ring
      · exact ⟨hwy.1, hwy.2.1, hwy.2.2.1,
          fun hz => absurd (show y.int_val = 0 from hz) hy0⟩
    · rw [if_neg hx0] at hr
      by_cases hsc : x.scale ≠ y.scale
      · rw [if_pos hsc] at hr
        by_cases hlt : x.scale < y.scale
        · rw [if_pos hlt] at hr
          exact rescale_sub_exact hwx hwy hlt hx0 hy0 ht hfloor hval hr
        · rw [if_neg hlt] at hr
          rcases rescale_sub_exact hwy hwx (by omega) hy0 hx0 ht hfloor hval.symm hr
            with ⟨hv, hw⟩
          refine ⟨?_, hw⟩
          rw [hv, show ((if (!neg) = true then (-1:ℚ) else 1))
            = -(if neg = true then (-1:ℚ) else 1) from sign_not neg]
          ring
      · rw [if_neg hsc] at hr
        push_neg at hsc
        by_cases hge : x.int_val ≥ y.int_val
        · rw [if_pos hge] at hr
          have hmagD : mag x - mag y
              = ((x.int_val - y.int_val : Nat) : ℚ) * (10:ℚ) ^ (-x.scale) := by
            unfold mag
            rw [hsc, Nat.cast_sub hge]
            ring
          by_cases h0 : x.int_val - y.int_val = 0
          · rw [show from_parts_unchecked (x.int_val - y.int_val) x.scale neg = ZERO from by
              unfold from_parts_unchecked; rw [h0]; norm_num] at hr
            have hrz : r = ZERO := ((Option.some.injEq _ _).mp hr).symm
            subst hrz
            refine ⟨?_, wf_zero⟩
            rw [hmagD, h0]
            unfold val ZERO
            push_cast
            ring
          · rw [show from_parts_unchecked (x.int_val - y.int_val) x.scale neg
              = ⟨x.int_val - y.int_val, x.scale, neg⟩ from by
              unfold from_parts_unchecked; rw [if_pos (by simpa using h0)]] at hr
            have hrv : r = ⟨x.int_val - y.int_val, x.scale, neg⟩ :=
              ((Option.some.injEq _ _).mp hr).symm
            subst hrv
            constructor
            · rw [hmagD]
              unfold val
              dsimp only
              ring
            · exact ⟨show x.int_val - y.int_val ≤ MAX_I128_REPR by omega, hwx.2.1, hwx.2.2.1,
                fun hz => absurd (show x.int_val - y.int_val = 0 from hz) h0⟩
        · rw [if_neg hge] at hr
          push_neg at hge
          have hmagD : mag y - mag x
              = ((y.int_val - x.int_val : Nat) : ℚ) * (10:ℚ) ^ (-x.scale) := by
            unfold mag
            rw [hsc, Nat.cast_sub (le_of_lt hge)]
            ring
          have h0 : y.int_val - x.int_val ≠ 0 := by omega
          rw [show from_parts_unchecked (y.int_val - x.int_val) x.scale (!neg)
              = ⟨y.int_val - x.int_val, x.scale, !neg⟩ from by
            unfold from_parts_unchecked; rw [if_pos (by simpa using h0)]] at hr
          have hrv : r = ⟨y.int_val - x.int_val, x.scale, !neg⟩ :=
            ((Option.some.injEq _ _).mp hr).symm
          subst hrv
          constructor
          · rw [show mag x - mag y = -(mag y - mag x) from by ring, hmagD]
            unfold val
            dsimp only
            rw [show ((if (!neg) = true then (-1:ℚ) else 1))
              = -(if neg = true then (-1:ℚ) else 1) from sign_not neg]
            ring
          · exact ⟨show y.int_val - x.int_val ≤ MAX_I128_REPR by omega, hwx.2.1, hwx.2.2.1,
              fun hz => absurd (show y.int_val - x.int_val = 0 from hz) h0⟩

theorem rescale_add_wf {x y : Decimal} {neg : Bool} {r : Decimal}
    (hwx : WellFormed x) (hwy : WellFormed y) (hxy : x.scale < y.scale)
    (hex : val r = (if neg then (-1:ℚ) else 1) * (mag x + mag y))
    (hr : rescale_add x y neg = some r) : WellFormed r := by
  have hMAX : MAX_I128_REPR = 10 ^ 38 - 1 := by norm_num [MAX_I128_REPR]
  have hxM := hwx.1
  have hyM := hwy.1
  have h389 : (10:Nat) ^ 38 < 10 ^ 39 := by norm_num
  set k := (y.scale - x.scale).toNat with hkdef
  have hk1 : 1 ≤ k := by simp only [hkdef]; omega
  have hexA : val r = (if neg then (-1:ℚ) else 1)
      * (((x.int_val * 10 ^ k + y.int_val : Nat) : ℚ) * (10:ℚ) ^ (-y.scale)) := by
    rw [hex, mag_add_align (le_of_lt hxy)]
  unfold rescale_add at hr
  dsimp only at hr
  by_cases he38 : y.scale - x.scale > (MAX_PRECISION : Int)
  · rw [if_pos he38] at hr
    have hk39 : 39 ≤ k := by
      simp only [hkdef]
      simp only [show (MAX_PRECISION : Int) = 38 from rfl] at he38
      omega
    by_cases hx0 : x.int_val = 0
    · rw [if_pos hx0] at hr
      rw [← ((Option.some.injEq _ _).mp hr)]
      exact (fpu_exact neg hwy).2
    · rw [if_neg hx0] at hr
      by_cases hy0 : y.int_val = 0
      · rw [if_pos hy0] at hr
        rw [← ((Option.some.injEq _ _).mp hr)]
        exact (fpu_exact neg hwx).2
      · rw [if_neg hy0] at hr
        by_cases he77 : y.scale - x.scale < 77
        · rw [if_pos he77] at hr
          rw [show POWERS_10 (y.scale - x.scale).toNat = 10 ^ k from
            POWERS_10_eq_pow _ (by omega)] at hr
          unfold u256checked_mul at hr
          by_cases hm : 10 ^ k * x.int_val < U256_LIMIT
          · rw [if_pos hm] at hr
            dsimp only at hr
            unfold u256checked_add at hr
            by_cases ha : 10 ^ k * x.int_val + y.int_val < U256_LIMIT
            · rw [if_pos ha] at hr
              dsimp only at hr
              rw [Nat.mul_comm (10 ^ k) x.int_val] at hr
              apply adjust_scale_wf ?_ hexA hr
              intro h77 hdvd
              have hdy : (10:Nat) ^ 39 ∣ y.int_val := dvd_residual_add hk39 hdvd
              exact hy0 (eq_zero_of_dvd_lt hdy (by omega))
            · rw [if_neg ha] at hr
              dsimp only at hr
              rw [← ((Option.some.injEq _ _).mp hr)]
              exact (fpu_exact neg hwx).2
          · rw [if_neg hm] at hr
            dsimp only at hr
            rw [← ((Option.some.injEq _ _).mp hr)]
            exact (fpu_exact neg hwx).2
        · rw [if_neg he77] at hr
          dsimp only at hr
          rw [← ((Option.some.injEq _ _).mp hr)]
          exact (fpu_exact neg hwx).2
  · rw [if_neg he38] at hr
    have hk38 : k ≤ 38 := by
      simp only [hkdef]
      simp only [show (MAX_PRECISION : Int) = 38 from rfl] at he38
      omega
    rw [show POWERS_10_low (y.scale - x.scale).toNat = 10 ^ k from
      POWERS_10_low_eq_pow _ hk38] at hr
    have hsumle : x.int_val * 10 ^ k + y.int_val
        ≤ MAX_I128_REPR * 10 ^ 38 + MAX_I128_REPR := by
      have h1 : x.int_val * 10 ^ k ≤ MAX_I128_REPR * 10 ^ 38 :=
        Nat.mul_le_mul hxM (Nat.pow_le_pow_right (by norm_num) hk38)
      omega
    have hbound : MAX_I128_REPR * 10 ^ 38 + MAX_I128_REPR < 10 ^ 77 := by
      norm_num [MAX_I128_REPR]
    exact adjust_scale_wf (fun h77 => absurd h77 (by omega)) hexA hr

theorem rescale_sub_wf {x y : Decimal} {neg : Bool} {r : Decimal}
    (hwx : WellFormed x) (hwy : WellFormed y) (hxy : x.scale < y.scale)
    (hy0 : y.int_val ≠ 0)
    (hex : val r = (if neg then (-1:ℚ) else 1) * (mag x - mag y))
    (hr : rescale_sub x y neg = some r) : WellFormed r := by
  have hMAX : MAX_I128_REPR = 10 ^ 38 - 1 := by norm_num [MAX_I128_REPR]
  have hxM := hwx.1
  have hyM := hwy.1
  have h389 : (10:Nat) ^ 38 < 10 ^ 39 := by norm_num
  set k := (y.scale - x.scale).toNat with hkdef
  have hk1 : 1 ≤ k := by simp only [hkdef]; omega
  unfold rescale_sub at hr
  dsimp only at hr
  by_cases he38 : y.scale - x.scale > (MAX_PRECISION : Int)
  · rw [if_pos he38] at hr
    have hk39 : 39 ≤ k := by
      simp only [hkdef]
      simp only [show (MAX_PRECISION : Int) = 38 from rfl] at he38
      omega
    by_cases he77 : y.scale - x.scale < 77
    · rw [if_pos he77] at hr
      rw [show POWERS_10 (y.scale - x.scale).toNat = 10 ^ k from
        POWERS_10_eq_pow _ (by omega)] at hr
      unfold u256checked_mul at hr
      by_cases hm : 10 ^ k * x.int_val < U256_LIMIT
      · rw [if_pos hm] at hr
        dsimp only at hr
        unfold u256checked_sub at hr
        by_cases hs : y.int_val ≤ 10 ^ k * x.int_val
        · rw [if_pos hs] at hr
          dsimp only at hr
          rw [Nat.mul_comm (10 ^ k) x.int_val] at hr
          rw [Nat.mul_comm (10 ^ k) x.int_val] at hs
          have hexD : val r = (if neg then (-1:ℚ) else 1)
              * (((x.int_val * 10 ^ k - y.int_val : Nat) : ℚ) * (10:ℚ) ^ (-y.scale)) := by
            rw [hex, mag_sub_align (le_of_lt hxy) hs]
          apply adjust_scale_wf ?_ hexD hr
          intro h77 hdvd
          have hdy : (10:Nat) ^ 39 ∣ y.int_val := dvd_residual_sub hk39 hs hdvd
          exact hy0 (eq_zero_of_dvd_lt hdy (by omega))
        · rw [if_neg hs] at hr
          dsimp only at hr
          rw [← ((Option.some.injEq _ _).mp hr)]
          exact (fpu_exact neg hwx).2
      · rw [if_neg hm] at hr
        dsimp only at hr
        rw [← ((Option.some.injEq _ _).mp hr)]
        exact (fpu_exact neg hwx).2
    · rw [if_neg he77] at hr
      dsimp only at hr
      rw [← ((Option.some.injEq _ _).mp hr)]
      exact (fpu_exact neg hwx).2
  · rw [if_neg he38] at hr
    have hk38 : k ≤ 38 := by
      simp only [hkdef]
      simp only [show (MAX_PRECISION : Int) = 38 from rfl] at he38
      omega
    rw [show POWERS_10_low (y.scale - x.scale).toNat = 10 ^ k from
      POWERS_10_low_eq_pow _ hk38] at hr
    have hAle : x.int_val * 10 ^ k ≤ MAX_I128_REPR * 10 ^ 38 :=
      Nat.mul_le_mul hxM (Nat.pow_le_pow_right (by norm_num) hk38)
    have hbound : MAX_I128_REPR * 10 ^ 38 < 10 ^ 77 := by
      norm_num [MAX_I128_REPR]
    by_cases hge : x.int_val * 10 ^ k ≥ y.int_val
    · rw [if_pos hge] at hr
      have hexD : val r = (if neg then (-1:ℚ) else 1)
          * (((x.int_val * 10 ^ k - y.int_val : Nat) : ℚ) * (10:ℚ) ^ (-y.scale)) := by
        rw [hex, mag_sub_align (le_of_lt hxy) hge]
      exact adjust_scale_wf (fun h77 => absurd h77 (by omega)) hexD hr
    · rw [if_neg hge] at hr
      push_neg at hge
      have hexD : val r = (if (!neg) then (-1:ℚ) else 1)
          * (((y.int_val - x.int_val * 10 ^ k : Nat) : ℚ) * (10:ℚ) ^ (-y.scale)) := by
        rw [hex, sign_not neg]
        have hD : mag y - mag x
            = ((y.int_val - x.int_val * 10 ^ k : Nat) : ℚ) * (10:ℚ) ^ (-y.scale) := by
          rw [mag_align (le_of_lt hxy)]
          unfold mag
          rw [Nat.cast_sub (le_of_lt hge)]
          push_cast
          ring
        rw [show mag x - mag y = -(mag y - mag x) from by ring, hD]
        ring
      exact adjust_scale_wf (fun h77 => absurd h77 (by omega)) hexD hr

theorem add_internal_wf {x y : Decimal} {neg : Bool} {r : Decimal}
    (hwx : WellFormed x) (hwy : WellFormed y)
    (hex : val r = (if neg then (-1:ℚ) else 1) * (mag x + mag y))
    (hr : add_internal x y neg = some r) : WellFormed r := by
  have hMAX : MAX_I128_REPR = 10 ^ 38 - 1 := by norm_num [MAX_I128_REPR]
  have hxM := hwx.1
  have hyM := hwy.1
  unfold add_internal at hr
  dsimp only at hr
  by_cases hsc : x.scale ≠ y.scale
  · rw [if_pos hsc] at hr
    by_cases hlt : x.scale < y.scale
    · rw [if_pos hlt] at hr
      exact rescale_add_wf hwx hwy hlt hex hr
    · rw [if_neg hlt] at hr
      exact rescale_add_wf hwy hwx (by omega) (by rw [hex]; ring_nf) hr
  · rw [if_neg hsc] at hr
    push_neg at hsc
    have h128 : x.int_val + y.int_val < U128_LIMIT := by
      norm_num [U128_LIMIT]
      omega
    by_cases hfast : ¬is_decimal_overflowed (x.int_val + y.int_val) = true ∧ x.scale ≥ 0
    · rw [if_pos hfast] at hr
      have hlt38 : x.int_val + y.int_val < 10 ^ 38 := by
        rcases Nat.lt_or_ge (x.int_val + y.int_val) (10 ^ 38) with h | h
        · exact h
        · exact absurd ((is_decimal_overflowed_iff h128).mpr h) hfast.1
      rw [show u256low (x.int_val + y.int_val) = x.int_val + y.int_val from
        Nat.mod_eq_of_lt h128] at hr
      rw [← ((Option.some.injEq _ _).mp hr)]
      by_cases h0 : x.int_val + y.int_val = 0
      · rw [show from_parts_unchecked (x.int_val + y.int_val) x.scale neg = ZERO from by
          unfold from_parts_unchecked; rw [h0]; norm_num]
        exact wf_zero
      · rw [show from_parts_unchecked (x.int_val + y.int_val) x.scale neg
          = ⟨x.int_val + y.int_val, x.scale, neg⟩ from by
          unfold from_parts_unchecked; rw [if_pos (by simpa using h0)]]
        exact ⟨show x.int_val + y.int_val ≤ MAX_I128_REPR by omega, hwx.2.1, hwx.2.2.1,
          fun hz => absurd (show x.int_val + y.int_val = 0 from hz) h0⟩
    · rw [if_neg hfast] at hr
      have hexA : val r = (if neg then (-1:ℚ) else 1)
          * (((x.int_val + y.int_val : Nat) : ℚ) * (10:ℚ) ^ (-x.scale)) := by
        rw [hex]
        unfold mag
        rw [hsc]
        push_cast
        ring_nf
      apply adjust_scale_wf ?_ hexA hr
      intro h77
      exfalso
      have : (10:Nat) ^ 38 < 10 ^ 77 := by norm_num
      omega

theorem sub_internal_wf {x y : Decimal} {neg : Bool} {r : Decimal}
    (hwx : WellFormed x) (hwy : WellFormed y)
    (hex : val r = (if neg then (-1:ℚ) else 1) * (mag x - mag y))
    (hr : sub_internal x y neg = some r) : WellFormed r := by
  have hMAX : MAX_I128_REPR = 10 ^ 38 - 1 := by norm_num [MAX_I128_REPR]
  have hxM := hwx.1
  have hyM := hwy.1
  unfold sub_internal at hr
  by_cases hy0 : y.int_val = 0
  · rw [if_pos hy0] at hr
    rw [← ((Option.some.injEq _ _).mp hr)]
    exact hwx
  · rw [if_neg hy0] at hr
    by_cases hx0 : x.int_val = 0
    · rw [if_pos hx0] at hr
      rw [← ((Option.some.injEq _ _).mp hr)]
      exact (fpu_exact (!neg) hwy).2
    · rw [if_neg hx0] at hr
      by_cases hsc : x.scale ≠ y.scale
      · rw [if_pos hsc] at hr
        by_cases hlt : x.scale < y.scale
        · rw [if_pos hlt] at hr
          exact rescale_sub_wf hwx hwy hlt hy0 hex hr
        · rw [if_neg hlt] at hr
          apply rescale_sub_wf hwy hwx (by omega) hx0 ?_ hr
          rw [hex, sign_not neg]
          ring
      · rw [if_neg hsc] at hr
        push_neg at hsc
        by_cases hge : x.int_val ≥ y.int_val
        · rw [if_pos hge] at hr
          rw [← ((Option.some.injEq _ _).mp hr)]
          by_cases h0 : x.int_val - y.int_val = 0
          · rw [show from_parts_unchecked (x.int_val - y.int_val) x.scale neg = ZERO from by
              unfold from_parts_unchecked; rw [h0]; norm_num]
            exact wf_zero
          · rw [show from_parts_unchecked (x.int_val - y.int_val) x.scale neg
              = ⟨x.int_val - y.int_val, x.scale, neg⟩ from by
              unfold from_parts_unchecked; rw [if_pos (by simpa using h0)]]
            exact ⟨show x.int_val - y.int_val ≤ MAX_I128_REPR by omega, hwx.2.1, hwx.2.2.1,
              fun hz => absurd (show x.int_val - y.int_val = 0 from hz) h0⟩
        · rw [if_neg hge] at hr
          push_neg at hge
          rw [← ((Option.some.injEq _ _).mp hr)]
          have h0 : y.int_val - x.int_val ≠ 0 := by omega
          rw [show from_parts_unchecked (y.int_val - x.int_val) x.scale (!neg)
              = ⟨y.int_val - x.int_val, x.scale, !neg⟩ from by
            unfold from_parts_unchecked; rw [if_pos (by simpa using h0)]]
          exact ⟨show y.int_val - x.int_val ≤ MAX_I128_REPR by omega, hwx.2.1, hwx.2.2.1,
            fun hz => absurd (show y.int_val - x.int_val = 0 from hz) h0⟩

theorem bool_ne_cases {a b : Bool} (h : a ≠ b) :
    a = true ∧ b = false ∨ a = false ∧ b = true := by
  cases a <;> cases b <;> simp_all

theorem sign_true : (if (true = true) then (-1:ℚ) else 1) = -1 := rfl
theorem sign_false : (if (false = true) then (-1:ℚ) else 1) = 1 := rfl

/-- An exact `checked_add` produces a well-formed result. -/
theorem checked_add_wf {a b s : Decimal}
    (hwa : WellFormed a) (hwb : WellFormed b)
    (hs : checked_add a b = some s) (hex : val s = val a + val b) :
    WellFormed s := by
  unfold checked_add at hs
  by_cases hsd : a.negative ≠ b.negative
  · rw [if_pos hsd] at hs
    rcases bool_ne_cases hsd with ⟨han, hbn⟩ | ⟨han, hbn⟩
    · -- a negative, b positive: sub_internal b a b.negative
      rw [if_neg (by rw [hbn]; exact Bool.noConfusion)] at hs
      apply sub_internal_wf hwb hwa ?_ hs
      rw [hex, val_eq_sign_mag a, val_eq_sign_mag b, han, hbn, sign_true, sign_false]
      ring
    · -- a positive, b negative: sub_internal a b a.negative
      rw [if_pos hbn] at hs
      apply sub_internal_wf hwa hwb ?_ hs
      rw [hex, val_eq_sign_mag a, val_eq_sign_mag b, han, hbn, sign_false, sign_true]
      ring
  · rw [if_neg hsd] at hs
    push_neg at hsd
    apply add_internal_wf hwa hwb ?_ hs
    rw [hex, val_eq_sign_mag a, val_eq_sign_mag b, ← hsd]
    cases han : a.negative
    · rw [sign_false]
      ring
    · rw [sign_true]
      ring

/-- An exact `checked_sub` whose true result is representable by the
well-formed `c` (above the flush-to-zero floor) computes exactly `c`'s
value and stays well-formed. -/
theorem checked_sub_exact {x y c r : Decimal}
    (hwx : WellFormed x) (hwy : WellFormed y) (hwc : WellFormed c)
    (hfloor : c.scale - (count_digits c.int_val : Int) < MAX_SCALE)
    (hval : val x - val y = val c)
    (hr : checked_sub x y = some r) :
    val r = val c ∧ WellFormed r := by
  have ht : c.int_val ≤ MAX_I128_REPR := hwc.1
  have hfloorz : -(-c.scale) - (count_digits c.int_val : Int) < MAX_SCALE := by omega
  have hMdef : mag c = (c.int_val : ℚ) * (10:ℚ) ^ (-c.scale) := rfl
  have hvc : val c = (if c.negative then (-1:ℚ) else 1) * mag c := val_eq_sign_mag c
  have hMnn : (0:ℚ) ≤ mag c := mag_nonneg c
  have hxnn := mag_nonneg x
  have hynn := mag_nonneg y
  unfold checked_sub at hr
  by_cases hsd : x.negative ≠ y.negative
  · rw [if_pos hsd] at hr
    rcases bool_ne_cases hsd with ⟨hxn, hyn⟩ | ⟨hxn, hyn⟩
    · -- x negative, y positive: magnitudes add, result sign negative
      have hS : val c = -(mag x + mag y) := by
        rw [← hval, val_eq_sign_mag x, val_eq_sign_mag y, hxn, hyn, sign_true, sign_false]
        ring
      have hmag : mag x + mag y = (c.int_val : ℚ) * (10:ℚ) ^ (-c.scale) := by
        rw [← hMdef]
        by_cases hcn : c.negative = true
        · rw [hvc, if_pos hcn] at hS
          linarith
        · rw [hvc, if_neg hcn] at hS
          have h1 : mag x + mag y = 0 := by linarith
          have h2 : mag c = 0 := by linarith
          rw [h1, h2]
      rcases add_internal_exact hwx hwy ht hfloorz hmag hr with ⟨hv, hw⟩
      rw [hxn, sign_true] at hv
      refine ⟨?_, hw⟩
      rw [hv, hS, ← hmag]
      ring
    · -- x positive, y negative: magnitudes add, result positive
      have hS : val c = mag x + mag y := by
        rw [← hval, val_eq_sign_mag x, val_eq_sign_mag y, hxn, hyn, sign_false, sign_true]
        ring
      have hmag : mag x + mag y = (c.int_val : ℚ) * (10:ℚ) ^ (-c.scale) := by
        rw [← hMdef]
        by_cases hcn : c.negative = true
        · rw [hvc, if_pos hcn] at hS
          have h1 : mag x + mag y = 0 := by linarith
          have h2 : mag c = 0 := by linarith
          rw [h1, h2]
        · rw [hvc, if_neg hcn] at hS
          linarith
      rcases add_internal_exact hwx hwy ht hfloorz hmag hr with ⟨hv, hw⟩
      rw [hxn, sign_false] at hv
      refine ⟨?_, hw⟩
      rw [hv, hS, ← hmag]
      ring
  · rw [if_neg hsd] at hr
    push_neg at hsd
    by_cases hxn : x.negative = true
    · -- both negative: sub_internal y x false computes |y| - |x| = x - y
      rw [if_pos hxn] at hr
      rw [show (!x.negative) = false from by rw [hxn]; rfl] at hr
      have hyn : y.negative = true := hsd.symm.trans hxn
      have hS : val c = mag y - mag x := by
        rw [← hval, val_eq_sign_mag x, val_eq_sign_mag y, hxn, hyn, sign_true]
        ring
      have hdisj : mag y - mag x = (c.int_val : ℚ) * (10:ℚ) ^ (-c.scale) ∨
          mag x - mag y = (c.int_val : ℚ) * (10:ℚ) ^ (-c.scale) := by
        rw [← hMdef]
        by_cases hcn : c.negative = true
        · right
          rw [hvc, if_pos hcn] at hS
          linarith
        · left
          rw [hvc, if_neg hcn] at hS
          linarith
      have hoz : x.int_val = 0 → y.negative = false ∨ y.int_val = 0 := by
        intro h0
        exact absurd ((hwx.2.2.2 h0).2) (by rw [hxn]; exact Bool.noConfusion)
      rcases sub_internal_exact hwy hwx hoz ht hfloorz hdisj hr with ⟨hv, hw⟩
      rw [sign_false, one_mul] at hv
      refine ⟨?_, hw⟩
      rw [hv, ← hS]
    · -- both positive: sub_internal x y false computes |x| - |y| = x - y
      have hxn' : x.negative = false := by
        rcases Bool.eq_false_or_eq_true x.negative with h | h
        · exact absurd h hxn
        · exact h
      rw [if_neg hxn, hxn'] at hr
      have hyn : y.negative = false := hsd.symm.trans hxn'
      have hS : val c = mag x - mag y := by
        rw [← hval, val_eq_sign_mag x, val_eq_sign_mag y, hxn', hyn, sign_false]
        ring
      have hdisj : mag x - mag y = (c.int_val : ℚ) * (10:ℚ) ^ (-c.scale) ∨
          mag y - mag x = (c.int_val : ℚ) * (10:ℚ) ^ (-c.scale) := by
        rw [← hMdef]
        by_cases hcn : c.negative = true
        · right
          rw [hvc, if_pos hcn] at hS
          linarith
        · left
          rw [hvc, if_neg hcn] at hS
          linarith
      have hoz : y.int_val = 0 → x.negative = false ∨ x.int_val = 0 :=
        fun _ => Or.inl hxn'
      rcases sub_internal_exact hwx hwy hoz ht hfloorz hdisj hr with ⟨hv, hw⟩
      rw [sign_false, one_mul] at hv
      refine ⟨?_, hw⟩
      rw [hv, ← hS]

/-- C3 (amended): subtraction inverts addition whenever the addition is
exact — `s` denotes precisely the rational `a + b` — and the recovered
operand `a` lies above the flush-to-zero floor of `adjust_scale`
(`a.scale - digits(a) < MAX_SCALE`, i.e. `|a| > 10^-131` at 38 digits).
The result `r` then compares equal to `a`. -/
theorem c3_add_sub_inverse_exact :
    ∀ a b s r : Decimal, WellFormed a → WellFormed b →
      checked_add a b = some s → checked_sub s b = some r →
      val s = val a + val b →
      a.scale - (count_digits a.int_val : Int) < MAX_SCALE →
      cmp r a = .eq := by
  intro a b s r hwa hwb hadd hsub hexact hfloor
  have hMAX : MAX_I128_REPR = 10 ^ 38 - 1 := by norm_num [MAX_I128_REPR]
  have hws : WellFormed s := checked_add_wf hwa hwb hadd hexact
  have hvc : val s - val b = val a := by rw [hexact]; ring
  rcases checked_sub_exact hws hwb hwa hfloor hvc hsub with ⟨hvr, hwr⟩
  have h1 := hwr.1
  have h2 := hwa.1
  refine (cmp_eq_iff_val_eq r a (fun h0 => (hwr.2.2.2 h0).2) (fun h0 => (hwa.2.2.2 h0).2)
    (by omega) (by omega)).mpr hvr

/-- Witness for the amended C3 at `a = 1.23`, `b = 1`. -/
theorem c3_add_sub_inverse_exact_witness :
    cmp ⟨123, 2, false⟩ ⟨123, 2, false⟩ = .eq :=
  c3_add_sub_inverse_exact ⟨123, 2, false⟩ ⟨1, 0, false⟩ ⟨223, 2, false⟩ ⟨123, 2, false⟩
    (by decide) (by decide) (by decide) (by decide) (by norm_num [val]) (by decide)

/-- Without the floor condition the amended inverse law would fail: the
addition of `10^-131` and `10^-100` is exact, yet subtracting `10^-100`
from the sum flushes to zero in `adjust_scale`. -/
theorem add_exact_sub_flush_example :
    checked_add ⟨1, 131, false⟩ ⟨1, 100, false⟩
        = some ⟨10000000000000000000000000000001, 131, false⟩
      ∧ val ⟨10000000000000000000000000000001, 131, false⟩
        = val ⟨1, 131, false⟩ + val ⟨1, 100, false⟩
      ∧ checked_sub ⟨10000000000000000000000000000001, 131, false⟩ ⟨1, 100, false⟩
        = some ZERO := by
  refine ⟨by decide, ?_, by decide⟩
  norm_num [val]


/-! ## C6 (amended): the exponent range of the parser -/

theorem parse_str_eq_core (s : List Nat) (parts : Parts) (rest : List Nat)
    (h : parse_decimal s = .ok (parts, rest)) :
    parse_str s =
      (let st := pstate_of parts
       let int1 := (digits_to_nat (st.integral ++ st.fractional) +
         (if st.carry then 1 else 0)) % U128_LIMIT
       let adj :=
         if int1 > MAX_I128_REPR then
           (wrapI16 (st.normalized_exp + 1), int1 / 10, wrapI16 (st.scale - 1))
         else (st.normalized_exp, int1, st.scale)
       if adj.1 ≤ -MAX_SCALE then .error .underflow
       else if adj.1 > -MIN_SCALE then .error .overflow
       else
         .ok (from_parts_unchecked adj.2.1 (wrapI16 (adj.2.2 + castI16 st.fractional.length))
           (if adj.2.1 ≠ 0 then parts.sign else false), rest)) := by
  unfold parse_str pstate_of
  rw [h]

/-- C6 (amended): for any string whose parts extraction succeeds,
`parse_str` errors with `Underflow` exactly when the post-rounding
normalized exponent — as the parser computes it, in wrapping 16-bit
arithmetic — is `≤ −130`, errors with `Overflow` exactly when it exceeds
`126`, and otherwise succeeds; separately, an exponent field with more
than three significant digits is rejected by `extract_exponent`
immediately with `Overflow` (positive sign) or `Underflow` (negative
sign), regardless of the mantissa. -/
theorem c6_parse_str_exponent_range :
    (∀ s parts rest, parse_decimal s = .ok (parts, rest) →
      ((parse_str s = .error .underflow ↔
          adjusted_exp (pstate_of parts) ≤ -(MAX_SCALE : Int)) ∧
       (parse_str s = .error .overflow ↔
          -(MIN_SCALE : Int) < adjusted_exp (pstate_of parts)) ∧
       (-(MAX_SCALE : Int) < adjusted_exp (pstate_of parts) →
        adjusted_exp (pstate_of parts) ≤ -(MIN_SCALE : Int) →
        ∃ d, parse_str s = .ok (d, rest)))) ∧
    (∀ s, (eat_digits (extract_sign s).2).1 ≠ [] →
      3 < ((eat_digits (extract_sign s).2).1.dropWhile (· = 48)).length →
      extract_exponent s = .error (if (extract_sign s).1 then .underflow else .overflow)) := by
  constructor
  · intro s parts rest h
    rw [parse_str_eq_core s parts rest h]
    dsimp only
    set st := pstate_of parts with hst
    have hE : adjusted_exp st =
        (if (digits_to_nat (st.integral ++ st.fractional) +
            (if st.carry then 1 else 0)) % U128_LIMIT > MAX_I128_REPR then
          (wrapI16 (st.normalized_exp + 1),
            ((digits_to_nat (st.integral ++ st.fractional) +
              (if st.carry then 1 else 0)) % U128_LIMIT) / 10, wrapI16 (st.scale - 1))
         else (st.normalized_exp, (digits_to_nat (st.integral ++ st.fractional) +
            (if st.carry then 1 else 0)) % U128_LIMIT, st.scale)).1 := by
      unfold adjusted_exp
      by_cases hC : (digits_to_nat (st.integral ++ st.fractional) +
          (if st.carry then 1 else 0)) % U128_LIMIT > MAX_I128_REPR
      · rw [if_pos hC, if_pos hC]
      · rw [if_neg hC, if_neg hC]
    rw [hE]
    generalize (if (digits_to_nat (st.integral ++ st.fractional) +
        (if st.carry then 1 else 0)) % U128_LIMIT > MAX_I128_REPR then
      (wrapI16 (st.normalized_exp + 1),
        ((digits_to_nat (st.integral ++ st.fractional) +
          (if st.carry then 1 else 0)) % U128_LIMIT) / 10, wrapI16 (st.scale - 1))
     else (st.normalized_exp, (digits_to_nat (st.integral ++ st.fractional) +
        (if st.carry then 1 else 0)) % U128_LIMIT, st.scale)) = adj
    by_cases hU : adj.1 ≤ -MAX_SCALE
    · rw [if_pos hU]
      refine ⟨⟨fun _ => hU, fun _ => rfl⟩, ⟨fun hx => ?_, fun hx => ?_⟩, fun h1 h2 => ?_⟩
      · exact absurd hx (by intro hc; exact ParseErr.noConfusion (Except.error.inj hc))
      · simp only [MAX_SCALE, MIN_SCALE] at hU hx; omega
      · exact absurd hU (by simp only [MAX_SCALE] at h1 ⊢; omega)
    · rw [if_neg hU]
      by_cases hO : adj.1 > -MIN_SCALE
      · rw [if_pos hO]
        refine ⟨⟨fun hx => ?_, fun hx => ?_⟩, ⟨fun _ => hO, fun _ => rfl⟩, fun h1 h2 => ?_⟩
        · exact absurd hx (by intro hc; exact ParseErr.noConfusion (Except.error.inj hc))
        · exact absurd hx hU
        · exact absurd hO (by simp only [MIN_SCALE] at h2 ⊢; omega)
      · rw [if_neg hO]
        refine ⟨⟨fun hx => ?_, fun hx => ?_⟩, ⟨fun hx => ?_, fun hx => ?_⟩, fun _ _ => ?_⟩
        · exact Except.noConfusion hx
        · exact absurd hx hU
        · exact Except.noConfusion hx
        · exact absurd hx hO
        · exact ⟨_, rfl⟩
  · intro s h1 h2
    unfold extract_exponent
    dsimp only
    rw [if_neg h1, if_pos h2]
    by_cases hs : (extract_sign s).1 = true
    · rw [if_pos hs, if_pos hs]
    · rw [if_neg hs, if_neg hs]

/-- Witness for the amended C6 on the string `"1e125"`, whose normalized
exponent `126` is the largest accepted. -/
theorem c6_parse_str_exponent_range_witness :
    ∃ d, parse_str [49, 101, 49, 50, 53] = .ok (d, []) :=
  (c6_parse_str_exponent_range.1 [49, 101, 49, 50, 53] ⟨false, [49], [], 125⟩ []
    (by decide)).2.2 (by decide) (by decide)

end DecimalRs
